import Mathlib

/-!
Memoh channel layer: session identity, the local session hub, the descriptor
registry and the base connection.

A shallow embedding of `internal/channel/types.go` (messages and session
identity), `internal/channel/cli_hub.go` (the in-process publish/subscribe
hub), `internal/channel/registry.go` (the descriptor registry),
`internal/channel/adapter.go` (the base connection),
`internal/channel/target.go` and `internal/channel/config.go` (the resolution
pipeline), `internal/channel/adapters/local` (the CLI and Web senders),
`internal/channel/adapters/common/logging.go` (text previews), and
`internal/chat` (model messages and assistant outputs).

Go strings are embedded as Lean `String`s (sequences of Unicode code points).
The two library functions the code uses, `strings.TrimSpace` and
`strings.ToLower`, are given explicitly below; the Unicode lower-case table
(`unicode.ToLower`), which is not part of the repository, is a parameter.
The call `strconv.FormatFloat(v, 'f', -1, 64)` of `ReadString` is given
explicitly on the IEEE 754 bit pattern of `v`, with exact integer arithmetic.
-/

namespace Memoh

/-! ## Go library functions used by the channel package -/

/-- Go `unicode.IsSpace`: the Latin-1 spaces `\t \n \v \f \r`, space, U+0085,
U+00A0, and the other code points with the White_Space property. -/
def isSpace (c : Char) : Bool :=
  let n := c.toNat
  n == 0x09 || n == 0x0A || n == 0x0B || n == 0x0C || n == 0x0D || n == 0x20 ||
  n == 0x85 || n == 0xA0 || n == 0x1680 || (0x2000 ≤ n && n ≤ 0x200A) ||
  n == 0x2028 || n == 0x2029 || n == 0x202F || n == 0x205F || n == 0x3000

/-- Drop the trailing run of characters satisfying `p`. -/
def dropTrailing (p : Char → Bool) : List Char → List Char
  | [] => []
  | c :: cs =>
    match dropTrailing p cs with
    | [] => if p c then [] else [c]
    | r => c :: r

/-- Go `strings.TrimSpace`: remove all leading and trailing white space. -/
def TrimSpace (s : String) : String :=
  ⟨dropTrailing isSpace (s.data.dropWhile isSpace)⟩

/-- The ASCII branch of Go `strings.ToLower`: `'A'..'Z'` gain `'a' - 'A'`. -/
def asciiLower (c : Char) : Char :=
  if 'A'.toNat ≤ c.toNat ∧ c.toNat ≤ 'Z'.toNat then Char.ofNat (c.toNat + 32) else c

/-- Go `strings.ToLower`. A string of ASCII characters only is lower-cased by
the ASCII fast path; any other string is mapped rune by rune through
`unicode.ToLower`, which is the parameter `unicodeToLower`. -/
def ToLower (unicodeToLower : Char → Char) (s : String) : String :=
  if s.data.all (fun c => c.toNat < 0x80) then ⟨s.data.map asciiLower⟩
  else ⟨s.data.map unicodeToLower⟩

/-- Go `strings.Join(elems, sep)`. -/
def Join : List String → String → String
  | [], _ => ""
  | [a], _ => a
  | a :: b :: rest, sep => a ++ sep ++ Join (b :: rest) sep

/-! ## `types.go`: identities, conversations, messages -/

/-- Go `ChannelType`, a named string type. -/
abbrev ChannelType := String

/-- A Go `float64`, by its IEEE 754 bit pattern. The embedded code only hands
these values to `strconv.FormatFloat`. -/
structure Float64 where
  bits : Nat
  deriving DecidableEq, Repr

/-- A value stored under Go's `any`, by its dynamic type: `nil`, a `bool`, a Go
integer, a `string`, a `float64` (what a JSON number decodes to), or a value of
any other type, kept as the text that `fmt` prints for it under `%v`. -/
inductive AnyValue where
  | null : AnyValue
  | bool : Bool → AnyValue
  | num : Int → AnyValue
  | str : String → AnyValue
  | float : Float64 → AnyValue
  | other : String → AnyValue
  deriving DecidableEq, Repr

/-- Source type `Identity`. -/
structure Identity where
  ExternalID : String := ""
  DisplayName : String := ""
  Attributes : List (String × String) := []
  deriving DecidableEq, Repr

/-- Source type `Conversation`; the field `Type` is spelled `Typ`. -/
structure Conversation where
  ID : String := ""
  Typ : String := ""
  Name : String := ""
  ThreadID : String := ""
  Metadata : List (String × AnyValue) := []
  deriving DecidableEq, Repr

/-- Source type `MessagePart`. -/
structure MessagePart where
  Typ : String := ""
  Text : String := ""
  URL : String := ""
  Styles : List String := []
  Language : String := ""
  UserID : String := ""
  Emoji : String := ""
  Metadata : List (String × AnyValue) := []
  deriving DecidableEq, Repr

/-- Source type `Attachment`. -/
structure Attachment where
  Typ : String := ""
  URL : String := ""
  Name : String := ""
  Size : Int := 0
  Mime : String := ""
  DurationMs : Int := 0
  Width : Int := 0
  Height : Int := 0
  ThumbnailURL : String := ""
  Caption : String := ""
  Metadata : List (String × AnyValue) := []
  deriving DecidableEq, Repr

/-- Source type `Action`. -/
structure Action where
  Typ : String := ""
  Label : String := ""
  Value : String := ""
  URL : String := ""
  deriving DecidableEq, Repr

/-- Source type `ThreadRef`. -/
structure ThreadRef where
  ID : String := ""
  deriving DecidableEq, Repr

/-- Source type `ReplyRef`. -/
structure ReplyRef where
  Target : String := ""
  MessageID : String := ""
  deriving DecidableEq, Repr

/-- Source type `Message`; the two pointer fields are options. -/
structure Message where
  ID : String := ""
  Format : String := ""
  Text : String := ""
  Parts : List MessagePart := []
  Attachments : List Attachment := []
  Actions : List Action := []
  Thread : Option ThreadRef := none
  Reply : Option ReplyRef := none
  Metadata : List (String × AnyValue) := []
  deriving DecidableEq, Repr

/-- Source type `InboundMessage`; `ReceivedAt` is a count of nanoseconds. -/
structure InboundMessage where
  Channel : ChannelType := ""
  Message : Message := {}
  BotID : String := ""
  ReplyTarget : String := ""
  SessionKey : String := ""
  Sender : Identity := {}
  Conversation : Conversation := {}
  ReceivedAt : Int := 0
  Source : String := ""
  Metadata : List (String × AnyValue) := []
  deriving DecidableEq, Repr

/-- Source type `OutboundMessage`. -/
structure OutboundMessage where
  Target : String := ""
  Message : Message := {}
  deriving DecidableEq, Repr

/-- Source function `GenerateSessionID` (`types.go`). The sender is appended
to `[platform, botID, conversationID]` when the trimmed, lower-cased
conversation type is non-empty and neither `p2p` nor `private`, and the trimmed
sender is non-empty; the parts are joined with `:`. -/
def GenerateSessionID (unicodeToLower : Char → Char)
    (platform botID conversationID conversationType senderID : String) : String :=
  let parts := [platform, botID, conversationID]
  let ct := ToLower unicodeToLower (TrimSpace conversationType)
  let parts :=
    if ct ≠ "" ∧ ct ≠ "p2p" ∧ ct ≠ "private" then
      let senderID := TrimSpace senderID
      if senderID ≠ "" then parts ++ [senderID] else parts
    else parts
  Join parts ":"

/-- Source method `InboundMessage.SessionID` (`types.go`). -/
def InboundMessage.SessionID (unicodeToLower : Char → Char) (m : InboundMessage) : String :=
  if TrimSpace m.SessionKey ≠ "" then TrimSpace m.SessionKey
  else
    let senderID := TrimSpace m.Sender.ExternalID
    let senderID := if senderID = "" then TrimSpace m.Sender.DisplayName else senderID
    GenerateSessionID unicodeToLower m.Channel m.BotID m.Conversation.ID m.Conversation.Typ senderID

/-! ## Go maps -/

/-- A Go `map[string]V` as an association list. A key is bound to the value of
its first entry; a missing key is Go's zero value (`nil`, `ok = false`). -/
abbrev GoMap (V : Type) := List (String × V)

/-- Map read `m[key]`, with `none` for an absent key. -/
def GoMap.get {V : Type} : GoMap V → String → Option V
  | [], _ => none
  | (k, v) :: rest, key => if k = key then some v else GoMap.get rest key

/-- Map write `m[key] = val`. -/
def GoMap.set {V : Type} : GoMap V → String → V → GoMap V
  | [], key, val => [(key, val)]
  | (k, v) :: rest, key, val =>
    if k = key then (key, val) :: rest else (k, v) :: GoMap.set rest key val

/-- Builtin `delete(m, key)`. -/
def GoMap.delete {V : Type} : GoMap V → String → GoMap V
  | [], _ => []
  | (k, v) :: rest, key =>
    if k = key then GoMap.delete rest key else (k, v) :: GoMap.delete rest key

/-! ## `cli_hub.go`: the session hub -/

/-- Capacity of every stream channel: `make(chan OutboundMessage, 32)`. -/
def streamCapacity : Nat := 32

/-- A stream channel owned by the hub, as the queue of messages sent and not
yet received. Channels are closed by `cancel` only after they have left the
hub, so a channel stored in the hub is open. -/
structure Chan where
  buf : List OutboundMessage := []
  deriving DecidableEq, Repr

/-- Source type `SessionHub`: session ID to stream ID to channel. Each
operation below is one critical section of the hub's lock. -/
structure SessionHub where
  sessions : GoMap (GoMap Chan) := []
  deriving DecidableEq, Repr

/-- Source function `NewSessionHub`. -/
def NewSessionHub : SessionHub := { sessions := [] }

/-- The non-blocking send `select { case ch <- msg: default: }` on an open
channel of capacity 32: enqueue when there is room, otherwise drop. -/
def trySend (ch : Chan) (msg : OutboundMessage) : Chan :=
  if ch.buf.length < streamCapacity then { buf := ch.buf ++ [msg] } else ch

/-- Source method `SessionHub.Subscribe`, up to the construction of `cancel`.
`streamID` is the value drawn by `uuid.NewString()`. The result is the new hub
and the returned stream ID. -/
def SessionHub.Subscribe (h : SessionHub) (sessionID streamID : String) :
    SessionHub × String :=
  let ch : Chan := { buf := [] }
  let streams : GoMap Chan :=
    match GoMap.get h.sessions sessionID with
    | some streams => streams
    | none => []
  ({ sessions := GoMap.set h.sessions sessionID (GoMap.set streams streamID ch) }, streamID)

/-- The `cancel` closure returned by `Subscribe(sessionID)` with stream ID
`streamID`. The result is the new hub and the channel that was closed, if any. -/
def SessionHub.cancel (h : SessionHub) (sessionID streamID : String) :
    SessionHub × Option Chan :=
  match GoMap.get h.sessions sessionID with
  | none => (h, none)
  | some streams =>
    let closed := GoMap.get streams streamID
    let streams := if closed.isSome then GoMap.delete streams streamID else streams
    if streams.length = 0 then ({ sessions := GoMap.delete h.sessions sessionID }, closed)
    else ({ sessions := GoMap.set h.sessions sessionID streams }, closed)

/-- Source method `SessionHub.Publish`: a non-blocking send on every channel of
`h.sessions[sessionID]`; ranging over the nil map of an absent session does
nothing. -/
def SessionHub.Publish (h : SessionHub) (sessionID : String) (msg : OutboundMessage) :
    SessionHub :=
  match GoMap.get h.sessions sessionID with
  | none => h
  | some streams =>
    { sessions :=
        GoMap.set h.sessions sessionID (streams.map (fun e => (e.1, trySend e.2 msg))) }

/-- The channel registered for stream `streamID` of session `sessionID`, if
that stream is subscribed. -/
def SessionHub.stream (h : SessionHub) (sessionID streamID : String) : Option Chan :=
  match GoMap.get h.sessions sessionID with
  | none => none
  | some streams => GoMap.get streams streamID

/-- A caller publishing the messages of `msgs` to one session, in order. -/
def SessionHub.publishAll (h : SessionHub) (sessionID : String) :
    List OutboundMessage → SessionHub
  | [] => h
  | msg :: rest => (h.Publish sessionID msg).publishAll sessionID rest

/-- A message with the given text, for concrete checks. -/
def textMessage (target text : String) : OutboundMessage :=
  { Target := target, Message := { Text := text } }

/-- The `n`-th of a run of pairwise different messages: its text is `n` times
the letter `x`. -/
def numberedMessage (n : Nat) : OutboundMessage :=
  textMessage "s" ⟨List.replicate n 'x'⟩

/-- A hub with one session `s` of two streams: `a` with a full buffer of 32
messages and `b` with an empty buffer. -/
def fullAndEmptyHub : SessionHub :=
  { sessions := [("s", [("a", { buf := (List.range 32).map numberedMessage }),
                        ("b", { buf := [] })])] }

/-! ## Hub histories -/

/-- A consumer's receive `<-ch` on the channel of a subscribed stream: the
oldest buffered message leaves the buffer. With an empty buffer (the consumer
keeps waiting) or an unknown stream nothing changes. -/
def SessionHub.receive (h : SessionHub) (sessionID streamID : String) :
    SessionHub × Option OutboundMessage :=
  match GoMap.get h.sessions sessionID with
  | none => (h, none)
  | some streams =>
    match GoMap.get streams streamID with
    | none => (h, none)
    | some ch =>
      match ch.buf with
      | [] => (h, none)
      | msg :: rest =>
        ({ sessions :=
            GoMap.set h.sessions sessionID (GoMap.set streams streamID { buf := rest }) },
          some msg)

/-- One step of a hub history: a call of `Subscribe` (with the uuid it draws),
of the `cancel` closure of a stream, of `Publish`, or a consumer's receive. -/
inductive HubOp where
  | subscribe (sessionID streamID : String) : HubOp
  | cancel (sessionID streamID : String) : HubOp
  | publish (sessionID : String) (msg : OutboundMessage) : HubOp
  | receive (sessionID streamID : String) : HubOp
  deriving DecidableEq, Repr

/-- The hub after one step. -/
def SessionHub.step (h : SessionHub) : HubOp → SessionHub
  | .subscribe sessionID streamID => (h.Subscribe sessionID streamID).1
  | .cancel sessionID streamID => (h.cancel sessionID streamID).1
  | .publish sessionID msg => h.Publish sessionID msg
  | .receive sessionID streamID => (h.receive sessionID streamID).1

/-- The hub after a history of steps, oldest first. -/
def SessionHub.run (h : SessionHub) : List HubOp → SessionHub
  | [] => h
  | op :: rest => (h.step op).run rest

/-! ## `registry.go`: the descriptor registry -/

/-- A Go `error` value, by its message; `Option GoError` is Go's `error` with
`none` for `nil`. -/
abbrev GoError := String

/-- A Go `map[string]any`, with `none` for the nil map. -/
abbrev AnyMap := Option (GoMap AnyValue)

/-- Source type `BindingCriteria`. -/
structure BindingCriteria where
  ExternalID : String := ""
  Attributes : List (String × String) := []
  deriving DecidableEq, Repr

/-- Source type `TargetHint` (`target.go`). -/
structure TargetHint where
  Example : String := ""
  Label : String := ""
  deriving DecidableEq, Repr

/-- Source type `TargetSpec` (`target.go`). -/
structure TargetSpec where
  Format : String := ""
  Hints : List TargetHint := []
  deriving DecidableEq, Repr

/-- Source type `ChannelDescriptor`. The types `ChannelCapabilities`,
`OutboundPolicy` and `ConfigSchema` are declared outside the embedded files and
are the parameters `Caps`, `Policy` and `Schema`. A hook is `none` when the Go function value is nil. The field
`Type` is spelled `Typ`. -/
structure ChannelDescriptor (Caps Policy Schema : Type) where
  Typ : ChannelType
  DisplayName : String
  NormalizeConfig : Option (AnyMap → AnyMap × Option GoError)
  NormalizeUserConfig : Option (AnyMap → AnyMap × Option GoError)
  ResolveTarget : Option (AnyMap → String × Option GoError)
  MatchBinding : Option (AnyMap → BindingCriteria → Bool)
  BuildUserConfig : Option (Identity → AnyMap)
  Configless : Bool
  Capabilities : Caps
  OutboundPolicy : Policy
  ConfigSchema : Schema
  UserConfigSchema : Schema
  TargetSpec : TargetSpec
  NormalizeTarget : Option (String → String)

/-- Source type `channelRegistry`: the items of the process-wide registry,
passed explicitly. Each operation below is one critical section of its lock. -/
structure channelRegistry (Caps Policy Schema : Type) where
  items : GoMap (ChannelDescriptor Caps Policy Schema)

/-- The initial value of the package variable `registry`. -/
def emptyRegistry {C P S : Type} : channelRegistry C P S := { items := [] }

/-- Source function `normalizeChannelType` (`registry.go`). -/
def normalizeChannelType (unicodeToLower : Char → Char) (raw : String) : ChannelType :=
  let normalized := TrimSpace (ToLower unicodeToLower raw)
  if normalized = "" then "" else normalized

/-- Source function `RegisterChannel`: the registry afterwards and the error. -/
def RegisterChannel {C P S : Type} (unicodeToLower : Char → Char) (registry : channelRegistry C P S)
    (desc : ChannelDescriptor C P S) : channelRegistry C P S × Option GoError :=
  let normalized := normalizeChannelType unicodeToLower desc.Typ
  if normalized = "" then (registry, some "channel type is required")
  else
    let desc := { desc with Typ := normalized }
    let desc := if TrimSpace desc.DisplayName = "" then { desc with DisplayName := normalized }
      else desc
    match GoMap.get registry.items desc.Typ with
    | some _ => (registry, some ("channel type already registered: " ++ desc.Typ))
    | none => ({ items := GoMap.set registry.items desc.Typ desc }, none)

/-- Source function `UnregisterChannel`: the registry afterwards and the
reported boolean. -/
def UnregisterChannel {C P S : Type} (unicodeToLower : Char → Char)
    (registry : channelRegistry C P S) (channelType : ChannelType) :
    channelRegistry C P S × Bool :=
  let normalized := normalizeChannelType unicodeToLower channelType
  if normalized = "" then (registry, false)
  else
    match GoMap.get registry.items normalized with
    | none => (registry, false)
    | some _ => ({ items := GoMap.delete registry.items normalized }, true)

/-- Source function `GetChannelDescriptor`; `none` is `ok = false`. -/
def GetChannelDescriptor {C P S : Type} (unicodeToLower : Char → Char)
    (registry : channelRegistry C P S) (channelType : ChannelType) :
    Option (ChannelDescriptor C P S) :=
  let normalized := normalizeChannelType unicodeToLower channelType
  GoMap.get registry.items normalized

/-- Source function `ParseChannelType` (`types.go`): the returned type and
error. -/
def ParseChannelType {C P S : Type} (unicodeToLower : Char → Char)
    (registry : channelRegistry C P S) (raw : String) : ChannelType × Option GoError :=
  let normalized := normalizeChannelType unicodeToLower raw
  if normalized = "" then ("", some ("unsupported channel type: " ++ raw))
  else
    match GetChannelDescriptor unicodeToLower registry normalized with
    | none => ("", some ("unsupported channel type: " ++ raw))
    | some _ => (normalized, none)

/-- One step of a registry history. -/
inductive RegistryOp (C P S : Type) where
  | register (desc : ChannelDescriptor C P S) : RegistryOp C P S
  | unregister (channelType : ChannelType) : RegistryOp C P S

/-- The registry after one step. -/
def channelRegistry.step {C P S : Type} (unicodeToLower : Char → Char)
    (registry : channelRegistry C P S) : RegistryOp C P S → channelRegistry C P S
  | .register desc => (RegisterChannel unicodeToLower registry desc).1
  | .unregister channelType => (UnregisterChannel unicodeToLower registry channelType).1

/-- The registry after a history of steps, oldest first. -/
def channelRegistry.run {C P S : Type} (unicodeToLower : Char → Char)
    (registry : channelRegistry C P S) : List (RegistryOp C P S) → channelRegistry C P S
  | [] => registry
  | op :: rest => (registry.step unicodeToLower op).run unicodeToLower rest

/-- The facts about Go's `unicode.ToLower` table that the registry relies on:
it agrees with the ASCII mapping on ASCII, maps a lower-cased rune to itself,
and maps white space to white space and nothing else to white space. -/
structure LowerTable (unicodeToLower : Char → Char) : Prop where
  ascii : ∀ c : Char, c.toNat < 0x80 → unicodeToLower c = asciiLower c
  idem : ∀ c : Char, unicodeToLower (unicodeToLower c) = unicodeToLower c
  space : ∀ c : Char, isSpace (unicodeToLower c) = isSpace c

/-- A descriptor with no hooks, for concrete checks. -/
def plainDescriptor (typ displayName : String) : ChannelDescriptor Unit Unit Unit :=
  { Typ := typ, DisplayName := displayName, NormalizeConfig := none,
    NormalizeUserConfig := none, ResolveTarget := none, MatchBinding := none,
    BuildUserConfig := none, Configless := false, Capabilities := (),
    OutboundPolicy := (), ConfigSchema := (), UserConfigSchema := (),
    TargetSpec := {}, NormalizeTarget := none }

/-! ## `adapter.go`: the base connection -/

/-- Source type `ChannelConfig` (`types.go`); times are counts of nanoseconds. -/
structure ChannelConfig where
  ID : String := ""
  BotID : String := ""
  ChannelType : ChannelType := ""
  Credentials : AnyMap := none
  ExternalIdentity : String := ""
  SelfIdentity : AnyMap := none
  Routing : AnyMap := none
  Status : String := ""
  VerifiedAt : Int := 0
  CreatedAt : Int := 0
  UpdatedAt : Int := 0
  deriving DecidableEq, Repr

/-- Source variable `ErrStopNotSupported`. -/
def ErrStopNotSupported : GoError := "channel connection stop not supported"

/-- Source type `BaseConnection`. `Ctx` is `context.Context` and `World` is
the state outside the connection that the stop function may read and change.
The stop function is `none` for nil; it is given the context, the value that
`Running()` reports while it runs, and the outside state, and yields the new
outside state and its error. -/
structure BaseConnection (Ctx World : Type) where
  configID : String
  botID : String
  channelType : ChannelType
  stop : Option (Ctx → Bool → World → World × Option GoError)
  running : Bool

/-- Source function `NewConnection`. -/
def NewConnection {Ctx World : Type} (cfg : ChannelConfig)
    (stop : Option (Ctx → Bool → World → World × Option GoError)) : BaseConnection Ctx World :=
  { configID := cfg.ID, botID := cfg.BotID, channelType := cfg.ChannelType, stop := stop,
    running := true }

/-- Source method `BaseConnection.ConfigID`. -/
def BaseConnection.ConfigID {Ctx World : Type} (c : BaseConnection Ctx World) : String :=
  c.configID

/-- Source method `BaseConnection.BotID`. -/
def BaseConnection.BotID {Ctx World : Type} (c : BaseConnection Ctx World) : String :=
  c.botID

/-- Source method `BaseConnection.ChannelType`. -/
def BaseConnection.ChannelType {Ctx World : Type} (c : BaseConnection Ctx World) :
    ChannelType :=
  c.channelType

/-- Source method `BaseConnection.Running`. -/
def BaseConnection.Running {Ctx World : Type} (c : BaseConnection Ctx World) : Bool :=
  c.running

/-- Source method `BaseConnection.Stop`: the connection afterwards, the outside
state afterwards, and the returned error. The flag is stored before the stop
function is called, so the stop function runs with `Running() = false`. -/
def BaseConnection.Stop {Ctx World : Type} (c : BaseConnection Ctx World) (ctx : Ctx)
    (w : World) : BaseConnection Ctx World × World × Option GoError :=
  match c.stop with
  | none => (c, w, some ErrStopNotSupported)
  | some stop =>
    let c := { c with running := false }
    let r := stop ctx c.Running w
    (c, r.1, r.2)

/-- The connection and outside state after `n` calls of `Stop`. -/
def BaseConnection.stopTimes {Ctx World : Type} (ctx : Ctx) :
    Nat → BaseConnection Ctx World × World → BaseConnection Ctx World × World
  | 0, cw => cw
  | n + 1, cw =>
    BaseConnection.stopTimes ctx n ((cw.1.Stop ctx cw.2).1, (cw.1.Stop ctx cw.2).2.1)

/-- A stop function for concrete checks: it counts its calls in the outside
state and fails exactly when it runs while `Running()` is false. -/
def countingStop : Unit → Bool → Nat → Nat × Option GoError :=
  fun _ running calls => (calls + 1, if running then none else some "teardown failed")

/-! ## `types.go`: message emptiness -/

/-- Source method `Message.IsEmpty`. -/
def Message.IsEmpty (m : Message) : Bool :=
  TrimSpace m.Text == "" && m.Parts.length == 0 && m.Attachments.length == 0 &&
    m.Actions.length == 0

/-! ## `types.go`: plain text of a message -/

/-- Source constant `MessagePartText`. -/
def MessagePartText : String := "text"

/-- Source constant `MessagePartLink`. -/
def MessagePartLink : String := "link"

/-- Source constant `MessagePartCodeBlock`. -/
def MessagePartCodeBlock : String := "code_block"

/-- Source constant `MessagePartMention`. -/
def MessagePartMention : String := "mention"

/-- Source constant `MessagePartEmoji`. -/
def MessagePartEmoji : String := "emoji"

/-- One pass of the loop body of `Message.PlainText`: the lines collected so
far, extended by the value of `part` unless the part is skipped. -/
def plainTextStep (lines : List String) (part : MessagePart) : List String :=
  if part.Typ = MessagePartText ∨ part.Typ = MessagePartLink ∨
      part.Typ = MessagePartCodeBlock ∨ part.Typ = MessagePartMention ∨
      part.Typ = MessagePartEmoji then
    let value := TrimSpace part.Text
    let value := if value = "" ∧ part.Typ = MessagePartLink then TrimSpace part.URL else value
    let value := if value = "" ∧ part.Typ = MessagePartEmoji then TrimSpace part.Emoji else value
    if value = "" then lines else lines ++ [value]
  else lines

/-- Source method `Message.PlainText`. -/
def Message.PlainText (m : Message) : String :=
  if TrimSpace m.Text ≠ "" then TrimSpace m.Text
  else if m.Parts.length = 0 then ""
  else Join (m.Parts.foldl plainTextStep []) "\n"

/-- The extracted value of a part, in the words of the specification: the
trimmed `Text`, or when that is empty the trimmed `URL` of a link part and the
trimmed `Emoji` of an emoji part. -/
def specPartValue (part : MessagePart) : String :=
  if TrimSpace part.Text ≠ "" then TrimSpace part.Text
  else if part.Typ = "link" then TrimSpace part.URL
  else if part.Typ = "emoji" then TrimSpace part.Emoji
  else ""

/-- The parts that contribute a line, in the words of the specification: the
type is one of text, link, code_block, mention, emoji and the value is not
empty. -/
def specPartKept (part : MessagePart) : Bool :=
  decide (part.Typ ∈ ["text", "link", "code_block", "mention", "emoji"]) &&
    decide (specPartValue part ≠ "")

/-- The plain text of a list of parts, in the words of the specification: the
values of the contributing parts, in order, separated by newlines. -/
def specPlainText (parts : List MessagePart) : String :=
  Join ((parts.filter specPartKept).map specPartValue) "\n"

/-! ## `target.go` and `config.go`: the resolution pipeline -/

/-- Source function `NormalizeTarget` (`target.go`). -/
def NormalizeTarget {C P S : Type} (unicodeToLower : Char → Char)
    (registry : channelRegistry C P S) (channelType : ChannelType) (raw : String) :
    String × Bool :=
  match GetChannelDescriptor unicodeToLower registry channelType with
  | none => (TrimSpace raw, false)
  | some desc =>
    match desc.NormalizeTarget with
    | none => (TrimSpace raw, false)
    | some hook =>
      let normalized := TrimSpace (hook raw)
      if normalized = "" then ("", false) else (normalized, true)

/-- The Go idiom `if raw == nil { raw = map[string]any{} }`. -/
def emptyIfNil (raw : AnyMap) : AnyMap :=
  match raw with
  | none => some []
  | some m => some m

/-- Source function `NormalizeChannelConfig` (`config.go`): the map and the
error. -/
def NormalizeChannelConfig {C P S : Type} (unicodeToLower : Char → Char)
    (registry : channelRegistry C P S) (channelType : ChannelType) (raw : AnyMap) :
    AnyMap × Option GoError :=
  let raw := emptyIfNil raw
  match GetChannelDescriptor unicodeToLower registry channelType with
  | none => (none, some ("unsupported channel type: " ++ channelType))
  | some desc =>
    match desc.NormalizeConfig with
    | none => (raw, none)
    | some hook => hook raw

/-- Source function `NormalizeChannelUserConfig` (`config.go`). -/
def NormalizeChannelUserConfig {C P S : Type} (unicodeToLower : Char → Char)
    (registry : channelRegistry C P S) (channelType : ChannelType) (raw : AnyMap) :
    AnyMap × Option GoError :=
  let raw := emptyIfNil raw
  match GetChannelDescriptor unicodeToLower registry channelType with
  | none => (none, some ("unsupported channel type: " ++ channelType))
  | some desc =>
    match desc.NormalizeUserConfig with
    | none => (raw, none)
    | some hook => hook raw

/-- Source function `ResolveTargetFromUserConfig` (`config.go`). -/
def ResolveTargetFromUserConfig {C P S : Type} (unicodeToLower : Char → Char)
    (registry : channelRegistry C P S) (channelType : ChannelType) (config : AnyMap) :
    String × Option GoError :=
  match GetChannelDescriptor unicodeToLower registry channelType with
  | none => ("", some ("unsupported channel type: " ++ channelType))
  | some desc =>
    match desc.ResolveTarget with
    | none => ("", some ("unsupported channel type: " ++ channelType))
    | some hook => hook config

/-- Source function `DecodeConfigMap` (`config.go`). A byte slice is `none`
when nil. `jsonUnmarshal` is `json.Unmarshal` into a nil `map[string]any`: it
yields the value of the map variable afterwards and the error. -/
def DecodeConfigMap (jsonUnmarshal : List UInt8 → AnyMap × Option GoError)
    (raw : Option (List UInt8)) : AnyMap × Option GoError :=
  match raw with
  | none => (some [], none)
  | some bytes =>
    if bytes.length = 0 then (some [], none)
    else
      match (jsonUnmarshal bytes).2 with
      | some err => (none, some err)
      | none =>
        match (jsonUnmarshal bytes).1 with
        | none => (some [], none)
        | some payload => (some payload, none)

/-- Go `strconv.FormatBool`. -/
def FormatBool (b : Bool) : String :=
  if b then "true" else "false"

/-- Map read `raw[key]` on a `map[string]any` that may be nil. -/
def AnyMap.get (raw : AnyMap) (key : String) : Option AnyValue :=
  match raw with
  | none => none
  | some m => GoMap.get m key

/-- The type switch of `ReadString`. `formatFloat` is
`strconv.FormatFloat(v, 'f', -1, 64)`. The last three cases are the default
branch, `fmt.Sprintf("%v", v)`. -/
def valueString (formatFloat : Float64 → String) : AnyValue → String
  | AnyValue.str v => v
  | AnyValue.float v => formatFloat v
  | AnyValue.bool v => FormatBool v
  | AnyValue.null => "<nil>"
  | AnyValue.num n => toString n
  | AnyValue.other text => text

/-- Source function `ReadString` (`config.go`): the keys are tried in order and
the first one present in the map decides the result. -/
def ReadString (formatFloat : Float64 → String) (raw : AnyMap) : List String → String
  | [] => ""
  | key :: rest =>
    match AnyMap.get raw key with
    | some value => valueString formatFloat value
    | none => ReadString formatFloat raw rest

/-- The position of the highest set bit of `a`, for `a < 2 ^ fuel`. -/
def highBit : Nat → Nat → Nat
  | 0, _ => 0
  | fuel + 1, a => if 2 ≤ a then highBit fuel (a / 2) + 1 else 0

/-- The `float64` nearest to the integer `n`, ties to the even fraction, as
JSON decoding of an integer literal and the Go conversion `float64(n)` give
it: sign bit, biased exponent `1023 + floor(log2 |n|)`, and the 52 fraction
bits. Integers with `|n| < 2^53` are held exactly; beyond the `float64` range
the result is an infinity. -/
def Float64.ofInt (n : Int) : Float64 :=
  if n = 0 then { bits := 0 }
  else
    let a := n.natAbs
    let e := highBit a a
    let sign := if n < 0 then 2 ^ 63 else 0
    if e ≤ 52 then
      { bits := sign + (1023 + e) * 2 ^ 52 + (a * 2 ^ (52 - e) - 2 ^ 52) }
    else if 1023 < e then { bits := sign + 2047 * 2 ^ 52 }
    else
      let q := a / 2 ^ (e - 52)
      let r := a % 2 ^ (e - 52)
      let half := 2 ^ (e - 53)
      let m := if half < r ∨ (r = half ∧ q % 2 = 1) then q + 1 else q
      { bits := sign + (1023 + e) * 2 ^ 52 + (m - 2 ^ 52) }

/-! ### Go `strconv.FormatFloat(v, 'f', -1, 64)`

The library call of `ReadString`, modelled on the bit pattern with exact
integer arithmetic. Precision `-1` asks for the fewest significant digits that
read back as the same `float64`; format `'f'` prints them without an
exponent. -/

/-- The sign bit of a `float64`. -/
def Float64.signBit (f : Float64) : Nat := f.bits / 2 ^ 63 % 2

/-- The 11 exponent bits of a `float64`. -/
def Float64.expBits (f : Float64) : Nat := f.bits / 2 ^ 52 % 2 ^ 11

/-- The 52 fraction bits of a `float64`. -/
def Float64.fracBits (f : Float64) : Nat := f.bits % 2 ^ 52

/-- The absolute value `mid / den` of a finite `float64` and the interval
from `lo / den` to `hi / den` of the real numbers that round to it: the end
points are half way to the neighbouring `float64` values, and they belong to
the interval (`closed`) when the mantissa is even. -/
structure RoundingInterval where
  lo : Nat
  mid : Nat
  hi : Nat
  den : Nat
  closed : Bool
  deriving DecidableEq, Repr

/-- The rounding interval of a finite `float64`. With mantissa `mant` and
biased exponent `e` the value is `mant * 2^(e - 1075)`; everything is counted
in quarters of the last mantissa bit. The neighbour below a power of two is
half as far away as the neighbour above. -/
def Float64.interval (f : Float64) : RoundingInterval :=
  let mant := if f.expBits = 0 then f.fracBits else 2 ^ 52 + f.fracBits
  let e := if f.expBits = 0 then 1 else f.expBits
  let below := if f.fracBits = 0 ∧ 1 < f.expBits then 1 else 2
  { lo := (4 * mant - below) * 2 ^ (e - 1077),
    mid := 4 * mant * 2 ^ (e - 1077),
    hi := (4 * mant + 2) * 2 ^ (e - 1077),
    den := 2 ^ (1077 - e),
    closed := mant % 2 = 0 }

/-- Whether the number `c * p / q` lies in the rounding interval. -/
def RoundingInterval.contains (i : RoundingInterval) (c p q : Nat) : Bool :=
  if i.closed then i.lo * q ≤ c * p * i.den ∧ c * p * i.den ≤ i.hi * q
  else i.lo * q < c * p * i.den ∧ c * p * i.den < i.hi * q

/-- On the grid of the multiples of `p / q`: the multiple `c * p / q` that
lies in the rounding interval, if there is one; when both grid points next to
the value lie in it, the one nearer to the value, the even `c` on a tie. -/
def RoundingInterval.nearest (i : RoundingInterval) (p q : Nat) : Option Nat :=
  let c := i.mid * q / (i.den * p)
  let down := i.contains c p q
  let up := i.contains (c + 1) p q
  if down ∧ up then
    let dd := i.mid * q - c * p * i.den
    let du := (c + 1) * p * i.den - i.mid * q
    if dd < du then some c
    else if du < dd then some (c + 1)
    else if c % 2 = 0 then some c else some (c + 1)
  else if down then some c
  else if up then some (c + 1)
  else none

/-- The integer with the fewest significant digits in the rounding interval:
the grids of the multiples of `10^j` are tried from the coarsest, `j`, down to
the integers themselves. -/
def RoundingInterval.shortestInteger (i : RoundingInterval) : Nat → Option Nat
  | 0 => i.nearest 1 1
  | j + 1 =>
    match i.nearest (10 ^ (j + 1)) 1 with
    | some c => some (c * 10 ^ (j + 1))
    | none => i.shortestInteger j

/-- The decimal fraction `c / 10^k` with the fewest digits in the rounding
interval, as the pair `(c, k)`: the grids of the multiples of `10^(-k)` are
tried from `k` on, getting finer. The exact value lies on the grid with
`k = 1074`. -/
def RoundingInterval.shortestFraction (i : RoundingInterval) : Nat → Nat → Nat × Nat
  | 0, k => (i.mid * 10 ^ k / i.den, k)
  | fuel + 1, k =>
    match i.nearest 1 (10 ^ k) with
    | some c => (c, k)
    | none => i.shortestFraction fuel (k + 1)

/-- The decimal digits of `n`, filled with leading zeros to `width` digits. -/
def padDigits (width n : Nat) : String :=
  ⟨List.replicate (width - (toString n).length) '0'⟩ ++ toString n

/-- Go `strconv.FormatFloat(f, 'f', -1, 64)`: `NaN`, `+Inf` and `-Inf` by
name; otherwise the sign and the shortest decimal that reads back as `f`,
written out in full, with a decimal point only when it has a fractional part.
No finite `float64` reaches `10^309`. -/
def FormatFloatShortestF (f : Float64) : String :=
  if f.expBits = 2047 then
    if f.fracBits ≠ 0 then "NaN" else if f.signBit = 1 then "-Inf" else "+Inf"
  else
    let sign := if f.signBit = 1 then "-" else ""
    if f.expBits = 0 ∧ f.fracBits = 0 then sign ++ "0"
    else
      match f.interval.shortestInteger 309 with
      | some x => sign ++ toString x
      | none =>
        let r := f.interval.shortestFraction 1074 1
        sign ++ toString (r.1 / 10 ^ r.2) ++ "." ++ padDigits r.2 (r.1 % 10 ^ r.2)

/-- A descriptor for `demo` whose target normalizer lower-cases and trims. -/
def demoDescriptor (unicodeToLower : Char → Char) : ChannelDescriptor Unit Unit Unit :=
  { Typ := "demo", DisplayName := "Demo", NormalizeConfig := none,
    NormalizeUserConfig := none, ResolveTarget := none, MatchBinding := none,
    BuildUserConfig := none, Configless := false, Capabilities := (),
    OutboundPolicy := (), ConfigSchema := (), UserConfigSchema := (),
    TargetSpec := {}, NormalizeTarget := some (fun s => TrimSpace (ToLower unicodeToLower s)) }

/-- A descriptor for `mute` whose hooks are constant: the target normalizer
yields the empty string, the config normalizers yield a fixed map, and the
resolver yields a fixed target. -/
def muteDescriptor : ChannelDescriptor Unit Unit Unit :=
  { Typ := "mute", DisplayName := "Mute",
    NormalizeConfig := some (fun _ => (some [("seen", AnyValue.bool true)], none)),
    NormalizeUserConfig := some (fun _ => (none, some "bad user config")),
    ResolveTarget := some (fun _ => ("room-1", none)), MatchBinding := none,
    BuildUserConfig := none, Configless := false, Capabilities := (),
    OutboundPolicy := (), ConfigSchema := (), UserConfigSchema := (),
    TargetSpec := {}, NormalizeTarget := some (fun _ => "") }

/-- A stand-in for `json.Unmarshal` in concrete checks: it accepts `{}` and
`null` and rejects everything else. -/
def toyUnmarshal (bytes : List UInt8) : AnyMap × Option GoError :=
  if bytes = [123, 125] then (some [], none)
  else if bytes = [110, 117, 108, 108] then (none, none)
  else (none, some "invalid character")

/-- A stand-in for `strconv.FormatFloat` in concrete checks: it knows the
`float64` values 42 and 1.5. -/
def toyFormatFloat (f : Float64) : String :=
  if f.bits = 0x4045000000000000 then "42"
  else if f.bits = 0x3FF8000000000000 then "1.5"
  else "?"

/-! ## `adapters/common/logging.go`: text previews -/

/-- The UTF-8 encoding of a code point, as Go stores it in a string. -/
def encodeRune (c : Char) : List Nat :=
  let n := c.toNat
  if n < 0x80 then [n]
  else if n < 0x800 then [0xC0 + n / 0x40, 0x80 + n % 0x40]
  else if n < 0x10000 then [0xE0 + n / 0x1000, 0x80 + n / 0x40 % 0x40, 0x80 + n % 0x40]
  else [0xF0 + n / 0x40000, 0x80 + n / 0x1000 % 0x40, 0x80 + n / 0x40 % 0x40, 0x80 + n % 0x40]

/-- The bytes of a list of code points. -/
def encodeRunes : List Char → List Nat
  | [] => []
  | c :: cs => encodeRune c ++ encodeRunes cs

/-- The bytes of a Go string; `len(s)` is the length of this list and
`s[:n]` takes its first `n` bytes. -/
def goBytes (s : String) : List Nat := encodeRunes s.data

/-- Source function `SummarizeText`, with the result as the bytes of the
returned string (the cut `value[:limit]` may fall inside a code point). -/
def SummarizeText (text : String) : List Nat :=
  let value := TrimSpace text
  if value = "" then goBytes ""
  else
    let limit := 120
    if (goBytes value).length ≤ limit then goBytes value
    else (goBytes value).take limit ++ goBytes "..."

/-! ## `chat/types.go` and `chat/assistant_output.go` -/

/-- Source type `ContentPart` (package `chat`). -/
structure ContentPart where
  Typ : String := ""
  Text : String := ""
  URL : String := ""
  Styles : List String := []
  Language : String := ""
  UserID : String := ""
  Emoji : String := ""
  Metadata : AnyMap := none
  deriving DecidableEq, Repr

/-- Source type `ToolCallFunction`. -/
structure ToolCallFunction where
  Name : String := ""
  Arguments : String := ""
  deriving DecidableEq, Repr

/-- Source type `ToolCall`. -/
structure ToolCall where
  ID : String := ""
  Typ : String := ""
  Function : ToolCallFunction := {}
  deriving DecidableEq, Repr

/-- Source type `ModelMessage`; `Content` is the raw JSON, with the empty list
for a nil or empty `json.RawMessage`. -/
structure ModelMessage where
  Role : String := ""
  Content : List UInt8 := []
  ToolCalls : List ToolCall := []
  ToolCallID : String := ""
  Name : String := ""
  deriving DecidableEq, Repr

/-- Source type `AssistantOutput`. -/
structure AssistantOutput where
  Content : String := ""
  Parts : List ContentPart := []
  deriving DecidableEq, Repr

/-- Source method `ContentPart.HasValue`. -/
def ContentPart.HasValue (p : ContentPart) : Bool :=
  decide (TrimSpace p.Text ≠ "") || decide (TrimSpace p.URL ≠ "") ||
    decide (TrimSpace p.Emoji ≠ "")

/-- One pass of the loop of `TextContent`: the text of a part is kept when it
is not blank. -/
def textContentStep (texts : List String) (p : ContentPart) : List String :=
  if TrimSpace p.Text ≠ "" then texts ++ [p.Text] else texts

/-- Source method `ModelMessage.TextContent`. `unmarshalString` is
`json.Unmarshal` into a `string` and `unmarshalParts` is `json.Unmarshal` into
a `[]ContentPart`, each with `none` for an error. -/
def ModelMessage.TextContent (unmarshalString : List UInt8 → Option String)
    (unmarshalParts : List UInt8 → Option (List ContentPart)) (m : ModelMessage) : String :=
  if m.Content.length = 0 then ""
  else
    match unmarshalString m.Content with
    | some s => s
    | none =>
      match unmarshalParts m.Content with
      | some parts => Join (parts.foldl textContentStep []) "\n"
      | none => ""

/-- Source method `ModelMessage.ContentParts`; the nil slice is the empty list. -/
def ModelMessage.ContentParts (unmarshalParts : List UInt8 → Option (List ContentPart))
    (m : ModelMessage) : List ContentPart :=
  if m.Content.length = 0 then []
  else
    match unmarshalParts m.Content with
    | none => []
    | some parts => parts

/-- One pass of the loop of `filterContentParts`. -/
def filterStep (filtered : List ContentPart) (p : ContentPart) : List ContentPart :=
  if p.HasValue then filtered ++ [p] else filtered

/-- Source function `filterContentParts`. -/
def filterContentParts (parts : List ContentPart) : List ContentPart :=
  if parts.length = 0 then [] else parts.foldl filterStep []

/-- One pass of the loop of `ExtractAssistantOutputs`. -/
def extractStep (unmarshalString : List UInt8 → Option String)
    (unmarshalParts : List UInt8 → Option (List ContentPart))
    (outputs : List AssistantOutput) (msg : ModelMessage) : List AssistantOutput :=
  if msg.Role ≠ "assistant" then outputs
  else
    let content := TrimSpace (msg.TextContent unmarshalString unmarshalParts)
    let parts := filterContentParts (msg.ContentParts unmarshalParts)
    if content = "" ∧ parts.length = 0 then outputs
    else outputs ++ [{ Content := content, Parts := parts }]

/-- Source function `ExtractAssistantOutputs`. -/
def ExtractAssistantOutputs (unmarshalString : List UInt8 → Option String)
    (unmarshalParts : List UInt8 → Option (List ContentPart))
    (messages : List ModelMessage) : List AssistantOutput :=
  if messages.length = 0 then []
  else messages.foldl (extractStep unmarshalString unmarshalParts) []

/-- The bytes of a JSON text given as a string. -/
def jsonBytes (s : String) : List UInt8 := (goBytes s).map UInt8.ofNat

/-- The JSON text `"hi"`. -/
def jsonHi : List UInt8 := jsonBytes "\"hi\""

/-- The JSON text of two text parts, the first with the blank text `" "`, the
second with the text `a`. -/
def jsonBlankThenA : List UInt8 :=
  jsonBytes "[\x7b\"type\":\"text\",\"text\":\" \"\x7d,\x7b\"type\":\"text\",\"text\":\"a\"\x7d]"

/-- The JSON text of one link part with the text `click`. -/
def jsonLinkClick : List UInt8 :=
  jsonBytes "[\x7b\"type\":\"link\",\"text\":\"click\",\"url\":\"http://x\"\x7d]"

/-- The JSON text of three text parts: `one`, no text, and `" two "`. -/
def jsonOneNoneTwo : List UInt8 :=
  jsonBytes ("[\x7b\"type\":\"text\",\"text\":\"one\"\x7d,\x7b\"type\":\"text\"\x7d," ++
    "\x7b\"type\":\"text\",\"text\":\" two \"\x7d]")

/-- A stand-in for `json.Unmarshal` into a string in concrete checks: it
decodes `jsonHi` and rejects everything else. -/
def toyString (content : List UInt8) : Option String :=
  if content = jsonHi then some "hi" else none

/-- A stand-in for `json.Unmarshal` into parts in concrete checks: it decodes
the three part arrays above and rejects everything else. -/
def toyParts (content : List UInt8) : Option (List ContentPart) :=
  if content = jsonBlankThenA then
    some [{ Typ := "text", Text := " " }, { Typ := "text", Text := "a" }]
  else if content = jsonLinkClick then
    some [{ Typ := "link", Text := "click", URL := "http://x" }]
  else if content = jsonOneNoneTwo then
    some [{ Typ := "text", Text := "one" }, { Typ := "text", Text := "" },
      { Typ := "text", Text := " two " }]
  else none

/-! ## `adapters/local`: the CLI and Web senders -/

/-- Source method `CLIAdapter.Send` (`cli.go`). The adapter's hub pointer is
`none` for nil. The result is the hub afterwards and the error. -/
def CLIAdapter.Send (hub : Option SessionHub) (_cfg : ChannelConfig) (msg : OutboundMessage) :
    Option SessionHub × Option GoError :=
  match hub with
  | none => (none, some "cli hub not configured")
  | some h =>
    let target := TrimSpace msg.Target
    if target = "" then (some h, some "cli target is required")
    else if msg.Message.IsEmpty then (some h, some "message is required")
    else (some (h.Publish target msg), none)

/-- Source method `WebAdapter.Send` (`web.go`). -/
def WebAdapter.Send (hub : Option SessionHub) (_cfg : ChannelConfig) (msg : OutboundMessage) :
    Option SessionHub × Option GoError :=
  match hub with
  | none => (none, some "web hub not configured")
  | some h =>
    let target := TrimSpace msg.Target
    if target = "" then (some h, some "web target is required")
    else if msg.Message.IsEmpty then (some h, some "message is required")
    else (some (h.Publish target msg), none)

/-! ## Hub histories: what was published to a stream -/

/-- One step of the record of what was published to session `sessionID` since
stream `streamID` subscribed: a `Subscribe` of that stream starts the record
anew, a `Publish` to the session extends it. -/
def publishedStep (sessionID streamID : String) (record : List OutboundMessage) :
    HubOp → List OutboundMessage
  | .subscribe s id => if s = sessionID ∧ id = streamID then [] else record
  | .publish s msg => if s = sessionID then record ++ [msg] else record
  | .cancel _ _ => record
  | .receive _ _ => record

/-- The messages published to session `sessionID`, in publish order, since
stream `streamID` last subscribed, along a history. -/
def publishedSince (sessionID streamID : String) (record : List OutboundMessage) :
    List HubOp → List OutboundMessage
  | [] => record
  | op :: rest =>
    publishedSince sessionID streamID (publishedStep sessionID streamID record op) rest

/-- A hub whose session `s` has one stream, subscribed under a version 4 UUID,
with one message waiting in its buffer. -/
def oneStreamHub : SessionHub :=
  { sessions := [("s", [("3f2504e0-4f89-41d3-9a0c-0305e82c3301",
      { buf := [numberedMessage 7] })])] }

/-! ## Session identity: theorems -/

/-- The three fixed parts joined with `:`. -/
theorem Join_three (a b c : String) : Join [a, b, c] ":" = a ++ ":" ++ b ++ ":" ++ c := by
  simp [Join, String.append_assoc]

/-- The three fixed parts and a sender joined with `:`. -/
theorem Join_four (a b c d : String) :
    Join [a, b, c, d] ":" = a ++ ":" ++ b ++ ":" ++ c ++ ":" ++ d := by
  simp [Join, String.append_assoc]

/-- A string is never equal to itself followed by `:` and something else. -/
theorem ne_append_colon (base s : String) : base ≠ base ++ ":" ++ s := by
  intro h
  have hl := congrArg String.length h
  simp [String.length_append] at hl
  have : (":" : String).length = 1 := rfl
  omega

/-- Appending `:` and a suffix to a fixed base is injective in the suffix. -/
theorem append_colon_inj (base s t : String) (h : base ++ ":" ++ s = base ++ ":" ++ t) :
    s = t := by
  have hd := congrArg String.data h
  simp only [String.data_append, List.append_assoc] at hd
  exact String.ext (List.append_cancel_left (List.append_cancel_left hd))

/-- C1: `GenerateSessionID` is `platform:botID:conversationID`, followed by `:`
and the trimmed sender exactly when the trimmed, lower-cased conversation type
is non-empty, not `p2p` and not `private`, and the trimmed sender is non-empty;
otherwise nothing is appended. The two examples of the specification hold. -/
theorem GenerateSessionID_spec (unicodeToLower : Char → Char)
    (platform botID conversationID conversationType senderID : String) :
    GenerateSessionID unicodeToLower platform botID conversationID conversationType senderID =
      (if ToLower unicodeToLower (TrimSpace conversationType) ≠ "" ∧
          ToLower unicodeToLower (TrimSpace conversationType) ≠ "p2p" ∧
          ToLower unicodeToLower (TrimSpace conversationType) ≠ "private" ∧
          TrimSpace senderID ≠ "" then
        platform ++ ":" ++ botID ++ ":" ++ conversationID ++ ":" ++ TrimSpace senderID
      else platform ++ ":" ++ botID ++ ":" ++ conversationID) ∧
    GenerateSessionID unicodeToLower "telegram" "bot1" "chat1" "group" "user1" =
      "telegram:bot1:chat1:user1" ∧
    GenerateSessionID unicodeToLower "telegram" "bot1" "chat1" "private" "user1" =
      "telegram:bot1:chat1" := by
  refine ⟨?_, rfl, rfl⟩
  unfold GenerateSessionID
  by_cases hct : ToLower unicodeToLower (TrimSpace conversationType) ≠ "" ∧
      ToLower unicodeToLower (TrimSpace conversationType) ≠ "p2p" ∧
      ToLower unicodeToLower (TrimSpace conversationType) ≠ "private"
  · by_cases hs : TrimSpace senderID ≠ ""
    · have hall : ToLower unicodeToLower (TrimSpace conversationType) ≠ "" ∧
          ToLower unicodeToLower (TrimSpace conversationType) ≠ "p2p" ∧
          ToLower unicodeToLower (TrimSpace conversationType) ≠ "private" ∧
          TrimSpace senderID ≠ "" := ⟨hct.1, hct.2.1, hct.2.2, hs⟩
      simp only [if_pos hct, if_pos hs, if_pos hall]
      exact Join_four _ _ _ _
    · have hall : ¬ (ToLower unicodeToLower (TrimSpace conversationType) ≠ "" ∧
          ToLower unicodeToLower (TrimSpace conversationType) ≠ "p2p" ∧
          ToLower unicodeToLower (TrimSpace conversationType) ≠ "private" ∧
          TrimSpace senderID ≠ "") := fun h => hs h.2.2.2
      simp only [if_pos hct, if_neg hs, if_neg hall]
      exact Join_three _ _ _
  · have hall : ¬ (ToLower unicodeToLower (TrimSpace conversationType) ≠ "" ∧
        ToLower unicodeToLower (TrimSpace conversationType) ≠ "p2p" ∧
        ToLower unicodeToLower (TrimSpace conversationType) ≠ "private" ∧
        TrimSpace senderID ≠ "") := fun h => hct ⟨h.1, h.2.1, h.2.2.1⟩
    simp only [if_neg hct, if_neg hall]
    exact Join_three _ _ _

/-- C2: for a private or p2p conversation type (after trimming and
lower-casing) the session ID is the same for any two senders. -/
theorem GenerateSessionID_private_sender_independent (unicodeToLower : Char → Char)
    (platform botID conversationID conversationType s1 s2 : String)
    (hct : ToLower unicodeToLower (TrimSpace conversationType) = "private" ∨
      ToLower unicodeToLower (TrimSpace conversationType) = "p2p") :
    GenerateSessionID unicodeToLower platform botID conversationID conversationType s1 =
      GenerateSessionID unicodeToLower platform botID conversationID conversationType s2 := by
  have hno : ¬ (ToLower unicodeToLower (TrimSpace conversationType) ≠ "" ∧
      ToLower unicodeToLower (TrimSpace conversationType) ≠ "p2p" ∧
      ToLower unicodeToLower (TrimSpace conversationType) ≠ "private") := by
    rcases hct with h | h
    · exact fun hc => hc.2.2 h
    · exact fun hc => hc.2.1 h
  unfold GenerateSessionID
  simp only [if_neg hno]

/-- Witness for C2: a `" Private "` conversation with senders `alice` and `bob`. -/
theorem GenerateSessionID_private_sender_independent_witness :
    GenerateSessionID id "telegram" "bot1" "chat1" " Private " "alice" =
      GenerateSessionID id "telegram" "bot1" "chat1" " Private " "bob" :=
  GenerateSessionID_private_sender_independent id "telegram" "bot1" "chat1" " Private "
    "alice" "bob" (Or.inl rfl)

/-- C3: for a group or channel conversation type (trimmed and lower-cased:
non-empty, not `p2p`, not `private`) two senders whose trimmed IDs differ get
different session IDs. -/
theorem GenerateSessionID_group_sender_partition (unicodeToLower : Char → Char)
    (platform botID conversationID conversationType s1 s2 : String)
    (hct : ToLower unicodeToLower (TrimSpace conversationType) ≠ "" ∧
      ToLower unicodeToLower (TrimSpace conversationType) ≠ "p2p" ∧
      ToLower unicodeToLower (TrimSpace conversationType) ≠ "private")
    (hne : TrimSpace s1 ≠ TrimSpace s2) :
    GenerateSessionID unicodeToLower platform botID conversationID conversationType s1 ≠
      GenerateSessionID unicodeToLower platform botID conversationID conversationType s2 := by
  unfold GenerateSessionID
  simp only [if_pos hct]
  by_cases h1 : TrimSpace s1 ≠ "" <;> by_cases h2 : TrimSpace s2 ≠ ""
  · simp only [if_pos h1, if_pos h2]
    show Join [platform, botID, conversationID, TrimSpace s1] ":" ≠
      Join [platform, botID, conversationID, TrimSpace s2] ":"
    rw [Join_four, Join_four]
    exact fun h => hne (append_colon_inj _ _ _ h)
  · simp only [if_pos h1, if_neg h2]
    show Join [platform, botID, conversationID, TrimSpace s1] ":" ≠
      Join [platform, botID, conversationID] ":"
    rw [Join_four, Join_three]
    exact fun h => ne_append_colon _ _ h.symm
  · simp only [if_neg h1, if_pos h2]
    show Join [platform, botID, conversationID] ":" ≠
      Join [platform, botID, conversationID, TrimSpace s2] ":"
    rw [Join_four, Join_three]
    exact ne_append_colon _ _
  · exact absurd ((not_not.mp h1).trans (not_not.mp h2).symm) hne

/-- Witness for C3: a `Group` conversation with senders `alice` and `bob`. -/
theorem GenerateSessionID_group_sender_partition_witness :
    GenerateSessionID id "telegram" "bot1" "chat1" "Group" " alice" ≠
      GenerateSessionID id "telegram" "bot1" "chat1" "Group" "bob " :=
  GenerateSessionID_group_sender_partition id "telegram" "bot1" "chat1" "Group" " alice" "bob "
    (by decide) (by decide)

/-- C4: when the trimmed `SessionKey` is non-empty, `SessionID` is the trimmed
`SessionKey`, whatever the other fields are. -/
theorem SessionID_explicit_key (unicodeToLower : Char → Char) (m : InboundMessage)
    (hkey : TrimSpace m.SessionKey ≠ "") :
    m.SessionID unicodeToLower = TrimSpace m.SessionKey := by
  unfold InboundMessage.SessionID
  simp only [if_pos hkey]

/-- Witness for C4: the key `" k1 "` wins over every other field. -/
theorem SessionID_explicit_key_witness :
    InboundMessage.SessionID id
      { Channel := "telegram", BotID := "bot1", SessionKey := " k1 ",
        Sender := { ExternalID := "u1" }, Conversation := { ID := "c1", Typ := "group" } } =
      "k1" :=
  SessionID_explicit_key id
    { Channel := "telegram", BotID := "bot1", SessionKey := " k1 ",
      Sender := { ExternalID := "u1" }, Conversation := { ID := "c1", Typ := "group" } }
    (by decide)

/-- C5: when the trimmed `SessionKey` is blank, `SessionID` is
`GenerateSessionID` of channel, bot, conversation ID and type, with the sender
being the trimmed `ExternalID`, or the trimmed `DisplayName` when the
`ExternalID` is blank. -/
theorem SessionID_derived (unicodeToLower : Char → Char) (m : InboundMessage)
    (hkey : TrimSpace m.SessionKey = "") :
    m.SessionID unicodeToLower =
      GenerateSessionID unicodeToLower m.Channel m.BotID m.Conversation.ID m.Conversation.Typ
        (if TrimSpace m.Sender.ExternalID = "" then TrimSpace m.Sender.DisplayName
         else TrimSpace m.Sender.ExternalID) := by
  unfold InboundMessage.SessionID
  simp only [hkey, ne_eq, not_true_eq_false, if_false]

/-- Witness for C5: a blank key and a blank external ID fall back to the
display name. -/
theorem SessionID_derived_witness :
    InboundMessage.SessionID id
      { Channel := "telegram", BotID := "bot1", SessionKey := "  ",
        Sender := { ExternalID := " ", DisplayName := " Ann " },
        Conversation := { ID := "c1", Typ := "group" } } =
      GenerateSessionID id "telegram" "bot1" "c1" "group" "Ann" :=
  SessionID_derived id
    { Channel := "telegram", BotID := "bot1", SessionKey := "  ",
      Sender := { ExternalID := " ", DisplayName := " Ann " },
      Conversation := { ID := "c1", Typ := "group" } }
    (by decide)

/-! ## Go maps: lemmas -/

/-- Reading the key just written gives the written value. -/
theorem GoMap.get_set_self {V : Type} (m : GoMap V) (k : String) (v : V) :
    GoMap.get (GoMap.set m k v) k = some v := by
  induction m with
  | nil => simp [GoMap.set, GoMap.get]
  | cons e rest ih =>
    obtain ⟨k0, v0⟩ := e
    by_cases hk : k0 = k
    · simp [GoMap.set, GoMap.get, hk]
    · simp [GoMap.set, GoMap.get, hk, ih]

/-- Writing one key does not change what is read at another. -/
theorem GoMap.get_set_ne {V : Type} (m : GoMap V) (k k1 : String) (v : V) (hne : k1 ≠ k) :
    GoMap.get (GoMap.set m k v) k1 = GoMap.get m k1 := by
  induction m with
  | nil => simp [GoMap.set, GoMap.get, Ne.symm hne]
  | cons e rest ih =>
    obtain ⟨k0, v0⟩ := e
    by_cases hk : k0 = k
    · subst hk
      simp [GoMap.set, GoMap.get, Ne.symm hne]
    · by_cases hk1 : k0 = k1
      · subst hk1
        simp [GoMap.set, GoMap.get, hne]
      · simp [GoMap.set, GoMap.get, hk, hk1, ih]

/-- A deleted key is absent. -/
theorem GoMap.get_delete_self {V : Type} (m : GoMap V) (k : String) :
    GoMap.get (GoMap.delete m k) k = none := by
  induction m with
  | nil => simp [GoMap.delete, GoMap.get]
  | cons e rest ih =>
    obtain ⟨k0, v0⟩ := e
    by_cases hk : k0 = k
    · simp [GoMap.delete, hk, ih]
    · simp [GoMap.delete, GoMap.get, hk, ih]

/-- Deleting one key does not change what is read at another. -/
theorem GoMap.get_delete_ne {V : Type} (m : GoMap V) (k k1 : String) (hne : k1 ≠ k) :
    GoMap.get (GoMap.delete m k) k1 = GoMap.get m k1 := by
  induction m with
  | nil => simp [GoMap.delete, GoMap.get]
  | cons e rest ih =>
    obtain ⟨k0, v0⟩ := e
    by_cases hk : k0 = k
    · subst hk
      simp [GoMap.delete, GoMap.get, Ne.symm hne, ih]
    · by_cases hk1 : k0 = k1
      · subst hk1
        simp [GoMap.delete, GoMap.get, hne]
      · simp [GoMap.delete, GoMap.get, hk, hk1, ih]

/-- Writing back the value a key already has leaves the map as it was. -/
theorem GoMap.set_get_same {V : Type} (m : GoMap V) (k : String) (v : V)
    (h : GoMap.get m k = some v) : GoMap.set m k v = m := by
  induction m with
  | nil => simp [GoMap.get] at h
  | cons e rest ih =>
    obtain ⟨k0, v0⟩ := e
    by_cases hk : k0 = k
    · simp [GoMap.get, hk] at h
      simp [GoMap.set, hk, h]
    · simp [GoMap.get, hk] at h
      simp [GoMap.set, hk, ih h]

/-- Updating every value in place is seen through `get` as a map on the value. -/
theorem GoMap.get_map_values {V : Type} (f : V → V) (m : GoMap V) (k : String) :
    GoMap.get (m.map (fun e => (e.1, f e.2))) k = (GoMap.get m k).map f := by
  induction m with
  | nil => simp [GoMap.get]
  | cons e rest ih =>
    obtain ⟨k0, v0⟩ := e
    by_cases hk : k0 = k
    · simp [GoMap.get, hk]
    · simp [GoMap.get, hk, ih]

/-- A map of length zero binds no key. -/
theorem GoMap.get_of_length_zero {V : Type} (m : GoMap V) (k : String) (h : m.length = 0) :
    GoMap.get m k = none := by
  cases m with
  | nil => rfl
  | cons e rest => simp at h

/-- A map that binds no key is the empty list. -/
theorem GoMap.eq_nil_of_get_none {V : Type} (m : GoMap V) (h : ∀ k, GoMap.get m k = none) :
    m = [] := by
  cases m with
  | nil => rfl
  | cons e rest =>
    obtain ⟨k0, v0⟩ := e
    have := h k0
    simp [GoMap.get] at this

/-! ## Session hub: lemmas -/

/-- The streams of the published session after `Publish`. -/
theorem SessionHub.stream_Publish_self (h : SessionHub) (s id : String) (msg : OutboundMessage) :
    (h.Publish s msg).stream s id = (h.stream s id).map (fun ch => trySend ch msg) := by
  unfold SessionHub.Publish SessionHub.stream
  cases hg : GoMap.get h.sessions s with
  | none => simp [hg]
  | some streams =>
    simp only [GoMap.get_set_self]
    exact GoMap.get_map_values (fun ch => trySend ch msg) streams id

/-- The session entries other than the published one after `Publish`. -/
theorem SessionHub.sessions_Publish_ne (h : SessionHub) (s s1 : String) (msg : OutboundMessage)
    (hne : s1 ≠ s) : GoMap.get (h.Publish s msg).sessions s1 = GoMap.get h.sessions s1 := by
  unfold SessionHub.Publish
  cases hg : GoMap.get h.sessions s with
  | none => rfl
  | some streams => exact GoMap.get_set_ne _ _ _ _ hne

/-- The streams of the sessions other than the published one after `Publish`. -/
theorem SessionHub.stream_Publish_ne (h : SessionHub) (s s1 id : String) (msg : OutboundMessage)
    (hne : s1 ≠ s) : (h.Publish s msg).stream s1 id = h.stream s1 id := by
  unfold SessionHub.stream
  rw [SessionHub.sessions_Publish_ne h s s1 msg hne]

/-- The streams of the subscribed session after `Subscribe`. -/
theorem SessionHub.stream_Subscribe_self (h : SessionHub) (s id id1 : String) :
    (h.Subscribe s id).1.stream s id1 = if id1 = id then some { buf := [] } else h.stream s id1 := by
  unfold SessionHub.Subscribe SessionHub.stream
  simp only [GoMap.get_set_self]
  by_cases hid : id1 = id
  · subst hid
    simp [GoMap.get_set_self]
  · rw [GoMap.get_set_ne _ _ _ _ hid]
    cases hg : GoMap.get h.sessions s with
    | none => simp [hid, GoMap.get]
    | some streams => simp [hid]

/-- The session entries other than the subscribed one after `Subscribe`. -/
theorem SessionHub.sessions_Subscribe_ne (h : SessionHub) (s id s1 : String) (hne : s1 ≠ s) :
    GoMap.get (h.Subscribe s id).1.sessions s1 = GoMap.get h.sessions s1 := by
  unfold SessionHub.Subscribe
  exact GoMap.get_set_ne _ _ _ _ hne

/-- The streams of the cancelled session after `cancel`. -/
theorem SessionHub.stream_cancel_self (h : SessionHub) (s id id1 : String) :
    (h.cancel s id).1.stream s id1 = if id1 = id then none else h.stream s id1 := by
  unfold SessionHub.cancel
  cases hg : GoMap.get h.sessions s with
  | none =>
    simp only [SessionHub.stream, hg]
    split <;> rfl
  | some streams =>
    simp only
    cases hc : GoMap.get streams id with
    | none =>
      simp only [Option.isSome_none, Bool.false_eq_true, if_false]
      by_cases hl : streams.length = 0
      · simp only [hl, if_true, SessionHub.stream, GoMap.get_delete_self, hg,
          GoMap.get_of_length_zero streams id1 hl]
        split <;> rfl
      · simp only [hl, if_false, SessionHub.stream, GoMap.get_set_self, hg]
        by_cases hid : id1 = id
        · simp [hid, hc]
        · simp [hid]
    | some ch =>
      simp only [Option.isSome_some, if_true]
      by_cases hl : (GoMap.delete streams id).length = 0
      · simp only [hl, if_true, SessionHub.stream, GoMap.get_delete_self, hg]
        by_cases hid : id1 = id
        · simp [hid]
        · have := GoMap.get_of_length_zero _ id1 hl
          rw [GoMap.get_delete_ne _ _ _ hid] at this
          simp [hid, this]
      · simp only [hl, if_false, SessionHub.stream, GoMap.get_set_self, hg]
        by_cases hid : id1 = id
        · simp [hid, GoMap.get_delete_self]
        · simp [hid, GoMap.get_delete_ne _ _ _ hid]

/-- The session entries other than the cancelled one after `cancel`. -/
theorem SessionHub.sessions_cancel_ne (h : SessionHub) (s id s1 : String) (hne : s1 ≠ s) :
    GoMap.get (h.cancel s id).1.sessions s1 = GoMap.get h.sessions s1 := by
  unfold SessionHub.cancel
  cases hg : GoMap.get h.sessions s with
  | none => rfl
  | some streams =>
    simp only
    split_ifs
    all_goals first
      | exact GoMap.get_delete_ne _ _ _ hne
      | exact GoMap.get_set_ne _ _ _ _ hne

/-- A send on a channel with room appends the message. -/
theorem trySend_room (ch : Chan) (msg : OutboundMessage) (hroom : ch.buf.length < 32) :
    trySend ch msg = { buf := ch.buf ++ [msg] } := by
  unfold trySend streamCapacity
  simp [hroom]

/-- A send on a full channel leaves it as it was. -/
theorem trySend_full (ch : Chan) (msg : OutboundMessage) (hfull : 32 ≤ ch.buf.length) :
    trySend ch msg = ch := by
  unfold trySend streamCapacity
  simp [Nat.not_lt.mpr hfull]

/-- Sending a run of messages to a channel that is never read keeps what fits. -/
theorem foldl_trySend (msgs : List OutboundMessage) (ch : Chan) (hle : ch.buf.length ≤ 32) :
    msgs.foldl trySend ch = { buf := ch.buf ++ msgs.take (32 - ch.buf.length) } := by
  induction msgs generalizing ch with
  | nil => simp
  | cons m rest ih =>
    rw [List.foldl_cons]
    by_cases hroom : ch.buf.length < 32
    · rw [trySend_room ch m hroom, ih _ (by simp; omega)]
      have hsub : 32 - ch.buf.length = (32 - (ch.buf.length + 1)) + 1 := by omega
      simp only [List.length_append, List.length_singleton]
      rw [hsub, List.take_succ_cons]
      simp
    · have hfull : 32 ≤ ch.buf.length := Nat.not_lt.mp hroom
      rw [trySend_full ch m hfull, ih ch hle]
      have hz : 32 - ch.buf.length = 0 := by omega
      simp [hz]

/-- The streams of the published session after a run of publishes. -/
theorem SessionHub.stream_publishAll (msgs : List OutboundMessage) (h : SessionHub)
    (s id : String) :
    (h.publishAll s msgs).stream s id = (h.stream s id).map (fun ch => msgs.foldl trySend ch) := by
  induction msgs generalizing h with
  | nil => simp [SessionHub.publishAll]
  | cons m rest ih =>
    rw [SessionHub.publishAll, ih, SessionHub.stream_Publish_self]
    cases h.stream s id <;> simp

/-! ## Session hub: theorems -/

/-- C6: `Publish` delivers to every current subscriber of the session. A stream
of the session whose buffer holds fewer than 32 messages has the message
appended at the end of its buffer; two subscriptions to one session both
receive one published message. -/
theorem Publish_delivers_to_every_subscriber (h : SessionHub) (sessionID : String)
    (msg : OutboundMessage) :
    (∀ streamID ch, h.stream sessionID streamID = some ch → ch.buf.length < 32 →
      (h.Publish sessionID msg).stream sessionID streamID = some { buf := ch.buf ++ [msg] }) ∧
    (∀ id1 id2, id1 ≠ id2 →
      (((h.Subscribe sessionID id1).1.Subscribe sessionID id2).1.Publish sessionID msg).stream
          sessionID id1 = some { buf := [msg] } ∧
      (((h.Subscribe sessionID id1).1.Subscribe sessionID id2).1.Publish sessionID msg).stream
          sessionID id2 = some { buf := [msg] }) := by
  constructor
  · intro streamID ch hsub hroom
    rw [SessionHub.stream_Publish_self, hsub, Option.map_some', trySend_room ch msg hroom]
  · intro id1 id2 hne
    constructor
    · rw [SessionHub.stream_Publish_self, SessionHub.stream_Subscribe_self,
        if_neg hne, SessionHub.stream_Subscribe_self, if_pos rfl]
      rfl
    · rw [SessionHub.stream_Publish_self, SessionHub.stream_Subscribe_self, if_pos rfl]
      rfl

/-- Witness for C6: stream `a` of session `s` holds one message and receives a
second one; two fresh subscriptions both receive the message. -/
theorem Publish_delivers_to_every_subscriber_witness :
    (SessionHub.Publish { sessions := [("s", [("a", { buf := [textMessage "s" "one"] })])] } "s"
        (textMessage "s" "two")).stream "s" "a" =
      some { buf := [textMessage "s" "one", textMessage "s" "two"] } ∧
    (((NewSessionHub.Subscribe "s" "a").1.Subscribe "s" "b").1.Publish "s"
        (textMessage "s" "two")).stream "s" "a" = some { buf := [textMessage "s" "two"] } :=
  ⟨(Publish_delivers_to_every_subscriber
      { sessions := [("s", [("a", { buf := [textMessage "s" "one"] })])] } "s"
      (textMessage "s" "two")).1 "a" { buf := [textMessage "s" "one"] } (by decide) (by decide),
   ((Publish_delivers_to_every_subscriber NewSessionHub "s" (textMessage "s" "two")).2
      "a" "b" (by decide)).1⟩

/-- C7: drop-on-full. A stream whose buffer already holds 32 messages is left
unchanged by `Publish`, while every other stream of the session with room gets
the message appended. Publishing 33 messages to a fresh subscriber that never
reads leaves exactly the first 32, in publish order, in its buffer. -/
theorem Publish_drops_on_full (h : SessionHub) (sessionID : String) (msg : OutboundMessage) :
    (∀ streamID ch, h.stream sessionID streamID = some ch → ch.buf.length = 32 →
      (h.Publish sessionID msg).stream sessionID streamID = some ch ∧
      ∀ other ch1, other ≠ streamID → h.stream sessionID other = some ch1 →
        ch1.buf.length < 32 →
        (h.Publish sessionID msg).stream sessionID other = some { buf := ch1.buf ++ [msg] }) ∧
    (∀ streamID msgs, msgs.length = 33 →
      ((h.Subscribe sessionID streamID).1.publishAll sessionID msgs).stream sessionID streamID =
        some { buf := msgs.take 32 }) := by
  constructor
  · intro streamID ch hsub hfull
    constructor
    · rw [SessionHub.stream_Publish_self, hsub, Option.map_some',
        trySend_full ch msg (Nat.le_of_eq hfull.symm)]
    · intro other ch1 _ hsub1 hroom
      rw [SessionHub.stream_Publish_self, hsub1, Option.map_some', trySend_room ch1 msg hroom]
  · intro streamID msgs _
    rw [SessionHub.stream_publishAll, SessionHub.stream_Subscribe_self, if_pos rfl,
      Option.map_some', foldl_trySend msgs _ (by simp)]
    simp

/-- Witness for C7: stream `a` is full and keeps its 32 messages, stream `b`
receives the message, and 33 messages to a fresh stream leave the first 32. -/
theorem Publish_drops_on_full_witness :
    (fullAndEmptyHub.Publish "s" (numberedMessage 40)).stream "s" "a" =
      some { buf := (List.range 32).map numberedMessage } ∧
    (fullAndEmptyHub.Publish "s" (numberedMessage 40)).stream "s" "b" =
      some { buf := [numberedMessage 40] } ∧
    ((NewSessionHub.Subscribe "s" "a").1.publishAll "s"
        ((List.range 33).map numberedMessage)).stream "s" "a" =
      some { buf := (List.range 32).map numberedMessage } :=
  ⟨((Publish_drops_on_full fullAndEmptyHub "s" (numberedMessage 40)).1 "a"
      { buf := (List.range 32).map numberedMessage } (by decide) (by decide)).1,
   ((Publish_drops_on_full fullAndEmptyHub "s" (numberedMessage 40)).1 "a"
      { buf := (List.range 32).map numberedMessage } (by decide) (by decide)).2 "b"
      { buf := [] } (by decide) (by decide) (by decide),
   (Publish_drops_on_full NewSessionHub "s" (numberedMessage 40)).2 "a"
      ((List.range 33).map numberedMessage) (by decide)⟩

/-- C8: `Publish` keeps the subscriptions as they are, in every session, and
keeps the buffers of the streams of every other session; publishing to a
session with no subscribers leaves the whole hub unchanged. `Publish` is a
total function, so it yields a hub in every state. -/
theorem Publish_frame (h : SessionHub) (sessionID : String) (msg : OutboundMessage) :
    (∀ s1, (GoMap.get (h.Publish sessionID msg).sessions s1).isSome =
      (GoMap.get h.sessions s1).isSome) ∧
    (∀ s1 id1, ((h.Publish sessionID msg).stream s1 id1).isSome = (h.stream s1 id1).isSome) ∧
    (∀ s1 id1, s1 ≠ sessionID → (h.Publish sessionID msg).stream s1 id1 = h.stream s1 id1) ∧
    ((∀ id1, h.stream sessionID id1 = none) → h.Publish sessionID msg = h) := by
  refine ⟨?_, ?_, ?_, ?_⟩
  · intro s1
    by_cases hs : s1 = sessionID
    · subst hs
      unfold SessionHub.Publish
      cases hg : GoMap.get h.sessions s1 with
      | none => simp [hg]
      | some streams => simp [GoMap.get_set_self]
    · rw [SessionHub.sessions_Publish_ne h sessionID s1 msg hs]
  · intro s1 id1
    by_cases hs : s1 = sessionID
    · subst hs
      rw [SessionHub.stream_Publish_self]
      cases h.stream s1 id1 <;> rfl
    · rw [SessionHub.stream_Publish_ne h sessionID s1 id1 msg hs]
  · intro s1 id1 hs
    exact SessionHub.stream_Publish_ne h sessionID s1 id1 msg hs
  · intro hnone
    unfold SessionHub.Publish
    cases hg : GoMap.get h.sessions sessionID with
    | none => rfl
    | some streams =>
      have hempty : streams = [] := by
        apply GoMap.eq_nil_of_get_none
        intro k
        have := hnone k
        simpa [SessionHub.stream, hg] using this
      subst hempty
      simp only [List.map_nil]
      rw [GoMap.set_get_same h.sessions sessionID [] hg]

/-- Witness for C8: publishing to session `t` leaves the streams of session `s`
alone, and publishing to the unknown session `u` leaves the hub unchanged. -/
theorem Publish_frame_witness :
    (fullAndEmptyHub.Publish "t" (numberedMessage 1)).stream "s" "b" =
      fullAndEmptyHub.stream "s" "b" ∧
    fullAndEmptyHub.Publish "u" (numberedMessage 1) = fullAndEmptyHub :=
  ⟨(Publish_frame fullAndEmptyHub "t" (numberedMessage 1)).2.2.1 "s" "b" (by decide),
   (Publish_frame fullAndEmptyHub "u" (numberedMessage 1)).2.2.2 (fun _ => rfl)⟩

/-- C9, as the code has it: `Subscribe` never checks whether the stream ID it
drew is already in use. It returns the drawn ID; afterwards the stream under
that session and ID has an empty buffer (the session entry is created when
needed); every stream with another session or another ID is subscribed or not
as before, with the same buffer; no other session entry is touched. When the
drawn ID is new to the session this adds exactly one stream and leaves every
stream subscribed before unchanged. -/
theorem Subscribe_adds_one_stream (h : SessionHub) (sessionID streamID : String) :
    (h.Subscribe sessionID streamID).2 = streamID ∧
    (h.Subscribe sessionID streamID).1.stream sessionID streamID = some { buf := [] } ∧
    (∀ s1 id1, (s1 ≠ sessionID ∨ id1 ≠ streamID) →
      (h.Subscribe sessionID streamID).1.stream s1 id1 = h.stream s1 id1) ∧
    (∀ s1, s1 ≠ sessionID →
      GoMap.get (h.Subscribe sessionID streamID).1.sessions s1 = GoMap.get h.sessions s1) ∧
    (h.stream sessionID streamID = none →
      ∀ s1 id1 ch, h.stream s1 id1 = some ch →
        (h.Subscribe sessionID streamID).1.stream s1 id1 = some ch) := by
  have hother : ∀ s1 id1, (s1 ≠ sessionID ∨ id1 ≠ streamID) →
      (h.Subscribe sessionID streamID).1.stream s1 id1 = h.stream s1 id1 := by
    intro s1 id1 hne
    by_cases hs : s1 = sessionID
    · subst hs
      have hid : id1 ≠ streamID := by
        rcases hne with hne | hne
        · exact absurd rfl hne
        · exact hne
      rw [SessionHub.stream_Subscribe_self, if_neg hid]
    · unfold SessionHub.stream
      rw [SessionHub.sessions_Subscribe_ne h sessionID streamID s1 hs]
  refine ⟨rfl, ?_, hother, ?_, ?_⟩
  · rw [SessionHub.stream_Subscribe_self, if_pos rfl]
  · intro s1 hs
    exact SessionHub.sessions_Subscribe_ne h sessionID streamID s1 hs
  · intro hfresh s1 id1 ch hsub
    rw [hother s1 id1, hsub]
    by_contra hcon
    push_neg at hcon
    obtain ⟨hs, hid⟩ := hcon
    subst hs
    subst hid
    rw [hfresh] at hsub
    exact Option.noConfusion hsub

/-- Witness for C9: a third stream `c` joins session `s` of a hub that has the
streams `a` and `b`; the full buffer of `a` is unchanged. -/
theorem Subscribe_adds_one_stream_witness :
    (fullAndEmptyHub.Subscribe "s" "c").1.stream "s" "c" = some { buf := [] } ∧
    (fullAndEmptyHub.Subscribe "s" "c").1.stream "s" "a" = fullAndEmptyHub.stream "s" "a" ∧
    (fullAndEmptyHub.Subscribe "s" "c").1.stream "s" "a" =
      some { buf := (List.range 32).map numberedMessage } :=
  ⟨(Subscribe_adds_one_stream fullAndEmptyHub "s" "c").2.1,
   (Subscribe_adds_one_stream fullAndEmptyHub "s" "c").2.2.1 "s" "a" (Or.inr (by decide)),
   (Subscribe_adds_one_stream fullAndEmptyHub "s" "c").2.2.2.2 (by decide) "s" "a"
      { buf := (List.range 32).map numberedMessage } (by decide)⟩

/-- Counterexample to C9 as stated: session `s` has one stream, under a version 4
UUID, with one message waiting in its buffer. When `Subscribe` draws that same
UUID again it returns an ID that was already present, and the stream that was
subscribed before loses its buffered message: its channel is replaced by an
empty one. -/
theorem Subscribe_replaces_stream_counterexample :
    oneStreamHub.stream "s" "3f2504e0-4f89-41d3-9a0c-0305e82c3301" =
      some { buf := [numberedMessage 7] } ∧
    (oneStreamHub.Subscribe "s" "3f2504e0-4f89-41d3-9a0c-0305e82c3301").2 =
      "3f2504e0-4f89-41d3-9a0c-0305e82c3301" ∧
    (oneStreamHub.Subscribe "s" "3f2504e0-4f89-41d3-9a0c-0305e82c3301").1.stream "s"
      "3f2504e0-4f89-41d3-9a0c-0305e82c3301" = some { buf := [] } ∧
    (oneStreamHub.Subscribe "s" "3f2504e0-4f89-41d3-9a0c-0305e82c3301").1.stream "s"
      "3f2504e0-4f89-41d3-9a0c-0305e82c3301" ≠
      oneStreamHub.stream "s" "3f2504e0-4f89-41d3-9a0c-0305e82c3301" := by
  decide

/-- C10: `cancel` removes exactly its own stream. Afterwards that stream is not
subscribed; every other stream, of the same and of every other session, is
subscribed as before with the same buffer, and a later `Publish` to its session
still appends to its buffer when there is room. -/
theorem cancel_removes_exactly_own_stream (h : SessionHub) (sessionID streamID : String) :
    (h.cancel sessionID streamID).1.stream sessionID streamID = none ∧
    (∀ s1 id1, (s1 ≠ sessionID ∨ id1 ≠ streamID) →
      (h.cancel sessionID streamID).1.stream s1 id1 = h.stream s1 id1) ∧
    (∀ s1 id1 ch msg, (s1 ≠ sessionID ∨ id1 ≠ streamID) → h.stream s1 id1 = some ch →
      ch.buf.length < 32 →
      ((h.cancel sessionID streamID).1.Publish s1 msg).stream s1 id1 =
        some { buf := ch.buf ++ [msg] }) := by
  have hother : ∀ s1 id1, (s1 ≠ sessionID ∨ id1 ≠ streamID) →
      (h.cancel sessionID streamID).1.stream s1 id1 = h.stream s1 id1 := by
    intro s1 id1 hne
    by_cases hs : s1 = sessionID
    · subst hs
      have hid : id1 ≠ streamID := by
        rcases hne with hne | hne
        · exact absurd rfl hne
        · exact hne
      rw [SessionHub.stream_cancel_self, if_neg hid]
    · unfold SessionHub.stream
      rw [SessionHub.sessions_cancel_ne h sessionID streamID s1 hs]
  refine ⟨?_, hother, ?_⟩
  · rw [SessionHub.stream_cancel_self, if_pos rfl]
  · intro s1 id1 ch msg hne hsub hroom
    rw [SessionHub.stream_Publish_self, hother s1 id1 hne, hsub, Option.map_some',
      trySend_room ch msg hroom]

/-- Witness for C10: cancelling stream `a` of session `s` leaves stream `b`
subscribed, and `b` receives the next message. -/
theorem cancel_removes_exactly_own_stream_witness :
    (fullAndEmptyHub.cancel "s" "a").1.stream "s" "a" = none ∧
    (fullAndEmptyHub.cancel "s" "a").1.stream "s" "b" = fullAndEmptyHub.stream "s" "b" ∧
    ((fullAndEmptyHub.cancel "s" "a").1.Publish "s" (numberedMessage 1)).stream "s" "b" =
      some { buf := [numberedMessage 1] } :=
  ⟨(cancel_removes_exactly_own_stream fullAndEmptyHub "s" "a").1,
   (cancel_removes_exactly_own_stream fullAndEmptyHub "s" "a").2.1 "s" "b"
      (Or.inr (by decide)),
   (cancel_removes_exactly_own_stream fullAndEmptyHub "s" "a").2.2 "s" "b" { buf := [] }
      (numberedMessage 1) (Or.inr (by decide)) (by decide) (by decide)⟩

/-! ## Hub histories: lemmas -/

/-- A map that has just been written is not empty. -/
theorem GoMap.set_ne_nil {V : Type} (m : GoMap V) (k : String) (v : V) :
    GoMap.set m k v ≠ [] := by
  cases m with
  | nil => simp [GoMap.set]
  | cons e rest =>
    obtain ⟨k0, v0⟩ := e
    by_cases hk : k0 = k <;> simp [GoMap.set, hk]

/-- The streams of every session after `Subscribe`. -/
theorem SessionHub.stream_Subscribe (h : SessionHub) (s id s1 id1 : String) :
    (h.Subscribe s id).1.stream s1 id1 =
      if s1 = s ∧ id1 = id then some { buf := [] } else h.stream s1 id1 := by
  by_cases hs : s1 = s
  · subst hs
    rw [SessionHub.stream_Subscribe_self]
    by_cases hid : id1 = id <;> simp [hid]
  · have hno : ¬ (s1 = s ∧ id1 = id) := fun hc => hs hc.1
    rw [if_neg hno]
    unfold SessionHub.stream
    rw [SessionHub.sessions_Subscribe_ne h s id s1 hs]

/-- The streams of every session after `cancel`. -/
theorem SessionHub.stream_cancel (h : SessionHub) (s id s1 id1 : String) :
    (h.cancel s id).1.stream s1 id1 = if s1 = s ∧ id1 = id then none else h.stream s1 id1 := by
  by_cases hs : s1 = s
  · subst hs
    rw [SessionHub.stream_cancel_self]
    by_cases hid : id1 = id <;> simp [hid]
  · have hno : ¬ (s1 = s ∧ id1 = id) := fun hc => hs hc.1
    rw [if_neg hno]
    unfold SessionHub.stream
    rw [SessionHub.sessions_cancel_ne h s id s1 hs]

/-- The streams of every session after `Publish`. -/
theorem SessionHub.stream_Publish (h : SessionHub) (s s1 id1 : String) (msg : OutboundMessage) :
    (h.Publish s msg).stream s1 id1 =
      if s1 = s then (h.stream s1 id1).map (fun ch => trySend ch msg) else h.stream s1 id1 := by
  by_cases hs : s1 = s
  · subst hs
    rw [if_pos rfl, SessionHub.stream_Publish_self]
  · rw [if_neg hs, SessionHub.stream_Publish_ne h s s1 id1 msg hs]

/-- The streams of every session after a consumer's receive. -/
theorem SessionHub.stream_receive (h : SessionHub) (s id s1 id1 : String) :
    (h.receive s id).1.stream s1 id1 =
      if s1 = s ∧ id1 = id then (h.stream s1 id1).map (fun ch => { buf := ch.buf.tail })
      else h.stream s1 id1 := by
  unfold SessionHub.receive
  cases hg : GoMap.get h.sessions s with
  | none =>
    simp only
    by_cases hc : s1 = s ∧ id1 = id
    · obtain ⟨hs, hid⟩ := hc
      subst hs
      simp [SessionHub.stream, hg]
    · simp [hc]
  | some streams =>
    simp only
    cases hst : GoMap.get streams id with
    | none =>
      simp only
      by_cases hc : s1 = s ∧ id1 = id
      · obtain ⟨hs, hid⟩ := hc
        subst hs
        subst hid
        simp [SessionHub.stream, hg, hst]
      · simp [hc]
    | some ch =>
      simp only
      cases hb : ch.buf with
      | nil =>
        simp only
        by_cases hc : s1 = s ∧ id1 = id
        · obtain ⟨hs, hid⟩ := hc
          subst hs
          subst hid
          have hch : ch = { buf := [] } := by
            cases ch
            simp_all
          simp [SessionHub.stream, hg, hst, hch]
        · simp [hc]
      | cons m rest =>
        simp only
        by_cases hs : s1 = s
        · subst hs
          by_cases hid : id1 = id
          · subst hid
            simp [SessionHub.stream, hg, hst, hb, GoMap.get_set_self]
          · simp [SessionHub.stream, hg, hid, GoMap.get_set_self, GoMap.get_set_ne _ _ _ _ hid]
        · have hno : ¬ (s1 = s ∧ id1 = id) := fun hc => hs hc.1
          simp [SessionHub.stream, hno, GoMap.get_set_ne _ _ _ _ hs]

/-- A step keeps every session entry non-empty. -/
theorem SessionHub.step_no_empty_session (h : SessionHub) (op : HubOp)
    (hinv : ∀ s streams, GoMap.get h.sessions s = some streams → streams ≠ []) :
    ∀ s streams, GoMap.get (h.step op).sessions s = some streams → streams ≠ [] := by
  intro s1 streams1 hget
  cases op with
  | subscribe s id =>
    simp only [SessionHub.step, SessionHub.Subscribe] at hget
    by_cases hs : s1 = s
    · subst hs
      rw [GoMap.get_set_self] at hget
      cases hget
      exact GoMap.set_ne_nil _ _ _
    · rw [GoMap.get_set_ne _ _ _ _ hs] at hget
      exact hinv s1 streams1 hget
  | cancel s id =>
    simp only [SessionHub.step, SessionHub.cancel] at hget
    cases hg : GoMap.get h.sessions s with
    | none =>
      rw [hg] at hget
      exact hinv s1 streams1 hget
    | some streams =>
      rw [hg] at hget
      simp only at hget
      split_ifs at hget with h1 h2 h2
      all_goals by_cases hs : s1 = s
      all_goals first
        | (subst hs
           simp only [GoMap.get_delete_self] at hget
           exact Option.noConfusion hget)
        | (subst hs
           simp only [GoMap.get_set_self] at hget
           cases hget
           intro hnil
           simp [hnil] at h2)
        | (simp only [GoMap.get_delete_ne _ _ _ hs] at hget
           exact hinv s1 streams1 hget)
        | (simp only [GoMap.get_set_ne _ _ _ _ hs] at hget
           exact hinv s1 streams1 hget)
  | publish s msg =>
    simp only [SessionHub.step, SessionHub.Publish] at hget
    cases hg : GoMap.get h.sessions s with
    | none =>
      rw [hg] at hget
      exact hinv s1 streams1 hget
    | some streams =>
      rw [hg] at hget
      simp only at hget
      by_cases hs : s1 = s
      · subst hs
        rw [GoMap.get_set_self] at hget
        cases hget
        have := hinv s1 streams hg
        simpa using this
      · rw [GoMap.get_set_ne _ _ _ _ hs] at hget
        exact hinv s1 streams1 hget
  | receive s id =>
    simp only [SessionHub.step, SessionHub.receive] at hget
    cases hg : GoMap.get h.sessions s with
    | none =>
      rw [hg] at hget
      exact hinv s1 streams1 hget
    | some streams =>
      rw [hg] at hget
      simp only at hget
      cases hst : GoMap.get streams id with
      | none =>
        rw [hst] at hget
        exact hinv s1 streams1 hget
      | some ch =>
        rw [hst] at hget
        simp only at hget
        cases hb : ch.buf with
        | nil =>
          rw [hb] at hget
          exact hinv s1 streams1 hget
        | cons m rest =>
          rw [hb] at hget
          simp only at hget
          by_cases hs : s1 = s
          · subst hs
            rw [GoMap.get_set_self] at hget
            cases hget
            exact GoMap.set_ne_nil _ _ _
          · rw [GoMap.get_set_ne _ _ _ _ hs] at hget
            exact hinv s1 streams1 hget

/-- A history keeps every session entry non-empty. -/
theorem SessionHub.run_no_empty_session (ops : List HubOp) (h : SessionHub)
    (hinv : ∀ s streams, GoMap.get h.sessions s = some streams → streams ≠ []) :
    ∀ s streams, GoMap.get (h.run ops).sessions s = some streams → streams ≠ [] := by
  induction ops generalizing h with
  | nil => exact hinv
  | cons op rest ih => exact ih (h.step op) (SessionHub.step_no_empty_session h op hinv)

/-- A stream that is not subscribed stays so under every step other than a
`Subscribe` that draws its ID for its session. -/
theorem SessionHub.step_stream_none (h : SessionHub) (op : HubOp) (s id : String)
    (hop : op ≠ HubOp.subscribe s id) (hnone : h.stream s id = none) :
    (h.step op).stream s id = none := by
  cases op with
  | subscribe s1 id1 =>
    have hno : ¬ (s = s1 ∧ id = id1) := by
      rintro ⟨hs, hid⟩
      subst hs
      subst hid
      exact hop rfl
    simp only [SessionHub.step]
    rw [SessionHub.stream_Subscribe, if_neg hno, hnone]
  | cancel s1 id1 =>
    simp only [SessionHub.step]
    rw [SessionHub.stream_cancel, hnone]
    simp
  | publish s1 msg =>
    simp only [SessionHub.step]
    rw [SessionHub.stream_Publish, hnone]
    simp
  | receive s1 id1 =>
    simp only [SessionHub.step]
    rw [SessionHub.stream_receive, hnone]
    simp

/-- A stream that is not subscribed stays so along a history with no
`Subscribe` that draws its ID for its session. -/
theorem SessionHub.run_stream_none (ops : List HubOp) (h : SessionHub) (s id : String)
    (hops : ∀ op ∈ ops, op ≠ HubOp.subscribe s id) (hnone : h.stream s id = none) :
    (h.run ops).stream s id = none := by
  induction ops generalizing h with
  | nil => exact hnone
  | cons op rest ih =>
    exact ih (h.step op) (fun o ho => hops o (List.mem_cons_of_mem _ ho))
      (SessionHub.step_stream_none h op s id (hops op (List.mem_cons_self _ _)) hnone)

/-- Cancelling a stream that is not subscribed, in a hub with no empty session
entry, changes nothing and closes nothing. -/
theorem SessionHub.cancel_absent (h : SessionHub) (s id : String)
    (hinv : ∀ s1 streams, GoMap.get h.sessions s1 = some streams → streams ≠ [])
    (hnone : h.stream s id = none) : h.cancel s id = (h, none) := by
  unfold SessionHub.cancel
  cases hg : GoMap.get h.sessions s with
  | none => rfl
  | some streams =>
    have hst : GoMap.get streams id = none := by
      simpa [SessionHub.stream, hg] using hnone
    have hne : streams.length ≠ 0 := by
      intro hl
      exact hinv s streams hg (List.length_eq_zero.mp hl)
    simp only [hst, Option.isSome_none, Bool.false_eq_true, if_false, hne]
    rw [GoMap.set_get_same h.sessions s streams hg]

/-- The hub at start-up has no session entry. -/
theorem NewSessionHub_no_empty_session :
    ∀ s streams, GoMap.get NewSessionHub.sessions s = some streams → streams ≠ [] := by
  intro s streams hget
  simp [NewSessionHub, GoMap.get] at hget

/-! ## Hub histories: theorems -/

/-- C11: `cancel` is idempotent. In a hub reached from `NewSessionHub`, once a
stream's `cancel` has run, running it again is a no-op: immediately, and after
any history of other `Subscribe`, `cancel`, `Publish` and receive steps (no
later `Subscribe` drawing the same stream ID for the same session), the second
call returns the hub unchanged and closes no channel. -/
theorem cancel_idempotent (pre ops : List HubOp) (sessionID streamID : String)
    (hother : ∀ op ∈ ops, op ≠ HubOp.subscribe sessionID streamID) :
    (((NewSessionHub.run pre).cancel sessionID streamID).1.cancel sessionID streamID =
      (((NewSessionHub.run pre).cancel sessionID streamID).1, none)) ∧
    ((((NewSessionHub.run pre).cancel sessionID streamID).1.run ops).cancel sessionID streamID =
      ((((NewSessionHub.run pre).cancel sessionID streamID).1.run ops), none)) := by
  have hinv1 : ∀ s streams,
      GoMap.get ((NewSessionHub.run pre).cancel sessionID streamID).1.sessions s = some streams →
        streams ≠ [] :=
    SessionHub.step_no_empty_session (NewSessionHub.run pre)
      (HubOp.cancel sessionID streamID)
      (SessionHub.run_no_empty_session pre NewSessionHub NewSessionHub_no_empty_session)
  have hnone1 : ((NewSessionHub.run pre).cancel sessionID streamID).1.stream sessionID streamID =
      none := by
    rw [SessionHub.stream_cancel_self, if_pos rfl]
  constructor
  · exact SessionHub.cancel_absent _ sessionID streamID hinv1 hnone1
  · exact SessionHub.cancel_absent _ sessionID streamID
      (SessionHub.run_no_empty_session ops _ hinv1)
      (SessionHub.run_stream_none ops _ sessionID streamID hother hnone1)

/-- Witness for C11: streams `a` and `b` subscribe to `s`; `a` is cancelled,
then a message is published, `c` subscribes and `b` is cancelled; cancelling
`a` again changes nothing. -/
theorem cancel_idempotent_witness :
    ((((NewSessionHub.run [HubOp.subscribe "s" "a", HubOp.subscribe "s" "b"]).cancel "s" "a").1.run
        [HubOp.publish "s" (numberedMessage 1), HubOp.subscribe "s" "c",
          HubOp.cancel "s" "b"]).cancel "s" "a" =
      ((((NewSessionHub.run [HubOp.subscribe "s" "a", HubOp.subscribe "s" "b"]).cancel "s" "a").1.run
        [HubOp.publish "s" (numberedMessage 1), HubOp.subscribe "s" "c",
          HubOp.cancel "s" "b"]), none)) :=
  (cancel_idempotent [HubOp.subscribe "s" "a", HubOp.subscribe "s" "b"]
    [HubOp.publish "s" (numberedMessage 1), HubOp.subscribe "s" "c", HubOp.cancel "s" "b"]
    "s" "a" (by decide)).2

/-- C12: when `cancel` removes a subscribed stream and no other stream of the
session is subscribed, the session entry is deleted from the session map; when
another stream of the session is subscribed, the entry is kept. -/
theorem cancel_deletes_last_session_entry (h : SessionHub) (sessionID streamID : String)
    (ch : Chan) (hsub : h.stream sessionID streamID = some ch) :
    ((∀ id1, id1 ≠ streamID → h.stream sessionID id1 = none) →
      GoMap.get (h.cancel sessionID streamID).1.sessions sessionID = none) ∧
    (∀ id1, id1 ≠ streamID → h.stream sessionID id1 ≠ none →
      (GoMap.get (h.cancel sessionID streamID).1.sessions sessionID).isSome = true) := by
  unfold SessionHub.stream at hsub
  cases hg : GoMap.get h.sessions sessionID with
  | none => simp [hg] at hsub
  | some streams =>
    simp only [hg] at hsub
    constructor
    · intro hlast
      have hnil : GoMap.delete streams streamID = [] := by
        apply GoMap.eq_nil_of_get_none
        intro k
        by_cases hk : k = streamID
        · subst hk
          exact GoMap.get_delete_self _ _
        · rw [GoMap.get_delete_ne _ _ _ hk]
          have := hlast k hk
          simpa [SessionHub.stream, hg] using this
      unfold SessionHub.cancel
      simp only [hg, hsub, Option.isSome_some, if_true, hnil, List.length_nil]
      exact GoMap.get_delete_self _ _
    · intro id1 hid hother
      have hget : GoMap.get (GoMap.delete streams streamID) id1 ≠ none := by
        rw [GoMap.get_delete_ne _ _ _ hid]
        simpa [SessionHub.stream, hg] using hother
      have hlen : (GoMap.delete streams streamID).length ≠ 0 := by
        intro hl
        exact hget (GoMap.get_of_length_zero _ id1 hl)
      unfold SessionHub.cancel
      simp only [hg, hsub, Option.isSome_some, if_true, hlen, if_false]
      rw [GoMap.get_set_self]
      rfl

/-- Witness for C12: in a hub with streams `a` and `b` of session `s`,
cancelling `a` keeps the entry of `s`; cancelling `b` afterwards deletes it. -/
theorem cancel_deletes_last_session_entry_witness :
    (GoMap.get (fullAndEmptyHub.cancel "s" "a").1.sessions "s").isSome = true ∧
    GoMap.get ((fullAndEmptyHub.cancel "s" "a").1.cancel "s" "b").1.sessions "s" = none :=
  ⟨(cancel_deletes_last_session_entry fullAndEmptyHub "s" "a"
      { buf := (List.range 32).map numberedMessage } (by decide)).2 "b" (by decide) (by decide),
   (cancel_deletes_last_session_entry (fullAndEmptyHub.cancel "s" "a").1 "s" "b"
      { buf := [] } (by decide)).1 (by
        intro id1 hid
        rw [SessionHub.stream_cancel_self]
        by_cases ha : id1 = "a"
        · rw [if_pos ha]
        · rw [if_neg ha]
          have hstreams : GoMap.get fullAndEmptyHub.sessions "s" =
              some [("a", { buf := (List.range 32).map numberedMessage }), ("b", { buf := [] })] :=
            by decide
          unfold SessionHub.stream
          rw [hstreams]
          simp [GoMap.get, Ne.symm ha, Ne.symm hid])⟩

/-! ## Normalisation: lemmas -/

/-- The code point of `Char.ofNat` below the surrogate range. -/
theorem toNat_ofNat_small (m : Nat) (h : m < 0xd800) : (Char.ofNat m).toNat = m := by
  have hv : m.isValidChar := Or.inl h
  rw [Char.ofNat, dif_pos hv]
  rfl

/-- An upper-case ASCII letter moves up by 32. -/
theorem asciiLower_upper (c : Char) (h : 65 ≤ c.toNat ∧ c.toNat ≤ 90) :
    (asciiLower c).toNat = c.toNat + 32 := by
  have hcond : 'A'.toNat ≤ c.toNat ∧ c.toNat ≤ 'Z'.toNat := h
  unfold asciiLower
  rw [if_pos hcond]
  exact toNat_ofNat_small _ (by omega)

/-- Every other character is left alone. -/
theorem asciiLower_other (c : Char) (h : ¬ (65 ≤ c.toNat ∧ c.toNat ≤ 90)) :
    asciiLower c = c := by
  have hcond : ¬ ('A'.toNat ≤ c.toNat ∧ c.toNat ≤ 'Z'.toNat) := h
  unfold asciiLower
  rw [if_neg hcond]

/-- White space is decided by the code point. -/
theorem isSpace_eq_of_toNat (c d : Char) (h : c.toNat = d.toNat) : isSpace c = isSpace d := by
  unfold isSpace
  simp only [h]

/-- No ASCII letter is white space. -/
theorem isSpace_letter (c : Char) (h : 65 ≤ c.toNat ∧ c.toNat ≤ 122) : isSpace c = false := by
  unfold isSpace
  have h1 : c.toNat ≠ 0x09 := by omega
  have h2 : c.toNat ≠ 0x0A := by omega
  have h3 : c.toNat ≠ 0x0B := by omega
  have h4 : c.toNat ≠ 0x0C := by omega
  have h5 : c.toNat ≠ 0x0D := by omega
  have h6 : c.toNat ≠ 0x20 := by omega
  have h7 : c.toNat ≠ 0x85 := by omega
  have h8 : c.toNat ≠ 0xA0 := by omega
  have h9 : c.toNat ≠ 0x1680 := by omega
  have h10 : ¬ (0x2000 ≤ c.toNat) := by omega
  have h11 : c.toNat ≠ 0x2028 := by omega
  have h12 : c.toNat ≠ 0x2029 := by omega
  have h13 : c.toNat ≠ 0x202F := by omega
  have h14 : c.toNat ≠ 0x205F := by omega
  have h15 : c.toNat ≠ 0x3000 := by omega
  simp [h1, h2, h3, h4, h5, h6, h7, h8, h9, h10, h11, h12, h13, h14, h15]

/-- The ASCII mapping keeps white space and makes none. -/
theorem isSpace_asciiLower (c : Char) : isSpace (asciiLower c) = isSpace c := by
  by_cases h : 65 ≤ c.toNat ∧ c.toNat ≤ 90
  · rw [isSpace_letter c (by omega), isSpace_letter (asciiLower c)]
    rw [asciiLower_upper c h]
    omega
  · rw [asciiLower_other c h]

/-- The ASCII mapping applied twice is the ASCII mapping. -/
theorem asciiLower_idem (c : Char) : asciiLower (asciiLower c) = asciiLower c := by
  by_cases h : 65 ≤ c.toNat ∧ c.toNat ≤ 90
  · apply asciiLower_other
    rw [asciiLower_upper c h]
    omega
  · rw [asciiLower_other c h, asciiLower_other c h]

/-- The ASCII mapping, used on every rune, has the properties of the table. -/
theorem asciiLower_table : LowerTable asciiLower :=
  { ascii := fun _ _ => rfl, idem := asciiLower_idem, space := isSpace_asciiLower }

/-- With a table that agrees with the ASCII mapping on ASCII, `ToLower` maps
every rune through the table, whichever branch it takes. -/
theorem ToLower_eq_map (u : Char → Char) (hascii : ∀ c : Char, c.toNat < 0x80 → u c = asciiLower c)
    (s : String) : ToLower u s = ⟨s.data.map u⟩ := by
  unfold ToLower
  by_cases hall : s.data.all (fun c => decide (c.toNat < 0x80)) = true
  · rw [if_pos hall]
    congr 1
    apply List.map_congr_left
    intro c hc
    have := List.all_eq_true.mp hall c hc
    exact (hascii c (by simpa using this)).symm
  · rw [if_neg hall]

/-- Dropping a trailing run commutes with a map that respects the predicate. -/
theorem dropTrailing_map (u : Char → Char) (p : Char → Bool) (hp : ∀ c, p (u c) = p c)
    (l : List Char) : dropTrailing p (l.map u) = (dropTrailing p l).map u := by
  induction l with
  | nil => rfl
  | cons c cs ih =>
    simp only [List.map_cons, dropTrailing, ih]
    cases hr : dropTrailing p cs with
    | nil =>
      simp only [List.map_nil, hp]
      split <;> rfl
    | cons d ds => simp

/-- Dropping a trailing run twice is dropping it once. -/
theorem dropTrailing_idem (p : Char → Bool) (l : List Char) :
    dropTrailing p (dropTrailing p l) = dropTrailing p l := by
  induction l with
  | nil => rfl
  | cons c cs ih =>
    simp only [dropTrailing]
    cases hr : dropTrailing p cs with
    | nil =>
      simp only
      by_cases hc : p c = true
      · simp [hc, dropTrailing]
      · simp [hc, dropTrailing]
    | cons d ds =>
      simp only
      rw [hr] at ih
      rw [dropTrailing, ih]

/-- Dropping a trailing run keeps a first character that is not in the run. -/
theorem dropTrailing_head (p : Char → Bool) (c : Char) (cs : List Char) (hc : p c = false) :
    ∃ r, dropTrailing p (c :: cs) = c :: r := by
  simp only [dropTrailing]
  cases hr : dropTrailing p cs with
  | nil => exact ⟨[], by simp [hc]⟩
  | cons d ds => exact ⟨d :: ds, rfl⟩

/-- After trimming, there is no leading white space left to drop. -/
theorem dropWhile_dropTrailing_dropWhile (p : Char → Bool) (l : List Char) :
    (dropTrailing p (l.dropWhile p)).dropWhile p = dropTrailing p (l.dropWhile p) := by
  cases hd : l.dropWhile p with
  | nil => rfl
  | cons c cs =>
    have hc : p c = false := by
      have := List.head_dropWhile_not p l (by rw [hd]; simp)
      simpa [hd] using this
    obtain ⟨r, hr⟩ := dropTrailing_head p c cs hc
    rw [hr, List.dropWhile_cons_of_neg (by simp [hc])]

/-- `TrimSpace` applied twice is `TrimSpace`. -/
theorem TrimSpace_idem (s : String) : TrimSpace (TrimSpace s) = TrimSpace s := by
  unfold TrimSpace
  simp only
  rw [dropWhile_dropTrailing_dropWhile, dropTrailing_idem]

/-- A string of white space only is trimmed to the empty string. -/
theorem TrimSpace_all_space (s : String) (h : ∀ c ∈ s.data, isSpace c = true) :
    TrimSpace s = "" := by
  unfold TrimSpace
  rw [List.dropWhile_eq_nil_iff.mpr h]
  rfl

/-- `normalizeChannelType` is lower-casing followed by trimming. -/
theorem normalizeChannelType_eq (u : Char → Char) (raw : String) :
    normalizeChannelType u raw = TrimSpace (ToLower u raw) := by
  unfold normalizeChannelType
  by_cases h : TrimSpace (ToLower u raw) = ""
  · simp [h]
  · simp [h]

/-- With the properties of the table, trimming and lower-casing commute. -/
theorem TrimSpace_ToLower_comm (u : Char → Char) (ht : LowerTable u) (s : String) :
    TrimSpace (ToLower u s) = ToLower u (TrimSpace s) := by
  rw [ToLower_eq_map u ht.ascii, ToLower_eq_map u ht.ascii]
  unfold TrimSpace
  simp only
  rw [List.dropWhile_map, dropTrailing_map u isSpace ht.space]
  have hcomp : isSpace ∘ u = isSpace := funext ht.space
  rw [hcomp]

/-- With the properties of the table, lower-casing twice is lower-casing once. -/
theorem ToLower_idem (u : Char → Char) (ht : LowerTable u) (s : String) :
    ToLower u (ToLower u s) = ToLower u s := by
  rw [ToLower_eq_map u ht.ascii, ToLower_eq_map u ht.ascii]
  simp only [List.map_map]
  congr 1
  apply List.map_congr_left
  intro c _
  exact ht.idem c

/-- With the properties of the table, a normalised type is its own
normalisation. -/
theorem normalizeChannelType_idem (u : Char → Char) (ht : LowerTable u) (raw : String) :
    normalizeChannelType u (normalizeChannelType u raw) = normalizeChannelType u raw := by
  rw [normalizeChannelType_eq, normalizeChannelType_eq, TrimSpace_ToLower_comm u ht raw,
    ToLower_idem u ht, TrimSpace_ToLower_comm u ht (TrimSpace raw), TrimSpace_idem]

/-- With a table that maps white space to white space, a type of white space
only (the empty string included) is normalised to the empty type. -/
theorem normalizeChannelType_all_space (u : Char → Char)
    (hspace : ∀ c : Char, isSpace c = true → isSpace (u c) = true) (raw : String)
    (hall : ∀ c ∈ raw.data, isSpace c = true) : normalizeChannelType u raw = "" := by
  rw [normalizeChannelType_eq]
  apply TrimSpace_all_space
  intro c hc
  unfold ToLower at hc
  split at hc
  · simp only [List.mem_map] at hc
    obtain ⟨d, hd, hdc⟩ := hc
    rw [← hdc, isSpace_asciiLower]
    exact hall d hd
  · simp only [List.mem_map] at hc
    obtain ⟨d, hd, hdc⟩ := hc
    rw [← hdc]
    exact hspace d (hall d hd)

/-! ## Registry: lemmas -/

/-- `RegisterChannel` by cases on the normalised type and on the registry. -/
theorem RegisterChannel_cases {C P S : Type} (u : Char → Char) (reg : channelRegistry C P S)
    (D : ChannelDescriptor C P S) :
    RegisterChannel u reg D =
      if normalizeChannelType u D.Typ = "" then (reg, some "channel type is required")
      else
        match GoMap.get reg.items (normalizeChannelType u D.Typ) with
        | some _ =>
          (reg, some ("channel type already registered: " ++ normalizeChannelType u D.Typ))
        | none =>
          ({ items := GoMap.set reg.items (normalizeChannelType u D.Typ)
              { D with
                Typ := normalizeChannelType u D.Typ
                DisplayName :=
                  if TrimSpace D.DisplayName = "" then normalizeChannelType u D.Typ
                  else D.DisplayName } }, none) := by
  unfold RegisterChannel
  by_cases hn : normalizeChannelType u D.Typ = ""
  · simp only [hn, if_true]
  · simp only [hn, if_false]
    by_cases hb : TrimSpace D.DisplayName = ""
    · simp only [hb, if_true]
    · simp only [hb, if_false]

/-- `RegisterChannel` never binds the empty type. -/
theorem RegisterChannel_empty_key {C P S : Type} (u : Char → Char) (reg : channelRegistry C P S)
    (D : ChannelDescriptor C P S) (hinv : GoMap.get reg.items "" = none) :
    GoMap.get (RegisterChannel u reg D).1.items "" = none := by
  rw [RegisterChannel_cases]
  by_cases hn : normalizeChannelType u D.Typ = ""
  · rw [if_pos hn]
    exact hinv
  · rw [if_neg hn]
    cases hg : GoMap.get reg.items (normalizeChannelType u D.Typ) with
    | some E => exact hinv
    | none =>
      simp only
      rw [GoMap.get_set_ne _ _ _ _ (Ne.symm hn)]
      exact hinv

/-- `UnregisterChannel` never binds the empty type. -/
theorem UnregisterChannel_empty_key {C P S : Type} (u : Char → Char)
    (reg : channelRegistry C P S) (t : ChannelType) (hinv : GoMap.get reg.items "" = none) :
    GoMap.get (UnregisterChannel u reg t).1.items "" = none := by
  unfold UnregisterChannel
  by_cases hn : normalizeChannelType u t = ""
  · simp only [hn, if_true]
    exact hinv
  · simp only [hn, if_false]
    cases hg : GoMap.get reg.items (normalizeChannelType u t) with
    | none => exact hinv
    | some E =>
      simp only
      rw [GoMap.get_delete_ne _ _ _ (Ne.symm hn)]
      exact hinv

/-- A history never binds the empty type. -/
theorem channelRegistry.run_empty_key {C P S : Type} (u : Char → Char)
    (ops : List (RegistryOp C P S)) (reg : channelRegistry C P S)
    (hinv : GoMap.get reg.items "" = none) : GoMap.get (reg.run u ops).items "" = none := by
  induction ops generalizing reg with
  | nil => exact hinv
  | cons op rest ih =>
    apply ih
    cases op with
    | register D => exact RegisterChannel_empty_key u reg D hinv
    | unregister t => exact UnregisterChannel_empty_key u reg t hinv

/-- A registry reached from the empty one has no descriptor under the empty
type. -/
theorem emptyRegistry_run_empty_key {C P S : Type} (u : Char → Char)
    (ops : List (RegistryOp C P S)) :
    GoMap.get ((emptyRegistry : channelRegistry C P S).run u ops).items "" = none :=
  channelRegistry.run_empty_key u ops emptyRegistry rfl

/-! ## Registry: theorems -/

/-- C13: register, then look up. If the normalised type of `D` is non-empty and
not yet registered, `RegisterChannel` succeeds, and `GetChannelDescriptor`
with any spelling that normalises to the same type (the type of `D` itself
included) returns `D` with `Type` replaced by the normalised type and a blank
`DisplayName` replaced by it; for `D` of type `demo` with a display name the
descriptor looked up is `D`. -/
theorem register_lookup_roundtrip {C P S : Type} (unicodeToLower : Char → Char)
    (registry : channelRegistry C P S) (D : ChannelDescriptor C P S)
    (hne : normalizeChannelType unicodeToLower D.Typ ≠ "")
    (hnew : GoMap.get registry.items (normalizeChannelType unicodeToLower D.Typ) = none) :
    (RegisterChannel unicodeToLower registry D).2 = none ∧
    (∀ t : ChannelType,
      normalizeChannelType unicodeToLower t = normalizeChannelType unicodeToLower D.Typ →
      GetChannelDescriptor unicodeToLower (RegisterChannel unicodeToLower registry D).1 t =
        some { D with
          Typ := normalizeChannelType unicodeToLower D.Typ
          DisplayName :=
            if TrimSpace D.DisplayName = "" then normalizeChannelType unicodeToLower D.Typ
            else D.DisplayName }) ∧
    (D.Typ = "demo" → TrimSpace D.DisplayName ≠ "" →
      GetChannelDescriptor unicodeToLower (RegisterChannel unicodeToLower registry D).1 "demo" =
        some D) := by
  have hreg := RegisterChannel_cases unicodeToLower registry D
  rw [if_neg hne, hnew] at hreg
  simp only at hreg
  have hlookup : ∀ t : ChannelType,
      normalizeChannelType unicodeToLower t = normalizeChannelType unicodeToLower D.Typ →
      GetChannelDescriptor unicodeToLower (RegisterChannel unicodeToLower registry D).1 t =
        some { D with
          Typ := normalizeChannelType unicodeToLower D.Typ
          DisplayName :=
            if TrimSpace D.DisplayName = "" then normalizeChannelType unicodeToLower D.Typ
            else D.DisplayName } := by
    intro t ht
    unfold GetChannelDescriptor
    simp only [ht, hreg]
    exact GoMap.get_set_self _ _ _
  refine ⟨by rw [hreg], hlookup, ?_⟩
  intro hdemo hname
  have hnorm : normalizeChannelType unicodeToLower "demo" = "demo" := rfl
  rw [hlookup "demo" (by rw [hdemo])]
  rw [if_neg hname, hdemo, hnorm]
  cases D
  simp_all

/-- Witness for C13: `" Demo "` is registered with a blank name in the empty
registry and is found under `"DEMO"`. -/
theorem register_lookup_roundtrip_witness :
    (RegisterChannel id emptyRegistry (plainDescriptor " Demo " " ")).2 = none ∧
    GetChannelDescriptor id (RegisterChannel id emptyRegistry (plainDescriptor " Demo " " ")).1
        "DEMO" = some (plainDescriptor "demo" "demo") :=
  ⟨(register_lookup_roundtrip id emptyRegistry (plainDescriptor " Demo " " ") (by decide)
      rfl).1,
   (register_lookup_roundtrip id emptyRegistry (plainDescriptor " Demo " " ") (by decide)
      rfl).2.1 "DEMO" (by decide)⟩

/-- C14: a duplicate registration is rejected and changes nothing. In a
registry reached from the empty one, if a descriptor `E` is registered under
the normalised type of `D` (whatever the case and surrounding white space of
the type of `D`), `RegisterChannel` returns the "already registered" error and
the same registry, and `E` is still what a lookup returns. -/
theorem register_duplicate_rejected {C P S : Type} (unicodeToLower : Char → Char)
    (ops : List (RegistryOp C P S)) (D E : ChannelDescriptor C P S)
    (hdup : GoMap.get ((emptyRegistry : channelRegistry C P S).run unicodeToLower ops).items
      (normalizeChannelType unicodeToLower D.Typ) = some E) :
    RegisterChannel unicodeToLower (emptyRegistry.run unicodeToLower ops) D =
      (emptyRegistry.run unicodeToLower ops,
        some ("channel type already registered: " ++
          normalizeChannelType unicodeToLower D.Typ)) ∧
    GetChannelDescriptor unicodeToLower
      (RegisterChannel unicodeToLower (emptyRegistry.run unicodeToLower ops) D).1 D.Typ =
      some E := by
  have hne : normalizeChannelType unicodeToLower D.Typ ≠ "" := by
    intro hempty
    rw [hempty, emptyRegistry_run_empty_key] at hdup
    exact Option.noConfusion hdup
  have hreg := RegisterChannel_cases unicodeToLower (emptyRegistry.run unicodeToLower ops) D
  rw [if_neg hne, hdup] at hreg
  simp only at hreg
  refine ⟨hreg, ?_⟩
  rw [hreg]
  exact hdup

/-- Witness for C14: after `demo` is registered, registering `" DEMO "` is
rejected and the first descriptor stays. -/
theorem register_duplicate_rejected_witness :
    GetChannelDescriptor id
      (RegisterChannel id
        (emptyRegistry.run id [RegistryOp.register (plainDescriptor "demo" "Demo")])
        (plainDescriptor " DEMO " "Other")).1 " DEMO " = some (plainDescriptor "demo" "Demo") :=
  (register_duplicate_rejected id [RegistryOp.register (plainDescriptor "demo" "Demo")]
    (plainDescriptor " DEMO " "Other") (plainDescriptor "demo" "Demo") rfl).2

/-- C15: `RegisterChannel` rejects a descriptor whose type is empty or white
space only, with an error and the registry unchanged. Conversely an error
means that the normalised type is empty or already registered, and in every
error case the registry is unchanged. -/
theorem register_rejects_blank_type {C P S : Type} (unicodeToLower : Char → Char)
    (registry : channelRegistry C P S) (D : ChannelDescriptor C P S) :
    ((∀ c : Char, isSpace c = true → isSpace (unicodeToLower c) = true) →
      (∀ c ∈ D.Typ.data, isSpace c = true) →
      RegisterChannel unicodeToLower registry D = (registry, some "channel type is required")) ∧
    ((RegisterChannel unicodeToLower registry D).2 ≠ none →
      (normalizeChannelType unicodeToLower D.Typ = "" ∨
        (GoMap.get registry.items (normalizeChannelType unicodeToLower D.Typ)).isSome = true)) ∧
    ((RegisterChannel unicodeToLower registry D).2 ≠ none →
      (RegisterChannel unicodeToLower registry D).1 = registry) := by
  have hreg := RegisterChannel_cases unicodeToLower registry D
  refine ⟨?_, ?_, ?_⟩
  · intro hspace hall
    rw [hreg, if_pos (normalizeChannelType_all_space unicodeToLower hspace D.Typ hall)]
  · intro herr
    by_cases hn : normalizeChannelType unicodeToLower D.Typ = ""
    · exact Or.inl hn
    · right
      rw [if_neg hn] at hreg
      cases hg : GoMap.get registry.items (normalizeChannelType unicodeToLower D.Typ) with
      | some E => rfl
      | none =>
        rw [hg] at hreg
        simp only at hreg
        rw [hreg] at herr
        exact absurd rfl herr
  · intro herr
    by_cases hn : normalizeChannelType unicodeToLower D.Typ = ""
    · rw [hreg, if_pos hn]
    · rw [if_neg hn] at hreg
      cases hg : GoMap.get registry.items (normalizeChannelType unicodeToLower D.Typ) with
      | some E =>
        rw [hg] at hreg
        simp only at hreg
        rw [hreg]
      | none =>
        rw [hg] at hreg
        simp only at hreg
        rw [hreg] at herr
        exact absurd rfl herr

/-- Witness for C15: a descriptor of type `"  "` is rejected by the empty
registry. -/
theorem register_rejects_blank_type_witness :
    RegisterChannel id (emptyRegistry : channelRegistry Unit Unit Unit)
      (plainDescriptor "  " "Blank") = (emptyRegistry, some "channel type is required") :=
  (register_rejects_blank_type id emptyRegistry (plainDescriptor "  " "Blank")).1
    (fun _ h => h) (by decide)

/-- C16: in a registry reached from the empty one, `UnregisterChannel`
returns true exactly when a descriptor is registered under the normalised
type; afterwards a lookup of that type finds nothing, a lookup of a type with a
different normalisation gives what it gave before, and when false is
returned the registry is unchanged. -/
theorem unregister_spec {C P S : Type} (unicodeToLower : Char → Char)
    (ops : List (RegistryOp C P S)) (t : ChannelType) :
    ((UnregisterChannel unicodeToLower
        ((emptyRegistry : channelRegistry C P S).run unicodeToLower ops) t).2 = true ↔
      (GoMap.get ((emptyRegistry : channelRegistry C P S).run unicodeToLower ops).items
        (normalizeChannelType unicodeToLower t)).isSome = true) ∧
    GetChannelDescriptor unicodeToLower
      (UnregisterChannel unicodeToLower
        ((emptyRegistry : channelRegistry C P S).run unicodeToLower ops) t).1 t = none ∧
    (∀ t1 : ChannelType,
      normalizeChannelType unicodeToLower t1 ≠ normalizeChannelType unicodeToLower t →
      GetChannelDescriptor unicodeToLower
        (UnregisterChannel unicodeToLower
          ((emptyRegistry : channelRegistry C P S).run unicodeToLower ops) t).1 t1 =
        GetChannelDescriptor unicodeToLower
          ((emptyRegistry : channelRegistry C P S).run unicodeToLower ops) t1) ∧
    ((UnregisterChannel unicodeToLower
        ((emptyRegistry : channelRegistry C P S).run unicodeToLower ops) t).2 = false →
      (UnregisterChannel unicodeToLower
        ((emptyRegistry : channelRegistry C P S).run unicodeToLower ops) t).1 =
        (emptyRegistry : channelRegistry C P S).run unicodeToLower ops) := by
  have hinv := emptyRegistry_run_empty_key (C := C) (P := P) (S := S) unicodeToLower ops
  generalize (emptyRegistry : channelRegistry C P S).run unicodeToLower ops = reg at hinv ⊢
  unfold UnregisterChannel GetChannelDescriptor
  by_cases hn : normalizeChannelType unicodeToLower t = ""
  · simp only [hn, if_true, hinv]
    refine ⟨by simp, trivial, fun _ _ => trivial, fun _ => trivial⟩
  · simp only [hn, if_false]
    cases hg : GoMap.get reg.items (normalizeChannelType unicodeToLower t) with
    | none =>
      simp only [hg]
      refine ⟨by simp, trivial, fun _ _ => trivial, fun _ => trivial⟩
    | some E =>
      simp only [GoMap.get_delete_self]
      refine ⟨by simp, trivial, fun t1 ht1 => GoMap.get_delete_ne _ _ _ ht1, ?_⟩
      intro hfalse
      exact absurd hfalse (by simp)

/-- Witness for C16: with `demo` and `web` registered, unregistering
`" Demo "` returns true and leaves `web` in place. -/
theorem unregister_spec_witness :
    (UnregisterChannel id
      (emptyRegistry.run id [RegistryOp.register (plainDescriptor "demo" "Demo"),
        RegistryOp.register (plainDescriptor "web" "Web")]) " Demo ").2 = true ∧
    GetChannelDescriptor id
      (UnregisterChannel id
        (emptyRegistry.run id [RegistryOp.register (plainDescriptor "demo" "Demo"),
          RegistryOp.register (plainDescriptor "web" "Web")]) " Demo ").1 "web" =
      GetChannelDescriptor id
        (emptyRegistry.run id [RegistryOp.register (plainDescriptor "demo" "Demo"),
          RegistryOp.register (plainDescriptor "web" "Web")]) "web" :=
  ⟨(unregister_spec id [RegistryOp.register (plainDescriptor "demo" "Demo"),
      RegistryOp.register (plainDescriptor "web" "Web")] " Demo ").1.mpr rfl,
   (unregister_spec id [RegistryOp.register (plainDescriptor "demo" "Demo"),
      RegistryOp.register (plainDescriptor "web" "Web")] " Demo ").2.2.1 "web" (by decide)⟩

/-- C17: `normalizeChannelType` lower-cases and trims, in either order:
`"  Telegram "` becomes `"telegram"`, and the empty string and every string of
white space only become the empty type. `ParseChannelType` fails when the
normalised type is empty; otherwise it succeeds exactly when a descriptor is
registered under the normalised type, and on success it returns the normalised
type. The table `unicodeToLower` has the properties of `unicode.ToLower`. -/
theorem normalize_and_parse {C P S : Type} (unicodeToLower : Char → Char)
    (htable : LowerTable unicodeToLower) (registry : channelRegistry C P S) (raw : String) :
    normalizeChannelType unicodeToLower "  Telegram " = "telegram" ∧
    normalizeChannelType unicodeToLower "" = "" ∧
    ((∀ c ∈ raw.data, isSpace c = true) → normalizeChannelType unicodeToLower raw = "") ∧
    normalizeChannelType unicodeToLower raw = TrimSpace (ToLower unicodeToLower raw) ∧
    normalizeChannelType unicodeToLower raw = ToLower unicodeToLower (TrimSpace raw) ∧
    (normalizeChannelType unicodeToLower raw = "" →
      (ParseChannelType unicodeToLower registry raw).2 ≠ none) ∧
    (normalizeChannelType unicodeToLower raw ≠ "" →
      ((ParseChannelType unicodeToLower registry raw).2 = none ↔
        (GoMap.get registry.items (normalizeChannelType unicodeToLower raw)).isSome = true)) ∧
    ((ParseChannelType unicodeToLower registry raw).2 = none →
      (ParseChannelType unicodeToLower registry raw).1 =
        normalizeChannelType unicodeToLower raw) := by
  have hparse : ParseChannelType unicodeToLower registry raw =
      if normalizeChannelType unicodeToLower raw = "" then
        ("", some ("unsupported channel type: " ++ raw))
      else
        match GoMap.get registry.items (normalizeChannelType unicodeToLower raw) with
        | none => ("", some ("unsupported channel type: " ++ raw))
        | some _ => (normalizeChannelType unicodeToLower raw, none) := by
    unfold ParseChannelType GetChannelDescriptor
    simp only [normalizeChannelType_idem unicodeToLower htable raw]
  refine ⟨rfl, rfl, ?_, normalizeChannelType_eq _ _, ?_, ?_, ?_, ?_⟩
  · exact normalizeChannelType_all_space unicodeToLower
      (fun c hc => by rw [htable.space c]; exact hc) raw
  · rw [normalizeChannelType_eq, TrimSpace_ToLower_comm unicodeToLower htable]
  · intro hn
    rw [hparse, if_pos hn]
    simp
  · intro hn
    rw [hparse, if_neg hn]
    cases hg : GoMap.get registry.items (normalizeChannelType unicodeToLower raw) <;> simp
  · intro hok
    rw [hparse] at hok ⊢
    by_cases hn : normalizeChannelType unicodeToLower raw = ""
    · rw [if_pos hn] at hok
      simp at hok
    · rw [if_neg hn] at hok ⊢
      cases hg : GoMap.get registry.items (normalizeChannelType unicodeToLower raw) with
      | none =>
        rw [hg] at hok
        simp at hok
      | some E => rfl

/-- Witness for C17: with `demo` registered, `" Demo "` parses to the
normalised type. -/
theorem normalize_and_parse_witness :
    (ParseChannelType asciiLower
      (emptyRegistry.run asciiLower [RegistryOp.register (plainDescriptor "demo" "Demo")])
      " Demo ").1 = normalizeChannelType asciiLower " Demo " :=
  (normalize_and_parse asciiLower asciiLower_table
    (emptyRegistry.run asciiLower [RegistryOp.register (plainDescriptor "demo" "Demo")])
    " Demo ").2.2.2.2.2.2.2 rfl

/-! ## Base connection and message emptiness: theorems -/

/-- C18: a connection built by `NewConnection` with no stop function is
running; `Stop` returns `ErrStopNotSupported` and changes neither the
connection nor the outside state, so `Running()` is true before and after, for
any number of `Stop` calls. -/
theorem stop_not_supported {Ctx World : Type} (cfg : ChannelConfig) (ctx : Ctx) (w : World) :
    (NewConnection cfg none : BaseConnection Ctx World).Running = true ∧
    (NewConnection cfg none : BaseConnection Ctx World).Stop ctx w =
      (NewConnection cfg none, w, some ErrStopNotSupported) ∧
    ((NewConnection cfg none : BaseConnection Ctx World).Stop ctx w).1.Running = true ∧
    (∀ n : Nat,
      BaseConnection.stopTimes ctx n ((NewConnection cfg none : BaseConnection Ctx World), w) =
        (NewConnection cfg none, w) ∧
      (BaseConnection.stopTimes ctx n
        ((NewConnection cfg none : BaseConnection Ctx World), w)).1.Running = true) := by
  have hstop : (NewConnection cfg none : BaseConnection Ctx World).Stop ctx w =
      (NewConnection cfg none, w, some ErrStopNotSupported) := rfl
  have htimes : ∀ n : Nat,
      BaseConnection.stopTimes ctx n ((NewConnection cfg none : BaseConnection Ctx World), w) =
        (NewConnection cfg none, w) := by
    intro n
    induction n with
    | zero => rfl
    | succ k ih =>
      rw [BaseConnection.stopTimes]
      simp only [hstop]
      exact ih
  refine ⟨rfl, hstop, rfl, ?_⟩
  intro n
  refine ⟨htimes n, ?_⟩
  rw [htimes n]
  rfl

/-- C19: for a connection with stop function `f`, `Stop` stores the stopped
state first and then calls `f`, which therefore runs with `Running() = false`;
`Stop` returns exactly the error of `f` and the outside state `f` leaves. When
`f` returns an error, `Stop` returns that error and `Running()` is false
afterwards. -/
theorem stop_commits_then_tears_down {Ctx World : Type} (c : BaseConnection Ctx World)
    (f : Ctx → Bool → World → World × Option GoError) (ctx : Ctx) (w : World)
    (hstop : c.stop = some f) :
    c.Stop ctx w = ({ c with running := false }, (f ctx false w).1, (f ctx false w).2) ∧
    (c.Stop ctx w).1.Running = false ∧
    (∀ e : GoError, (f ctx false w).2 = some e →
      (c.Stop ctx w).2.2 = some e ∧ (c.Stop ctx w).1.Running = false) := by
  have hs : c.Stop ctx w = ({ c with running := false }, (f ctx false w).1, (f ctx false w).2) := by
    unfold BaseConnection.Stop
    rw [hstop]
    rfl
  refine ⟨hs, ?_, ?_⟩
  · rw [hs]
    rfl
  · intro e he
    rw [hs]
    exact ⟨he, rfl⟩

/-- Witness for C19: the stop function that fails exactly when it runs with
`Running() = false` makes `Stop` fail, and the connection is stopped. -/
theorem stop_commits_then_tears_down_witness :
    ((NewConnection {} (some countingStop) : BaseConnection Unit Nat).Stop () 0).2.2 =
      some "teardown failed" ∧
    ((NewConnection {} (some countingStop) : BaseConnection Unit Nat).Stop () 0).1.Running =
      false :=
  (stop_commits_then_tears_down (NewConnection {} (some countingStop)) countingStop () 0 rfl).2.2
    "teardown failed" rfl

/-- C20: `IsEmpty` is true exactly when the trimmed `Text` is empty and
`Parts`, `Attachments` and `Actions` are empty. `Message{}` and
`Message{Text: " "}` are empty, a message with one attachment is not, and
`ID`, `Format`, `Thread`, `Reply` and `Metadata` do not affect the result. -/
theorem IsEmpty_iff (m : Message) :
    (m.IsEmpty = true ↔
      TrimSpace m.Text = "" ∧ m.Parts = [] ∧ m.Attachments = [] ∧ m.Actions = []) ∧
    Message.IsEmpty {} = true ∧
    Message.IsEmpty { Text := " " } = true ∧
    (∀ a : Attachment, Message.IsEmpty { Attachments := [a] } = false) ∧
    (∀ (id fmt : String) (thread : Option ThreadRef) (reply : Option ReplyRef)
        (metadata : List (String × AnyValue)),
      Message.IsEmpty
        { m with ID := id, Format := fmt, Thread := thread, Reply := reply,
                 Metadata := metadata } = m.IsEmpty) := by
  refine ⟨?_, rfl, rfl, fun _ => rfl, fun _ _ _ _ _ => rfl⟩
  unfold Message.IsEmpty
  simp only [Bool.and_eq_true, beq_iff_eq, List.length_eq_zero, and_assoc]

/-! ## Plain text: lemmas and theorems -/

/-- The loop body of `PlainText` appends the value of a contributing part and
skips every other part. -/
theorem plainTextStep_eq (lines : List String) (part : MessagePart) :
    plainTextStep lines part =
      if specPartKept part = true then lines ++ [specPartValue part] else lines := by
  unfold plainTextStep specPartKept specPartValue MessagePartText MessagePartLink
    MessagePartCodeBlock MessagePartMention MessagePartEmoji
  by_cases ht : TrimSpace part.Text = ""
  · by_cases hlink : part.Typ = "link"
    · by_cases hu : TrimSpace part.URL = "" <;> simp [ht, hlink, hu]
    · by_cases hemoji : part.Typ = "emoji"
      · by_cases he : TrimSpace part.Emoji = "" <;> simp [ht, hemoji, he]
      · simp [ht, hlink, hemoji]
  · by_cases h5 : part.Typ = "text" ∨ part.Typ = "link" ∨ part.Typ = "code_block" ∨
        part.Typ = "mention" ∨ part.Typ = "emoji"
    · simp [ht, h5]
    · have h5' := h5
      simp only [not_or] at h5'
      simp [ht, h5']

/-- The loop of `PlainText` collects the values of the contributing parts. -/
theorem foldl_plainTextStep (parts : List MessagePart) (lines : List String) :
    parts.foldl plainTextStep lines = lines ++ (parts.filter specPartKept).map specPartValue := by
  induction parts generalizing lines with
  | nil => simp
  | cons part rest ih =>
    rw [List.foldl_cons, ih, plainTextStep_eq]
    by_cases hk : specPartKept part = true
    · simp [hk, List.filter_cons]
    · simp [hk, List.filter_cons]

/-- C21, as the code has it: for every message whose `Text` is non-empty after
trimming, `PlainText` is the trimmed `Text`, whatever the parts are. -/
theorem PlainText_trimmed_text (m : Message) (htext : TrimSpace m.Text ≠ "") :
    m.PlainText = TrimSpace m.Text := by
  unfold Message.PlainText
  rw [if_pos htext]

/-- Witness for C21: the text `" hello "` wins over a text part. -/
theorem PlainText_trimmed_text_witness :
    Message.PlainText { Text := " hello ", Parts := [{ Typ := "text", Text := "part" }] } =
      "hello" :=
  PlainText_trimmed_text { Text := " hello ", Parts := [{ Typ := "text", Text := "part" }] }
    (by decide)

/-- C21 as stated fails: the message with `Text = " "` and one text part `hi`
has a non-empty `Text`, and its `PlainText` is `hi`, not the trimmed `Text`. -/
theorem PlainText_nonempty_text_counterexample :
    (({ Text := " ", Parts := [{ Typ := "text", Text := "hi" }] } : Message).Text ≠ "") ∧
    Message.PlainText { Text := " ", Parts := [{ Typ := "text", Text := "hi" }] } = "hi" ∧
    Message.PlainText { Text := " ", Parts := [{ Typ := "text", Text := "hi" }] } ≠
      TrimSpace ({ Text := " ", Parts := [{ Typ := "text", Text := "hi" }] } : Message).Text := by
  decide

/-- C22: for every message whose `Text` is empty (or blank), `PlainText` is the
newline-separated list, in part order, of the values of the parts of type
text, link, code_block, mention or emoji whose value is not empty, the value
being the trimmed `Text`, or when that is empty the trimmed `URL` of a link
and the trimmed `Emoji` of an emoji; a message with no parts gives `""`. -/
theorem PlainText_of_parts (m : Message) (htext : TrimSpace m.Text = "") :
    m.PlainText = specPlainText m.Parts ∧ (m.Parts = [] → m.PlainText = "") := by
  have hmain : m.PlainText = specPlainText m.Parts := by
    unfold Message.PlainText specPlainText
    have hno : ¬ (TrimSpace m.Text ≠ "") := fun h => h htext
    rw [if_neg hno]
    by_cases hlen : m.Parts.length = 0
    · rw [if_pos hlen, List.length_eq_zero.mp hlen]
      rfl
    · rw [if_neg hlen, foldl_plainTextStep]
      simp
  refine ⟨hmain, ?_⟩
  intro hnil
  rw [hmain, hnil]
  rfl

/-- Witness for C22: seven parts, of which four contribute a line. -/
theorem PlainText_of_parts_witness :
    Message.PlainText
      { Text := "",
        Parts := [{ Typ := "text", Text := " a " }, { Typ := "link", URL := " http://x " },
          { Typ := "emoji", Emoji := ":)" }, { Typ := "image", Text := "zzz" },
          { Typ := "mention", Text := "  " }, { Typ := "code_block", Text := "c" },
          { Typ := "link", Emoji := "e" }] } = "a\nhttp://x\n:)\nc" :=
  (PlainText_of_parts
    { Text := "",
      Parts := [{ Typ := "text", Text := " a " }, { Typ := "link", URL := " http://x " },
        { Typ := "emoji", Emoji := ":)" }, { Typ := "image", Text := "zzz" },
        { Typ := "mention", Text := "  " }, { Typ := "code_block", Text := "c" },
        { Typ := "link", Emoji := "e" }] } (by decide)).1

/-! ## Resolution pipeline: theorems -/

/-- C23: `NormalizeTarget` returns the trimmed input and false when no
descriptor is registered for the type or the descriptor has no target
normalizer, and the trimmed hook result and true when that result is not
blank. With a `demo` descriptor whose hook lower-cases and trims,
`NormalizeTarget("demo", " USER42 ")` is `("user42", true)`, and for the
unregistered type `ghost` it is `("USER42", false)`. -/
theorem NormalizeTarget_spec {C P S : Type} (unicodeToLower : Char → Char)
    (registry : channelRegistry C P S) (channelType : ChannelType) (raw : String) :
    (GetChannelDescriptor unicodeToLower registry channelType = none →
      NormalizeTarget unicodeToLower registry channelType raw = (TrimSpace raw, false)) ∧
    (∀ D : ChannelDescriptor C P S,
      GetChannelDescriptor unicodeToLower registry channelType = some D →
      D.NormalizeTarget = none →
      NormalizeTarget unicodeToLower registry channelType raw = (TrimSpace raw, false)) ∧
    (∀ (D : ChannelDescriptor C P S) (hook : String → String),
      GetChannelDescriptor unicodeToLower registry channelType = some D →
      D.NormalizeTarget = some hook → TrimSpace (hook raw) ≠ "" →
      NormalizeTarget unicodeToLower registry channelType raw = (TrimSpace (hook raw), true)) ∧
    NormalizeTarget unicodeToLower
      (emptyRegistry.run unicodeToLower [RegistryOp.register (demoDescriptor unicodeToLower)])
      "demo" " USER42 " = ("user42", true) ∧
    NormalizeTarget unicodeToLower
      (emptyRegistry.run unicodeToLower [RegistryOp.register (demoDescriptor unicodeToLower)])
      "ghost" " USER42 " = ("USER42", false) := by
  refine ⟨?_, ?_, ?_, rfl, rfl⟩
  · intro hnone
    unfold NormalizeTarget
    rw [hnone]
  · intro D hD hhook
    unfold NormalizeTarget
    rw [hD]
    simp only [hhook]
  · intro D hook hD hhook hne
    unfold NormalizeTarget
    rw [hD]
    simp only [hhook, if_neg hne]

/-- Witness for C23: the `demo` hook turns `" Room A "` into `"room a"`. -/
theorem NormalizeTarget_spec_witness :
    NormalizeTarget id (emptyRegistry.run id [RegistryOp.register (demoDescriptor id)])
      " Demo " " Room A " = ("room a", true) :=
  (NormalizeTarget_spec id (emptyRegistry.run id [RegistryOp.register (demoDescriptor id)])
    " Demo " " Room A ").2.2.1 (demoDescriptor id) (fun s => TrimSpace (ToLower id s)) rfl rfl
    (by decide)

/-- C24, the code at the failing input: the hook of `mute` yields the empty
string, and `NormalizeTarget("mute", " USER42 ")` is `("", false)`, while the
trimmed input is `"USER42"`. -/
theorem NormalizeTarget_empty_hook_result :
    NormalizeTarget id (emptyRegistry.run id [RegistryOp.register muteDescriptor])
      "mute" " USER42 " = ("", false) ∧
    TrimSpace " USER42 " = "USER42" ∧
    NormalizeTarget id (emptyRegistry.run id [RegistryOp.register muteDescriptor])
      "mute" " USER42 " ≠ (TrimSpace " USER42 ", false) := by
  decide

/-- C25: for a registered channel type, `NormalizeChannelConfig` returns the
input map and no error when the descriptor has no `NormalizeConfig` hook, and
the hook's result on the input otherwise; `NormalizeChannelUserConfig` does
the same with the `NormalizeUserConfig` hook. A nil input is replaced by the
empty map first, so a hook never receives nil and without a hook the result is
the empty map; a non-nil input is passed as it is. -/
theorem NormalizeChannelConfig_spec {C P S : Type} (unicodeToLower : Char → Char)
    (registry : channelRegistry C P S) (channelType : ChannelType) (raw : AnyMap)
    (D : ChannelDescriptor C P S)
    (hD : GetChannelDescriptor unicodeToLower registry channelType = some D) :
    (D.NormalizeConfig = none →
      NormalizeChannelConfig unicodeToLower registry channelType raw = (emptyIfNil raw, none)) ∧
    (∀ hook, D.NormalizeConfig = some hook →
      NormalizeChannelConfig unicodeToLower registry channelType raw = hook (emptyIfNil raw)) ∧
    (D.NormalizeUserConfig = none →
      NormalizeChannelUserConfig unicodeToLower registry channelType raw =
        (emptyIfNil raw, none)) ∧
    (∀ hook, D.NormalizeUserConfig = some hook →
      NormalizeChannelUserConfig unicodeToLower registry channelType raw =
        hook (emptyIfNil raw)) ∧
    emptyIfNil none = some [] ∧
    (∀ m : GoMap AnyValue, emptyIfNil (some m) = some m) := by
  refine ⟨?_, ?_, ?_, ?_, rfl, fun _ => rfl⟩
  · intro hhook
    unfold NormalizeChannelConfig
    simp only [hD, hhook]
  · intro hook hhook
    unfold NormalizeChannelConfig
    simp only [hD, hhook]
  · intro hhook
    unfold NormalizeChannelUserConfig
    simp only [hD, hhook]
  · intro hook hhook
    unfold NormalizeChannelUserConfig
    simp only [hD, hhook]

/-- Witness for C25: `demo` has no config hooks, so a nil config comes back
as the empty map and a non-nil one unchanged. -/
theorem NormalizeChannelConfig_spec_witness :
    NormalizeChannelConfig id (emptyRegistry.run id [RegistryOp.register (demoDescriptor id)])
      "demo" none = (some [], none) ∧
    NormalizeChannelUserConfig id
      (emptyRegistry.run id [RegistryOp.register (demoDescriptor id)])
      "demo" (some [("token", AnyValue.str "t")]) = (some [("token", AnyValue.str "t")], none) :=
  ⟨(NormalizeChannelConfig_spec id
      (emptyRegistry.run id [RegistryOp.register (demoDescriptor id)]) "demo" none
      (demoDescriptor id) rfl).1 rfl,
   (NormalizeChannelConfig_spec id
      (emptyRegistry.run id [RegistryOp.register (demoDescriptor id)]) "demo"
      (some [("token", AnyValue.str "t")]) (demoDescriptor id) rfl).2.2.1 rfl⟩

/-- C26: for a channel type with no registered descriptor and every input map,
nil included, `NormalizeChannelConfig` and `NormalizeChannelUserConfig` return
the nil map and the error "unsupported channel type". -/
theorem NormalizeChannelConfig_unregistered {C P S : Type} (unicodeToLower : Char → Char)
    (registry : channelRegistry C P S) (channelType : ChannelType) (raw : AnyMap)
    (hnone : GetChannelDescriptor unicodeToLower registry channelType = none) :
    NormalizeChannelConfig unicodeToLower registry channelType raw =
      (none, some ("unsupported channel type: " ++ channelType)) ∧
    NormalizeChannelUserConfig unicodeToLower registry channelType raw =
      (none, some ("unsupported channel type: " ++ channelType)) := by
  constructor
  · unfold NormalizeChannelConfig
    simp only [hnone]
  · unfold NormalizeChannelUserConfig
    simp only [hnone]

/-- Witness for C26: `ghost` is not registered. -/
theorem NormalizeChannelConfig_unregistered_witness :
    NormalizeChannelConfig id (emptyRegistry.run id [RegistryOp.register (demoDescriptor id)])
      "ghost" none = (none, some "unsupported channel type: ghost") ∧
    NormalizeChannelUserConfig id
      (emptyRegistry.run id [RegistryOp.register (demoDescriptor id)])
      "ghost" none = (none, some "unsupported channel type: ghost") :=
  NormalizeChannelConfig_unregistered id
    (emptyRegistry.run id [RegistryOp.register (demoDescriptor id)]) "ghost" none rfl

/-- C27: `ResolveTargetFromUserConfig` returns the empty target and an error
when the channel type is not registered or its descriptor has no
`ResolveTarget` hook, and exactly the hook's target and error for the config
otherwise. -/
theorem ResolveTargetFromUserConfig_spec {C P S : Type} (unicodeToLower : Char → Char)
    (registry : channelRegistry C P S) (channelType : ChannelType) (config : AnyMap) :
    (GetChannelDescriptor unicodeToLower registry channelType = none →
      ResolveTargetFromUserConfig unicodeToLower registry channelType config =
        ("", some ("unsupported channel type: " ++ channelType))) ∧
    (∀ D : ChannelDescriptor C P S,
      GetChannelDescriptor unicodeToLower registry channelType = some D →
      D.ResolveTarget = none →
      ResolveTargetFromUserConfig unicodeToLower registry channelType config =
        ("", some ("unsupported channel type: " ++ channelType))) ∧
    (∀ (D : ChannelDescriptor C P S) (hook : AnyMap → String × Option GoError),
      GetChannelDescriptor unicodeToLower registry channelType = some D →
      D.ResolveTarget = some hook →
      ResolveTargetFromUserConfig unicodeToLower registry channelType config = hook config) := by
  refine ⟨?_, ?_, ?_⟩
  · intro hnone
    unfold ResolveTargetFromUserConfig
    simp only [hnone]
  · intro D hD hhook
    unfold ResolveTargetFromUserConfig
    simp only [hD, hhook]
  · intro D hook hD hhook
    unfold ResolveTargetFromUserConfig
    simp only [hD, hhook]

/-- Witness for C27: `demo` has no resolver and fails; `mute` resolves every
config to `room-1`. -/
theorem ResolveTargetFromUserConfig_spec_witness :
    ResolveTargetFromUserConfig id
      (emptyRegistry.run id
        [RegistryOp.register (demoDescriptor id), RegistryOp.register muteDescriptor])
      "demo" none = ("", some "unsupported channel type: demo") ∧
    ResolveTargetFromUserConfig id
      (emptyRegistry.run id
        [RegistryOp.register (demoDescriptor id), RegistryOp.register muteDescriptor])
      "mute" none = ("room-1", none) :=
  ⟨(ResolveTargetFromUserConfig_spec id
      (emptyRegistry.run id
        [RegistryOp.register (demoDescriptor id), RegistryOp.register muteDescriptor])
      "demo" none).2.1 (demoDescriptor id) rfl rfl,
   (ResolveTargetFromUserConfig_spec id
      (emptyRegistry.run id
        [RegistryOp.register (demoDescriptor id), RegistryOp.register muteDescriptor])
      "mute" none).2.2 muteDescriptor (fun _ => ("room-1", none)) rfl rfl⟩

/-- C28: `DecodeConfigMap` returns the empty, non-nil map and no error for a
nil or zero-length input; for a non-empty input on which `json.Unmarshal`
reports an error (as it does for bytes that are not valid JSON, such as
`{not json`) it returns that error and the nil map; and whenever it returns no
error the map is non-nil. -/
theorem DecodeConfigMap_spec (jsonUnmarshal : List UInt8 → AnyMap × Option GoError)
    (raw : Option (List UInt8)) :
    DecodeConfigMap jsonUnmarshal none = (some [], none) ∧
    DecodeConfigMap jsonUnmarshal (some []) = (some [], none) ∧
    (∀ (bytes : List UInt8) (err : GoError), raw = some bytes → bytes ≠ [] →
      (jsonUnmarshal bytes).2 = some err →
      DecodeConfigMap jsonUnmarshal raw = (none, some err)) ∧
    (∀ err : GoError,
      (jsonUnmarshal [123, 110, 111, 116, 32, 106, 115, 111, 110]).2 = some err →
      DecodeConfigMap jsonUnmarshal (some [123, 110, 111, 116, 32, 106, 115, 111, 110]) =
        (none, some err)) ∧
    ((DecodeConfigMap jsonUnmarshal raw).2 = none →
      (DecodeConfigMap jsonUnmarshal raw).1 ≠ none) := by
  have hfail : ∀ (bytes : List UInt8) (err : GoError), bytes ≠ [] →
      (jsonUnmarshal bytes).2 = some err →
      DecodeConfigMap jsonUnmarshal (some bytes) = (none, some err) := by
    intro bytes err hne herr
    have hlen : bytes.length ≠ 0 := fun h => hne (List.length_eq_zero.mp h)
    unfold DecodeConfigMap
    simp only [hlen, if_false, herr]
  refine ⟨rfl, rfl, ?_, ?_, ?_⟩
  · intro bytes err hraw hne herr
    rw [hraw]
    exact hfail bytes err hne herr
  · intro err herr
    exact hfail _ err (by decide) herr
  · intro hok
    unfold DecodeConfigMap at hok ⊢
    cases raw with
    | none => simp
    | some bytes =>
      by_cases hlen : bytes.length = 0
      · simp [hlen]
      · simp only [hlen, if_false] at hok ⊢
        cases herr : (jsonUnmarshal bytes).2 with
        | some err =>
          rw [herr] at hok
          simp at hok
        | none =>
          simp only
          cases (jsonUnmarshal bytes).1 <;> simp

/-- Witness for C28: the bytes `{not json` are rejected, and `null` decodes to
the empty map. -/
theorem DecodeConfigMap_spec_witness :
    DecodeConfigMap toyUnmarshal (some [123, 110, 111, 116, 32, 106, 115, 111, 110]) =
      (none, some "invalid character") ∧
    (DecodeConfigMap toyUnmarshal (some [110, 117, 108, 108])).1 ≠ none :=
  ⟨(DecodeConfigMap_spec toyUnmarshal none).2.2.2.1 "invalid character" (by decide),
   (DecodeConfigMap_spec toyUnmarshal (some [110, 117, 108, 108])).2.2.2.2 (by decide)⟩

/-- On a key that is present, `ReadString` is the string form of its value. -/
theorem ReadString_present (formatFloat : Float64 → String) (raw : AnyMap) (key : String)
    (rest : List String) (v : AnyValue) (hv : AnyMap.get raw key = some v) :
    ReadString formatFloat raw (key :: rest) = valueString formatFloat v := by
  rw [ReadString, hv]

/-- On a key that is absent, `ReadString` goes on with the other keys. -/
theorem ReadString_absent (formatFloat : Float64 → String) (raw : AnyMap) (key : String)
    (rest : List String) (hv : AnyMap.get raw key = none) :
    ReadString formatFloat raw (key :: rest) = ReadString formatFloat raw rest := by
  rw [ReadString, hv]

/-- Keys that are absent in front of the list do not matter. -/
theorem ReadString_skip (formatFloat : Float64 → String) (raw : AnyMap) (pre rest : List String)
    (hpre : ∀ k ∈ pre, AnyMap.get raw k = none) :
    ReadString formatFloat raw (pre ++ rest) = ReadString formatFloat raw rest := by
  induction pre with
  | nil => rfl
  | cons k ks ih =>
    rw [List.cons_append, ReadString_absent formatFloat raw k _ (hpre k (List.mem_cons_self _ _))]
    exact ih (fun k1 hk1 => hpre k1 (List.mem_cons_of_mem _ hk1))

/-- C29: `ReadString` is first-match-wins. When the keys in front of `key`
are absent and `key` is present with value `v`, the result is the string form
of `v`, whatever keys follow; when no key is present the result is `""`, in
particular for the nil map, the empty map and the empty key list. So
`ReadString({"b":"x"}, "a", "b")` is `"x"` and `ReadString({}, "a", "b")` is
`""`. -/
theorem ReadString_first_match (formatFloat : Float64 → String) (raw : AnyMap) :
    (∀ (pre post : List String) (key : String) (v : AnyValue),
      (∀ k ∈ pre, AnyMap.get raw k = none) → AnyMap.get raw key = some v →
      ReadString formatFloat raw (pre ++ key :: post) = valueString formatFloat v) ∧
    (∀ keys : List String, (∀ k ∈ keys, AnyMap.get raw k = none) →
      ReadString formatFloat raw keys = "") ∧
    (∀ keys : List String, ReadString formatFloat none keys = "") ∧
    (∀ keys : List String, ReadString formatFloat (some []) keys = "") ∧
    ReadString formatFloat raw [] = "" ∧
    ReadString formatFloat (some [("b", AnyValue.str "x")]) ["a", "b"] = "x" ∧
    ReadString formatFloat (some []) ["a", "b"] = "" := by
  have hnone : ∀ (r : AnyMap) (keys : List String), (∀ k ∈ keys, AnyMap.get r k = none) →
      ReadString formatFloat r keys = "" := by
    intro r keys hkeys
    have := ReadString_skip formatFloat r keys [] hkeys
    rw [List.append_nil] at this
    rw [this]
    rfl
  refine ⟨?_, hnone raw, ?_, ?_, rfl, rfl, rfl⟩
  · intro pre post key v hpre hv
    rw [ReadString_skip formatFloat raw pre _ hpre, ReadString_present formatFloat raw key post v hv]
  · intro keys
    exact hnone none keys (fun _ _ => rfl)
  · intro keys
    exact hnone (some []) keys (fun _ _ => rfl)

/-- Witness for C29: `a` is absent, `b` is present, and the later key `c`,
also present, is not consulted. -/
theorem ReadString_first_match_witness :
    ReadString toyFormatFloat (some [("c", AnyValue.str "late"), ("b", AnyValue.str "x")])
      (["a"] ++ "b" :: ["c"]) = "x" :=
  (ReadString_first_match toyFormatFloat
    (some [("c", AnyValue.str "late"), ("b", AnyValue.str "x")])).1 ["a"] ["c"] "b"
    (AnyValue.str "x") (by decide) (by decide)

/-! ## `ReadString` conversions: lemmas and theorems -/

/-- The function `highBit` finds the highest set bit. -/
theorem highBit_spec (fuel : Nat) : ∀ a : Nat, 0 < a → a < 2 ^ fuel →
    2 ^ highBit fuel a ≤ a ∧ a < 2 ^ (highBit fuel a + 1) := by
  induction fuel with
  | zero =>
    intro a ha hlt
    simp at hlt
    omega
  | succ fuel ih =>
    intro a ha hlt
    unfold highBit
    by_cases h2 : 2 ≤ a
    · rw [if_pos h2]
      have hhalf : 0 < a / 2 := by omega
      have hlt2 : a / 2 < 2 ^ fuel := by
        rw [pow_succ] at hlt
        omega
      obtain ⟨h1, h3⟩ := ih (a / 2) hhalf hlt2
      rw [pow_succ, pow_succ]
      rw [pow_succ] at h3
      constructor <;> omega
    · rw [if_neg h2]
      have : a = 1 := by omega
      subst this
      decide

/-- The fields of the `float64` holding a nonzero integer of absolute value
below `2^53`: the value is exact. -/
theorem Float64.ofInt_fields (n : Int) (hn : n ≠ 0) (hlt : n.natAbs < 2 ^ 53) :
    ∃ e : Nat, e ≤ 52 ∧
      2 ^ 52 ≤ n.natAbs * 2 ^ (52 - e) ∧ n.natAbs * 2 ^ (52 - e) < 2 ^ 53 ∧
      (Float64.ofInt n).expBits = 1023 + e ∧
      (Float64.ofInt n).fracBits = n.natAbs * 2 ^ (52 - e) - 2 ^ 52 ∧
      (Float64.ofInt n).signBit = if n < 0 then 1 else 0 := by
  have ha : 0 < n.natAbs := Int.natAbs_pos.mpr hn
  obtain ⟨h1, h2⟩ := highBit_spec n.natAbs n.natAbs ha (Nat.lt_two_pow n.natAbs)
  have he : highBit n.natAbs n.natAbs ≤ 52 := by
    by_contra hcon
    have h53 : 53 ≤ highBit n.natAbs n.natAbs := by omega
    have := Nat.pow_le_pow_right (by decide : 0 < 2) h53
    omega
  have hX1 : 2 ^ 52 ≤ n.natAbs * 2 ^ (52 - highBit n.natAbs n.natAbs) :=
    calc 2 ^ 52 = 2 ^ (highBit n.natAbs n.natAbs + (52 - highBit n.natAbs n.natAbs)) := by
          congr 1; omega
      _ = 2 ^ highBit n.natAbs n.natAbs * 2 ^ (52 - highBit n.natAbs n.natAbs) := pow_add _ _ _
      _ ≤ n.natAbs * 2 ^ (52 - highBit n.natAbs n.natAbs) := Nat.mul_le_mul_right _ h1
  have hX2 : n.natAbs * 2 ^ (52 - highBit n.natAbs n.natAbs) < 2 ^ 53 :=
    calc n.natAbs * 2 ^ (52 - highBit n.natAbs n.natAbs)
        < 2 ^ (highBit n.natAbs n.natAbs + 1) * 2 ^ (52 - highBit n.natAbs n.natAbs) :=
          Nat.mul_lt_mul_of_pos_right h2 (pow_pos (by decide) _)
      _ = 2 ^ (highBit n.natAbs n.natAbs + 1 + (52 - highBit n.natAbs n.natAbs)) :=
          (pow_add _ _ _).symm
      _ = 2 ^ 53 := by congr 1; omega
  have hbits : (Float64.ofInt n).bits =
      (if n < 0 then 2 ^ 63 else 0) + (1023 + highBit n.natAbs n.natAbs) * 2 ^ 52 +
        (n.natAbs * 2 ^ (52 - highBit n.natAbs n.natAbs) - 2 ^ 52) := by
    unfold Float64.ofInt
    rw [if_neg hn]
    simp only []
    rw [if_pos he]
  refine ⟨highBit n.natAbs n.natAbs, he, hX1, hX2, ?_, ?_, ?_⟩
  · unfold Float64.expBits
    rw [hbits]
    generalize n.natAbs * 2 ^ (52 - highBit n.natAbs n.natAbs) = X at hX1 hX2
    generalize highBit n.natAbs n.natAbs = e at he
    split_ifs <;> omega
  · unfold Float64.fracBits
    rw [hbits]
    generalize n.natAbs * 2 ^ (52 - highBit n.natAbs n.natAbs) = X at hX1 hX2
    generalize highBit n.natAbs n.natAbs = e at he
    split_ifs <;> omega
  · unfold Float64.signBit
    rw [hbits]
    generalize n.natAbs * 2 ^ (52 - highBit n.natAbs n.natAbs) = X at hX1 hX2
    generalize highBit n.natAbs n.natAbs = e at he
    split_ifs <;> omega

/-- On a grid of multiples of the integer `p`, the rounding interval of an
integer value `a` whose neighbours are at most one apart holds a grid point
only when `a` itself is one, and then `a` is the nearest. -/
theorem RoundingInterval.nearest_integer (i : RoundingInterval) (a p : Nat) (hp : 0 < p)
    (hmid : i.mid = a * i.den) (hden : 4 ≤ i.den) (hlo1 : i.lo < i.mid)
    (hlo2 : i.mid ≤ i.lo + 2) (hhi : i.hi = i.mid + 2) :
    i.nearest p 1 = if p ∣ a then some (a / p) else none := by
  have hdenpos : 0 < i.den := by omega
  have hc : i.mid * 1 / (i.den * p) = a / p := by
    rw [hmid, Nat.mul_one, Nat.mul_comm a i.den, Nat.mul_div_mul_left _ _ hdenpos]
  have hK : a / p * p ≤ a := Nat.div_mul_le_self a p
  have hK2 : a < (a / p + 1) * p := by
    have := Nat.lt_succ_self (a / p)
    exact (Nat.div_lt_iff_lt_mul hp).mp this
  have hupN : a * i.den + i.den ≤ (a / p + 1) * p * i.den := by
    have : (a + 1) * i.den ≤ (a / p + 1) * p * i.den := Nat.mul_le_mul_right _ hK2
    rw [Nat.add_mul, Nat.one_mul] at this
    exact this
  have hup : i.contains (a / p + 1) p 1 = false := by
    unfold RoundingInterval.contains
    cases hcl : i.closed <;> simp <;> omega
  by_cases hdiv : p ∣ a
  · have hKeq : a / p * p = a := Nat.div_mul_cancel hdiv
    have hdown : i.contains (a / p) p 1 = true := by
      unfold RoundingInterval.contains
      rw [hKeq]
      cases hcl : i.closed <;> simp <;> omega
    unfold RoundingInterval.nearest
    simp only [hc, hdown, hup, if_pos hdiv]
    simp
  · have hKlt : a / p * p < a := by
      rcases Nat.lt_or_ge (a / p * p) a with h | h
      · exact h
      · exact absurd (Dvd.intro_left _ (Nat.le_antisymm hK h)) hdiv
    have hdownN : a / p * p * i.den + i.den ≤ a * i.den := by
      have : (a / p * p + 1) * i.den ≤ a * i.den := Nat.mul_le_mul_right _ hKlt
      rw [Nat.add_mul, Nat.one_mul] at this
      exact this
    have hdown : i.contains (a / p) p 1 = false := by
      unfold RoundingInterval.contains
      cases hcl : i.closed <;> simp <;> omega
    unfold RoundingInterval.nearest
    simp only [hc, hdown, hup, if_neg hdiv]
    simp

/-- The search over integer grids finds the integer value itself. -/
theorem RoundingInterval.shortestInteger_integer (i : RoundingInterval) (a : Nat)
    (hmid : i.mid = a * i.den) (hden : 4 ≤ i.den) (hlo1 : i.lo < i.mid)
    (hlo2 : i.mid ≤ i.lo + 2) (hhi : i.hi = i.mid + 2) (j : Nat) :
    i.shortestInteger j = some a := by
  induction j with
  | zero =>
    unfold RoundingInterval.shortestInteger
    rw [RoundingInterval.nearest_integer i a 1 (by decide) hmid hden hlo1 hlo2 hhi,
      if_pos (one_dvd a), Nat.div_one]
  | succ j ih =>
    unfold RoundingInterval.shortestInteger
    rw [RoundingInterval.nearest_integer i a (10 ^ (j + 1)) (pow_pos (by decide) _) hmid hden hlo1
      hlo2 hhi]
    by_cases hdiv : 10 ^ (j + 1) ∣ a
    · rw [if_pos hdiv]
      simp only []
      rw [Nat.div_mul_cancel hdiv]
    · rw [if_neg hdiv]
      exact ih

/-- The rounding interval of the `float64` holding a nonzero integer of
absolute value below `2^53`. -/
theorem Float64.ofInt_interval (n : Int) (hn : n ≠ 0) (hlt : n.natAbs < 2 ^ 53) :
    (Float64.ofInt n).interval.mid = n.natAbs * (Float64.ofInt n).interval.den ∧
    4 ≤ (Float64.ofInt n).interval.den ∧
    (Float64.ofInt n).interval.lo < (Float64.ofInt n).interval.mid ∧
    (Float64.ofInt n).interval.mid ≤ (Float64.ofInt n).interval.lo + 2 ∧
    (Float64.ofInt n).interval.hi = (Float64.ofInt n).interval.mid + 2 := by
  obtain ⟨e, he, hX1, hX2, hexp, hfrac, _⟩ := Float64.ofInt_fields n hn hlt
  have hexp0 : ¬ (1023 + e = 0) := by omega
  have hpow0 : 2 ^ (1023 + e - 1077) = 1 := by
    have : 1023 + e - 1077 = 0 := by omega
    rw [this, pow_zero]
  have hden : 2 ^ (1077 - (1023 + e)) = 2 ^ (52 - e) * 4 := by
    have : 1077 - (1023 + e) = 52 - e + 2 := by omega
    rw [this, pow_add]
    rfl
  have hpos : 0 < 2 ^ (52 - e) := pow_pos (by decide) _
  unfold Float64.interval
  simp only [hexp, hfrac, if_neg hexp0, hpow0, hden, Nat.mul_one]
  have hmul : n.natAbs * (2 ^ (52 - e) * 4) = 4 * (n.natAbs * 2 ^ (52 - e)) := by ring
  rw [hmul]
  generalize n.natAbs * 2 ^ (52 - e) = X at hX1 hX2
  generalize 2 ^ (52 - e) = P at hpos
  refine ⟨by omega, by omega, ?_, ?_, trivial⟩
  · split_ifs <;> omega
  · split_ifs <;> omega

/-- The decimal string of an integer. -/
theorem toString_int (n : Int) :
    toString n = (if n < 0 then "-" else "") ++ toString n.natAbs := by
  cases n with
  | ofNat m =>
    have : ¬ (Int.ofNat m < 0) := by simp
    rw [if_neg this]
    show toString m = "" ++ toString m
    rw [String.empty_append]
  | negSucc m =>
    have : Int.negSucc m < 0 := Int.negSucc_lt_zero m
    rw [if_pos this]
    rfl

/-- The `float64` holding an integer `n` with `|n| < 2^53` is formatted as the
decimal digits of `n`. -/
theorem FormatFloatShortestF_ofInt (n : Int) (hlt : n.natAbs < 2 ^ 53) :
    FormatFloatShortestF (Float64.ofInt n) = toString n := by
  by_cases hn : n = 0
  · subst hn
    decide
  · obtain ⟨e, he, _, _, hexp, _, hsign⟩ := Float64.ofInt_fields n hn hlt
    obtain ⟨hmid, hden, hlo1, hlo2, hhi⟩ := Float64.ofInt_interval n hn hlt
    have hexp1 : ¬ (1023 + e = 2047) := by omega
    have hexp2 : ¬ (1023 + e = 0) := by omega
    unfold FormatFloatShortestF
    rw [hexp, if_neg hexp1]
    simp only [hexp2, false_and, if_false]
    rw [RoundingInterval.shortestInteger_integer _ n.natAbs hmid hden hlo1 hlo2 hhi 309, hsign,
      toString_int]
    by_cases hneg : n < 0
    · simp [hneg]
    · simp [hneg]


set_option exponentiation.threshold 400 in
set_option maxRecDepth 100000 in
/-- The model of `FormatFloat` on familiar values: 1.5, 0.1, 100, `1e21`,
`2^53 + 2`, the smallest positive `float64` times `2^1022` (that is `2^-52`),
negative zero and the infinities. -/
theorem FormatFloatShortestF_examples :
    FormatFloatShortestF { bits := 0x3FF8000000000000 } = "1.5" ∧
    FormatFloatShortestF { bits := 0x3FB999999999999A } = "0.1" ∧
    FormatFloatShortestF { bits := 0x4059000000000000 } = "100" ∧
    FormatFloatShortestF { bits := 0x444B1AE4D6E2EF50 } = "1000000000000000000000" ∧
    FormatFloatShortestF { bits := 0x4340000000000001 } = "9007199254740994" ∧
    FormatFloatShortestF { bits := 0x3CB0000000000000 } = "0.0000000000000002220446049250313" ∧
    FormatFloatShortestF { bits := 0x8000000000000000 } = "-0" ∧
    FormatFloatShortestF { bits := 0x7FF0000000000000 } = "+Inf" ∧
    FormatFloatShortestF { bits := 0xFFF0000000000000 } = "-Inf" ∧
    FormatFloatShortestF { bits := 0x7FF8000000000000 } = "NaN" := by
  decide

/-- C30, as the code has it: `ReadString` renders the matched value by its
type: a string verbatim, untrimmed, a boolean as `true` or `false`, and a
`float64` through `strconv.FormatFloat(v, 'f', -1, 64)`. The `float64` that
holds an integer `n` with `|n| < 2^53` comes out as the decimal digits of `n`,
with no exponent and no fractional part, as 42 comes out as `42`. So
`ReadString({"a":true,"b":"x"}, "a", "b")` is `"true"`. -/
theorem ReadString_conversion (formatFloat : Float64 → String) (raw : AnyMap) (key : String) :
    (∀ s : String, AnyMap.get raw key = some (AnyValue.str s) →
      ReadString formatFloat raw [key] = s) ∧
    (∀ b : Bool, AnyMap.get raw key = some (AnyValue.bool b) →
      ReadString formatFloat raw [key] = if b = true then "true" else "false") ∧
    (∀ v : Float64, AnyMap.get raw key = some (AnyValue.float v) →
      ReadString FormatFloatShortestF raw [key] = FormatFloatShortestF v) ∧
    (∀ n : Int, n.natAbs < 2 ^ 53 →
      AnyMap.get raw key = some (AnyValue.float (Float64.ofInt n)) →
      ReadString FormatFloatShortestF raw [key] = toString n) ∧
    ReadString FormatFloatShortestF (some [("n", AnyValue.float (Float64.ofInt 42))]) ["n"] =
      "42" ∧
    ReadString formatFloat (some [("a", AnyValue.bool true), ("b", AnyValue.str "x")])
      ["a", "b"] = "true" := by
  refine ⟨?_, ?_, ?_, ?_, ?_, rfl⟩
  · intro s hs
    rw [ReadString_present formatFloat raw key [] _ hs]
    rfl
  · intro b hb
    rw [ReadString_present formatFloat raw key [] _ hb]
    rfl
  · intro v hv
    rw [ReadString_present FormatFloatShortestF raw key [] _ hv]
    rfl
  · intro n hlt hn
    rw [ReadString_present FormatFloatShortestF raw key [] _ hn]
    exact FormatFloatShortestF_ofInt n hlt
  · rw [ReadString_present FormatFloatShortestF
      (some [("n", AnyValue.float (Float64.ofInt 42))]) "n" []
      (AnyValue.float (Float64.ofInt 42)) rfl]
    exact FormatFloatShortestF_ofInt 42 (by decide)

/-- Witness for C30: an untrimmed string comes back verbatim, and the number
-7 comes back as `-7`. -/
theorem ReadString_conversion_witness :
    ReadString toyFormatFloat (some [("s", AnyValue.str " x ")]) ["s"] = " x " ∧
    ReadString FormatFloatShortestF (some [("n", AnyValue.float (Float64.ofInt (-7)))]) ["n"] =
      toString (-7 : Int) :=
  ⟨(ReadString_conversion toyFormatFloat (some [("s", AnyValue.str " x ")]) "s").1 " x "
      (by decide),
   (ReadString_conversion toyFormatFloat (some [("n", AnyValue.float (Float64.ofInt (-7)))])
      "n").2.2.2.1 (-7) (by decide) rfl⟩

set_option exponentiation.threshold 400 in
set_option maxRecDepth 100000 in
/-- C30 as stated fails for large integral numbers. The JSON number
9223372036854775808, which is `2^63`, decodes to the `float64` with the bits
`0x43E0000000000000`, which holds it exactly; `ReadString` returns
`9223372036854776000`, the shortest digits that read back as that `float64`,
and not the decimal digits of the number. Already 9007199254740993, which is
`2^53 + 1`, is not a `float64`: it decodes to the `float64` holding `2^53`, and
`ReadString` returns `9007199254740992`. -/
theorem ReadString_large_integer_counterexample :
    (Float64.ofInt 9223372036854775808 = { bits := 0x43E0000000000000 } ∧
      (Float64.ofInt 9223372036854775808).interval.mid =
        9223372036854775808 * (Float64.ofInt 9223372036854775808).interval.den ∧
      ReadString FormatFloatShortestF
        (some [("n", AnyValue.float (Float64.ofInt 9223372036854775808))]) ["n"] =
        "9223372036854776000" ∧
      ReadString FormatFloatShortestF
        (some [("n", AnyValue.float (Float64.ofInt 9223372036854775808))]) ["n"] ≠
        toString (9223372036854775808 : Int)) ∧
    (Float64.ofInt 9007199254740993 = { bits := 0x4340000000000000 } ∧
      ReadString FormatFloatShortestF
        (some [("n", AnyValue.float (Float64.ofInt 9007199254740993))]) ["n"] =
        "9007199254740992" ∧
      ReadString FormatFloatShortestF
        (some [("n", AnyValue.float (Float64.ofInt 9007199254740993))]) ["n"] ≠
        toString (9007199254740993 : Int)) := by
  decide

/-! ## Text previews: theorems -/

/-- The bytes of a list of one-byte characters are their code points. -/
theorem encodeRunes_ascii (l : List Char) (h : ∀ c ∈ l, c.toNat < 0x80) :
    encodeRunes l = l.map Char.toNat := by
  induction l with
  | nil => rfl
  | cons c cs ih =>
    have hc : c.toNat < 0x80 := h c (List.mem_cons_self c cs)
    have hcs : ∀ d ∈ cs, d.toNat < 0x80 := fun d hd => h d (List.mem_cons_of_mem c hd)
    rw [encodeRunes, ih hcs, List.map_cons]
    unfold encodeRune
    simp only [if_pos hc]
    rfl

/-- The bytes of a concatenation are the concatenation of the bytes. -/
theorem encodeRunes_append (l1 l2 : List Char) :
    encodeRunes (l1 ++ l2) = encodeRunes l1 ++ encodeRunes l2 := by
  induction l1 with
  | nil => rfl
  | cons c cs ih => rw [List.cons_append, encodeRunes, encodeRunes, ih, List.append_assoc]

/-- C32, as the code has it, for text whose trimmed form is made of one-byte
(ASCII) characters: when the trimmed text is at most 120 characters long it is
returned unchanged; when it is longer, the result is its first 120 characters
followed by the marker `...`, 123 characters in all; so the returned string is
at most 123 characters long. -/
theorem SummarizeText_bound (text : String)
    (hascii : ∀ c ∈ (TrimSpace text).data, c.toNat < 0x80) :
    ((TrimSpace text).length ≤ 120 → SummarizeText text = goBytes (TrimSpace text)) ∧
    (120 < (TrimSpace text).length →
      SummarizeText text = goBytes (⟨(TrimSpace text).data.take 120⟩ ++ "...") ∧
      (⟨(TrimSpace text).data.take 120⟩ ++ "..." : String).length = 123) ∧
    (∃ preview : String, SummarizeText text = goBytes preview ∧ preview.length ≤ 123) := by
  have hbytes : (goBytes (TrimSpace text)).length = (TrimSpace text).length := by
    unfold goBytes
    rw [encodeRunes_ascii _ hascii, List.length_map]
    rfl
  have hshort : (TrimSpace text).length ≤ 120 →
      SummarizeText text = goBytes (TrimSpace text) := by
    intro hlen
    unfold SummarizeText
    by_cases hempty : TrimSpace text = ""
    · rw [if_pos hempty, hempty]
    · rw [if_neg hempty, if_pos (by rw [hbytes]; exact hlen)]
  have hlong : 120 < (TrimSpace text).length →
      SummarizeText text = goBytes (⟨(TrimSpace text).data.take 120⟩ ++ "...") ∧
      (⟨(TrimSpace text).data.take 120⟩ ++ "..." : String).length = 123 := by
    intro hlen
    have hdata : 120 < (TrimSpace text).data.length := hlen
    have htake : ∀ c ∈ (TrimSpace text).data.take 120, c.toNat < 0x80 :=
      fun c hc => hascii c (List.mem_of_mem_take hc)
    constructor
    · unfold SummarizeText
      have hempty : TrimSpace text ≠ "" := by
        intro hcon
        rw [hcon] at hlen
        exact absurd hlen (by decide)
      rw [if_neg hempty, if_neg (by rw [hbytes]; omega)]
      unfold goBytes
      rw [String.data_append, encodeRunes_append, encodeRunes_ascii _ hascii,
        encodeRunes_ascii _ htake, List.map_take]
    · rw [String.length_append]
      show ((TrimSpace text).data.take 120).length + 3 = 123
      rw [List.length_take]
      omega
  refine ⟨hshort, hlong, ?_⟩
  by_cases hlen : (TrimSpace text).length ≤ 120
  · exact ⟨TrimSpace text, hshort hlen, by omega⟩
  · have hgt : 120 < (TrimSpace text).length := by omega
    exact ⟨_, (hlong hgt).1, by rw [(hlong hgt).2]⟩

/-- Witness for C32: `"  hi  "` is short and comes back trimmed. -/
theorem SummarizeText_bound_witness : SummarizeText "  hi  " = goBytes (TrimSpace "  hi  ") :=
  (SummarizeText_bound "  hi  " (by decide)).1 (by decide)

set_option maxRecDepth 100000 in
/-- C32 as stated fails: for the text of 121 letters `a` the returned string
is the bytes of a string 123 characters long, more than 120; and the text of 41
times the three-byte character U+4E2D, which is 41 characters long, is not
returned unchanged. -/
theorem SummarizeText_length_counterexample :
    (SummarizeText ⟨List.replicate 121 'a'⟩ = goBytes ⟨List.replicate 120 'a' ++ ['.', '.', '.']⟩ ∧
      (⟨List.replicate 120 'a' ++ ['.', '.', '.']⟩ : String).length = 123 ∧
      ¬ ((⟨List.replicate 120 'a' ++ ['.', '.', '.']⟩ : String).length ≤ 120)) ∧
    ((TrimSpace ⟨List.replicate 41 (Char.ofNat 0x4E2D)⟩).length = 41 ∧
      SummarizeText ⟨List.replicate 41 (Char.ofNat 0x4E2D)⟩ ≠
        goBytes (TrimSpace ⟨List.replicate 41 (Char.ofNat 0x4E2D)⟩)) := by
  decide

/-! ## Chat messages: lemmas and theorems -/

/-- The loop of `TextContent` collects the texts that are not blank. -/
theorem foldl_textContentStep (parts : List ContentPart) (texts : List String) :
    parts.foldl textContentStep texts =
      texts ++ (parts.filter (fun p => decide (TrimSpace p.Text ≠ ""))).map (fun p => p.Text) := by
  induction parts generalizing texts with
  | nil => simp
  | cons p rest ih =>
    rw [List.foldl_cons, ih]
    unfold textContentStep
    by_cases hp : TrimSpace p.Text = ""
    · simp [hp, List.filter_cons]
    · simp [hp, List.filter_cons]

/-- The loop of `filterContentParts` keeps the parts with a value. -/
theorem foldl_filterStep (parts filtered : List ContentPart) :
    parts.foldl filterStep filtered = filtered ++ parts.filter ContentPart.HasValue := by
  induction parts generalizing filtered with
  | nil => simp
  | cons p rest ih =>
    rw [List.foldl_cons, ih]
    unfold filterStep
    by_cases hp : p.HasValue = true
    · simp [hp, List.filter_cons]
    · simp [hp, List.filter_cons]

/-- `filterContentParts` is the filter by `HasValue`. -/
theorem filterContentParts_eq (parts : List ContentPart) :
    filterContentParts parts = parts.filter ContentPart.HasValue := by
  unfold filterContentParts
  by_cases hlen : parts.length = 0
  · rw [if_pos hlen, List.length_eq_zero.mp hlen]
    rfl
  · rw [if_neg hlen, foldl_filterStep]
    simp

/-- C33, as the code has it: content that decodes as a JSON string is
returned directly; for content that decodes as an array of parts, all of type
`text`, the result is the newline-join, in order, of the `Text` of the parts
whose `Text` is not blank; empty content and content that decodes as neither
give `""`. -/
theorem TextContent_spec (unmarshalString : List UInt8 → Option String)
    (unmarshalParts : List UInt8 → Option (List ContentPart)) (m : ModelMessage) :
    (m.Content = [] → m.TextContent unmarshalString unmarshalParts = "") ∧
    (∀ s : String, m.Content ≠ [] → unmarshalString m.Content = some s →
      m.TextContent unmarshalString unmarshalParts = s) ∧
    (∀ parts : List ContentPart, m.Content ≠ [] → unmarshalString m.Content = none →
      unmarshalParts m.Content = some parts → (∀ p ∈ parts, p.Typ = "text") →
      m.TextContent unmarshalString unmarshalParts =
        Join ((parts.filter (fun p => decide (TrimSpace p.Text ≠ ""))).map (fun p => p.Text))
          "\n") ∧
    (unmarshalString m.Content = none → unmarshalParts m.Content = none →
      m.TextContent unmarshalString unmarshalParts = "") := by
  refine ⟨?_, ?_, ?_, ?_⟩
  · intro hempty
    unfold ModelMessage.TextContent
    rw [hempty]
    rfl
  · intro s hne hs
    have hlen : m.Content.length ≠ 0 := fun h => hne (List.length_eq_zero.mp h)
    unfold ModelMessage.TextContent
    rw [if_neg hlen, hs]
  · intro parts hne hs hp _
    have hlen : m.Content.length ≠ 0 := fun h => hne (List.length_eq_zero.mp h)
    unfold ModelMessage.TextContent
    rw [if_neg hlen, hs, hp]
    simp only
    rw [foldl_textContentStep]
    simp
  · intro hs hp
    unfold ModelMessage.TextContent
    by_cases hlen : m.Content.length = 0
    · rw [if_pos hlen]
    · rw [if_neg hlen, hs, hp]

set_option maxRecDepth 100000 in
/-- Witness for C33: of the three text parts `one`, no text and `" two "`,
the first and the last are joined. -/
theorem TextContent_spec_witness :
    ModelMessage.TextContent toyString toyParts { Role := "assistant", Content := jsonOneNoneTwo } =
      "one\n two " :=
  (TextContent_spec toyString toyParts { Role := "assistant", Content := jsonOneNoneTwo }).2.2.1
    [{ Typ := "text", Text := "one" }, { Typ := "text", Text := "" },
      { Typ := "text", Text := " two " }]
    (by decide) (by decide) (by decide) (by decide)

set_option maxRecDepth 100000 in
/-- C33 as stated fails: for the two text parts `" "` and `a` the result is
`a`, not the join `" \na"` of the texts of the text-type parts; and for one
link part with the text `click` the result is `click`, not `""`. -/
theorem TextContent_text_parts_counterexample :
    (ModelMessage.TextContent toyString toyParts { Role := "assistant", Content := jsonBlankThenA } =
      "a" ∧
     Join (([{ Typ := "text", Text := " " }, { Typ := "text", Text := "a" }] :
       List ContentPart).filter (fun p => decide (p.Typ = "text")) |>.map (fun p => p.Text))
       "\n" = " \na") ∧
    (ModelMessage.TextContent toyString toyParts { Role := "assistant", Content := jsonLinkClick } =
      "click" ∧
     Join (([{ Typ := "link", Text := "click", URL := "http://x" }] :
       List ContentPart).filter (fun p => decide (p.Typ = "text")) |>.map (fun p => p.Text))
       "\n" = "") := by
  decide

/-- The loop of `ExtractAssistantOutputs` appends one output for each
assistant message with content. -/
theorem foldl_extractStep (unmarshalString : List UInt8 → Option String)
    (unmarshalParts : List UInt8 → Option (List ContentPart))
    (messages : List ModelMessage) (outputs : List AssistantOutput) :
    messages.foldl (extractStep unmarshalString unmarshalParts) outputs =
      outputs ++
        (messages.filter (fun m =>
          decide (m.Role = "assistant") &&
            (decide (TrimSpace (m.TextContent unmarshalString unmarshalParts) ≠ "") ||
              (m.ContentParts unmarshalParts).any ContentPart.HasValue))).map
          (fun m =>
            { Content := TrimSpace (m.TextContent unmarshalString unmarshalParts),
              Parts := (m.ContentParts unmarshalParts).filter ContentPart.HasValue }) := by
  induction messages generalizing outputs with
  | nil => simp
  | cons m rest ih =>
    rw [List.foldl_cons, ih]
    unfold extractStep
    rw [filterContentParts_eq]
    by_cases hrole : m.Role = "assistant"
    · by_cases hcontent : TrimSpace (m.TextContent unmarshalString unmarshalParts) = ""
      · by_cases hany : (m.ContentParts unmarshalParts).any ContentPart.HasValue = true
        · have hlen : ((m.ContentParts unmarshalParts).filter ContentPart.HasValue).length ≠ 0 := by
            intro h0
            have hnil := List.length_eq_zero.mp h0
            rw [List.filter_eq_nil_iff] at hnil
            obtain ⟨p, hp, hv⟩ := List.any_eq_true.mp hany
            exact hnil p hp hv
          simp [hrole, hcontent, hany, hlen, List.filter_cons]
        · have hlen : ((m.ContentParts unmarshalParts).filter ContentPart.HasValue).length = 0 := by
            rw [List.length_eq_zero, List.filter_eq_nil_iff]
            intro p hp hv
            exact hany (List.any_eq_true.mpr ⟨p, hp, hv⟩)
          simp [hrole, hcontent, hany, hlen, List.filter_cons]
      · simp [hrole, hcontent, List.filter_cons]
    · simp [hrole, List.filter_cons]

/-- C37: `ExtractAssistantOutputs` returns, in input order, one output for each
message whose `Role` is `assistant` and that has non-blank trimmed text
content or a content part with a value; its `Content` is the trimmed text
content and its `Parts` are the content parts for which `HasValue` holds, in
order. So the result is never longer than the number of assistant messages,
and the empty input gives no outputs. -/
theorem ExtractAssistantOutputs_spec (unmarshalString : List UInt8 → Option String)
    (unmarshalParts : List UInt8 → Option (List ContentPart)) (messages : List ModelMessage) :
    ExtractAssistantOutputs unmarshalString unmarshalParts messages =
      (messages.filter (fun m =>
        decide (m.Role = "assistant") &&
          (decide (TrimSpace (m.TextContent unmarshalString unmarshalParts) ≠ "") ||
            (m.ContentParts unmarshalParts).any ContentPart.HasValue))).map
        (fun m =>
          { Content := TrimSpace (m.TextContent unmarshalString unmarshalParts),
            Parts := (m.ContentParts unmarshalParts).filter ContentPart.HasValue }) ∧
    (ExtractAssistantOutputs unmarshalString unmarshalParts messages).length ≤
      (messages.filter (fun m => decide (m.Role = "assistant"))).length ∧
    ExtractAssistantOutputs unmarshalString unmarshalParts [] = [] := by
  have hmain : ExtractAssistantOutputs unmarshalString unmarshalParts messages =
      (messages.filter (fun m =>
        decide (m.Role = "assistant") &&
          (decide (TrimSpace (m.TextContent unmarshalString unmarshalParts) ≠ "") ||
            (m.ContentParts unmarshalParts).any ContentPart.HasValue))).map
        (fun m =>
          { Content := TrimSpace (m.TextContent unmarshalString unmarshalParts),
            Parts := (m.ContentParts unmarshalParts).filter ContentPart.HasValue }) := by
    unfold ExtractAssistantOutputs
    by_cases hlen : messages.length = 0
    · rw [if_pos hlen, List.length_eq_zero.mp hlen]
      rfl
    · rw [if_neg hlen, foldl_extractStep]
      simp
  refine ⟨hmain, ?_, rfl⟩
  rw [hmain, List.length_map]
  apply List.Sublist.length_le
  apply List.monotone_filter_right
  intro m hm
  simp only [Bool.and_eq_true] at hm
  exact hm.1

/-! ## Display names, repeated stops, local senders -/

/-- If dropping the trailing run leaves nothing, everything was in the run. -/
theorem dropTrailing_eq_nil (p : Char → Bool) (l : List Char) (h : dropTrailing p l = []) :
    ∀ c ∈ l, p c = true := by
  induction l with
  | nil => simp
  | cons c cs ih =>
    rw [dropTrailing] at h
    cases hr : dropTrailing p cs with
    | nil =>
      rw [hr] at h
      simp only at h
      by_cases hc : p c = true
      · intro d hd
        rcases List.mem_cons.mp hd with hdc | hdcs
        · rw [hdc]
          exact hc
        · exact ih hr d hdcs
      · rw [if_neg hc] at h
        exact absurd h (by simp)
    | cons d ds =>
      rw [hr] at h
      exact absurd h (by simp)

/-- A string is trimmed to the empty string exactly when it is white space
only. -/
theorem TrimSpace_eq_empty_iff (s : String) :
    TrimSpace s = "" ↔ ∀ c ∈ s.data, isSpace c = true := by
  constructor
  · intro h
    have hdata : dropTrailing isSpace (s.data.dropWhile isSpace) = [] := by
      have := congrArg String.data h
      simpa [TrimSpace] using this
    have hall := dropTrailing_eq_nil isSpace _ hdata
    have hnil : s.data.dropWhile isSpace = [] := by
      cases hd : s.data.dropWhile isSpace with
      | nil => rfl
      | cons c cs =>
        have hnot := List.head_dropWhile_not isSpace s.data (by rw [hd]; simp)
        have hc : isSpace c = true := hall c (by rw [hd]; simp)
        simp [hd, hc] at hnot
    exact List.dropWhile_eq_nil_iff.mp hnil
  · exact TrimSpace_all_space s

/-- C34: when registration succeeds, the stored descriptor has the normalised
type as its `DisplayName` if the given `DisplayName` is empty or white space
only, and the given `DisplayName`, exactly, otherwise. -/
theorem register_default_display_name {C P S : Type} (unicodeToLower : Char → Char)
    (registry : channelRegistry C P S) (D : ChannelDescriptor C P S)
    (hne : normalizeChannelType unicodeToLower D.Typ ≠ "")
    (hnew : GoMap.get registry.items (normalizeChannelType unicodeToLower D.Typ) = none) :
    ((∀ c ∈ D.DisplayName.data, isSpace c = true) →
      (GetChannelDescriptor unicodeToLower (RegisterChannel unicodeToLower registry D).1
        D.Typ).map (fun stored => stored.DisplayName) =
        some (normalizeChannelType unicodeToLower D.Typ)) ∧
    (¬ (∀ c ∈ D.DisplayName.data, isSpace c = true) →
      (GetChannelDescriptor unicodeToLower (RegisterChannel unicodeToLower registry D).1
        D.Typ).map (fun stored => stored.DisplayName) = some D.DisplayName) := by
  have hreg := RegisterChannel_cases unicodeToLower registry D
  rw [if_neg hne, hnew] at hreg
  simp only at hreg
  have hget : GetChannelDescriptor unicodeToLower (RegisterChannel unicodeToLower registry D).1
      D.Typ = some { D with
        Typ := normalizeChannelType unicodeToLower D.Typ
        DisplayName :=
          if TrimSpace D.DisplayName = "" then normalizeChannelType unicodeToLower D.Typ
          else D.DisplayName } := by
    unfold GetChannelDescriptor
    simp only [hreg]
    exact GoMap.get_set_self _ _ _
  rw [hget]
  constructor
  · intro hblank
    have ht := (TrimSpace_eq_empty_iff D.DisplayName).mpr hblank
    simp only [Option.map_some', if_pos ht]
  · intro hnonblank
    have ht : TrimSpace D.DisplayName ≠ "" :=
      fun h => hnonblank ((TrimSpace_eq_empty_iff D.DisplayName).mp h)
    simp only [Option.map_some', if_neg ht]

/-- Witness for C34: `Demo` registered with the name `"  "` is stored with the
name `demo`, and with the name `" My Demo "` it keeps that name. -/
theorem register_default_display_name_witness :
    (GetChannelDescriptor id (RegisterChannel id emptyRegistry (plainDescriptor "Demo" "  ")).1
      "Demo").map (fun stored => stored.DisplayName) = some "demo" ∧
    (GetChannelDescriptor id
      (RegisterChannel id emptyRegistry (plainDescriptor "Demo" " My Demo ")).1
      "Demo").map (fun stored => stored.DisplayName) = some " My Demo " :=
  ⟨(register_default_display_name id emptyRegistry (plainDescriptor "Demo" "  ") (by decide)
      rfl).1 (by decide),
   (register_default_display_name id emptyRegistry (plainDescriptor "Demo" " My Demo ")
      (by decide) rfl).2 (by decide)⟩

/-- Repeated `Stop` on a connection with a stop function: the connection only
loses its running flag, and the outside state goes through the stop function
once per call. -/
theorem BaseConnection.stopTimes_eq {Ctx World : Type} (ctx : Ctx)
    (f : Ctx → Bool → World → World × Option GoError) (n : Nat) (c : BaseConnection Ctx World)
    (w : World) (hstop : c.stop = some f) :
    BaseConnection.stopTimes ctx n (c, w) =
      ({ c with running := if n = 0 then c.running else false },
        (fun w1 => (f ctx false w1).1)^[n] w) := by
  induction n generalizing c w with
  | zero => rfl
  | succ k ih =>
    have hs : c.Stop ctx w = ({ c with running := false }, (f ctx false w).1, (f ctx false w).2) := by
      unfold BaseConnection.Stop
      rw [hstop]
      rfl
    rw [BaseConnection.stopTimes]
    simp only [hs]
    rw [ih { c with running := false } (f ctx false w).1 hstop, Function.iterate_succ_apply]
    simp

/-- C35: repeated `Stop` calls are not guarded. A fresh connection with stop
function `f` is running; after `n` consecutive `Stop` calls the outside state
has gone through `f` exactly `n` times, the next call returns the result of
its own invocation of `f`, `Running()` is false once a call has been made, and
`ConfigID`, `BotID` and `ChannelType` are still those of the config given to
`NewConnection`. -/
theorem stop_repeated {Ctx World : Type} (cfg : ChannelConfig)
    (f : Ctx → Bool → World → World × Option GoError) (ctx : Ctx) (w : World) (n : Nat) :
    (NewConnection cfg (some f) : BaseConnection Ctx World).Running = true ∧
    (BaseConnection.stopTimes ctx n (NewConnection cfg (some f), w)).2 =
      (fun w1 => (f ctx false w1).1)^[n] w ∧
    ((BaseConnection.stopTimes ctx n (NewConnection cfg (some f), w)).1.Stop ctx
        (BaseConnection.stopTimes ctx n (NewConnection cfg (some f), w)).2).2.2 =
      (f ctx false ((fun w1 => (f ctx false w1).1)^[n] w)).2 ∧
    (0 < n →
      (BaseConnection.stopTimes ctx n (NewConnection cfg (some f), w)).1.Running = false) ∧
    (BaseConnection.stopTimes ctx n (NewConnection cfg (some f), w)).1.ConfigID = cfg.ID ∧
    (BaseConnection.stopTimes ctx n (NewConnection cfg (some f), w)).1.BotID = cfg.BotID ∧
    (BaseConnection.stopTimes ctx n (NewConnection cfg (some f), w)).1.ChannelType =
      cfg.ChannelType := by
  have heq := BaseConnection.stopTimes_eq ctx f n (NewConnection cfg (some f)) w rfl
  rw [heq]
  refine ⟨rfl, rfl, rfl, ?_, rfl, rfl, rfl⟩
  intro hn
  have hn0 : n ≠ 0 := by omega
  simp [BaseConnection.Running, hn0]

/-- Witness for C35: three `Stop` calls on a fresh connection with the counting
stop function leave the count at three and the connection stopped. -/
theorem stop_repeated_witness :
    (BaseConnection.stopTimes () 3
      ((NewConnection {} (some countingStop) : BaseConnection Unit Nat), 0)).1.Running = false :=
  (stop_repeated {} countingStop () 0 3).2.2.2.1 (by decide)

/-- C36: `CLIAdapter.Send` and `WebAdapter.Send` differ only in the error
text. Each fails and leaves the hub as it is when the hub is nil, when the
trimmed target is empty, or when the message is empty; otherwise each returns
no error and the hub is the result of `Publish(trimmed target, msg)` with the
message passed as it is. -/
theorem local_Send_spec (hub : Option SessionHub) (cfg : ChannelConfig) (msg : OutboundMessage) :
    (hub = none →
      (CLIAdapter.Send hub cfg msg).1 = none ∧ (CLIAdapter.Send hub cfg msg).2 ≠ none ∧
      (WebAdapter.Send hub cfg msg).1 = none ∧ (WebAdapter.Send hub cfg msg).2 ≠ none) ∧
    (∀ h : SessionHub, hub = some h →
      (TrimSpace msg.Target = "" ∨ msg.Message.IsEmpty = true) →
      (CLIAdapter.Send hub cfg msg).1 = some h ∧ (CLIAdapter.Send hub cfg msg).2 ≠ none ∧
      (WebAdapter.Send hub cfg msg).1 = some h ∧ (WebAdapter.Send hub cfg msg).2 ≠ none) ∧
    (∀ h : SessionHub, hub = some h → TrimSpace msg.Target ≠ "" →
      msg.Message.IsEmpty = false →
      CLIAdapter.Send hub cfg msg = (some (h.Publish (TrimSpace msg.Target) msg), none) ∧
      WebAdapter.Send hub cfg msg = (some (h.Publish (TrimSpace msg.Target) msg), none)) ∧
    ((CLIAdapter.Send hub cfg msg).1 = (WebAdapter.Send hub cfg msg).1 ∧
      ((CLIAdapter.Send hub cfg msg).2 = none ↔ (WebAdapter.Send hub cfg msg).2 = none)) := by
  refine ⟨?_, ?_, ?_, ?_⟩
  · intro hnil
    rw [hnil]
    simp [CLIAdapter.Send, WebAdapter.Send]
  · intro h hh hbad
    rw [hh]
    unfold CLIAdapter.Send WebAdapter.Send
    by_cases ht : TrimSpace msg.Target = ""
    · simp [ht]
    · have he : msg.Message.IsEmpty = true := by
        rcases hbad with hb | hb
        · exact absurd hb ht
        · exact hb
      simp [ht, he]
  · intro h hh ht he
    rw [hh]
    unfold CLIAdapter.Send WebAdapter.Send
    simp [ht, he]
  · unfold CLIAdapter.Send WebAdapter.Send
    cases hub with
    | none => simp
    | some h =>
      by_cases ht : TrimSpace msg.Target = ""
      · simp [ht]
      · by_cases he : msg.Message.IsEmpty = true
        · simp [ht, he]
        · simp [ht, he]

/-- Witness for C36: a message for `" s "` reaches stream `b` of session `s`
with its target untrimmed; a blank target fails and leaves the hub alone. -/
theorem local_Send_spec_witness :
    CLIAdapter.Send (some fullAndEmptyHub) {} (textMessage " s " "hello") =
      (some (fullAndEmptyHub.Publish (TrimSpace (textMessage " s " "hello").Target)
        (textMessage " s " "hello")), none) ∧
    (WebAdapter.Send (some fullAndEmptyHub) {} (textMessage "  " "hello")).1 =
      some fullAndEmptyHub :=
  ⟨((local_Send_spec (some fullAndEmptyHub) {} (textMessage " s " "hello")).2.2.1
      fullAndEmptyHub rfl (by decide) (by decide)).1,
   ((local_Send_spec (some fullAndEmptyHub) {} (textMessage "  " "hello")).2.1
      fullAndEmptyHub rfl (Or.inl (by decide))).2.2.1⟩

/-! ## Registry invariant -/

/-- A step keeps the registry well-formed: every key is a non-empty normalised
type, and the descriptor under it carries that type and a non-blank name. -/
theorem channelRegistry.step_invariant {C P S : Type} (u : Char → Char)
    (reg : channelRegistry C P S) (op : RegistryOp C P S)
    (hinv : ∀ key E, GoMap.get reg.items key = some E →
      key ≠ "" ∧ (∃ raw, key = normalizeChannelType u raw) ∧ E.Typ = key ∧
        TrimSpace E.DisplayName ≠ "") :
    ∀ key E, GoMap.get (reg.step u op).items key = some E →
      key ≠ "" ∧ (∃ raw, key = normalizeChannelType u raw) ∧ E.Typ = key ∧
        TrimSpace E.DisplayName ≠ "" := by
  intro key E hget
  cases op with
  | register D =>
    simp only [channelRegistry.step] at hget
    rw [RegisterChannel_cases] at hget
    by_cases hn : normalizeChannelType u D.Typ = ""
    · rw [if_pos hn] at hget
      exact hinv key E hget
    · rw [if_neg hn] at hget
      cases hg : GoMap.get reg.items (normalizeChannelType u D.Typ) with
      | some E0 =>
        rw [hg] at hget
        exact hinv key E hget
      | none =>
        rw [hg] at hget
        simp only at hget
        by_cases hk : key = normalizeChannelType u D.Typ
        · rw [hk, GoMap.get_set_self] at hget
          cases hget
          refine ⟨by rw [hk]; exact hn, ⟨D.Typ, hk⟩, hk.symm, ?_⟩
          by_cases hb : TrimSpace D.DisplayName = ""
          · simp only [if_pos hb]
            rw [normalizeChannelType_eq, TrimSpace_idem, ← normalizeChannelType_eq]
            exact hn
          · simp only [if_neg hb]
            exact hb
        · rw [GoMap.get_set_ne _ _ _ _ hk] at hget
          exact hinv key E hget
  | unregister t =>
    simp only [channelRegistry.step, UnregisterChannel] at hget
    by_cases hn : normalizeChannelType u t = ""
    · rw [if_pos hn] at hget
      exact hinv key E hget
    · rw [if_neg hn] at hget
      cases hg : GoMap.get reg.items (normalizeChannelType u t) with
      | none =>
        rw [hg] at hget
        exact hinv key E hget
      | some E0 =>
        rw [hg] at hget
        simp only at hget
        by_cases hk : key = normalizeChannelType u t
        · rw [hk, GoMap.get_delete_self] at hget
          exact Option.noConfusion hget
        · rw [GoMap.get_delete_ne _ _ _ hk] at hget
          exact hinv key E hget

/-- A history keeps the registry well-formed. -/
theorem channelRegistry.run_invariant {C P S : Type} (u : Char → Char)
    (ops : List (RegistryOp C P S)) (reg : channelRegistry C P S)
    (hinv : ∀ key E, GoMap.get reg.items key = some E →
      key ≠ "" ∧ (∃ raw, key = normalizeChannelType u raw) ∧ E.Typ = key ∧
        TrimSpace E.DisplayName ≠ "") :
    ∀ key E, GoMap.get (reg.run u ops).items key = some E →
      key ≠ "" ∧ (∃ raw, key = normalizeChannelType u raw) ∧ E.Typ = key ∧
        TrimSpace E.DisplayName ≠ "" := by
  induction ops generalizing reg with
  | nil => exact hinv
  | cons op rest ih => exact ih (reg.step u op) (channelRegistry.step_invariant u reg op hinv)

/-- C38: in every registry reached from the empty one by `RegisterChannel` and
`UnregisterChannel`, every key is a non-empty type that is its own
normalisation, the descriptor stored under it has that key as its `Type`, and
its `DisplayName` is not blank. The table `unicodeToLower` has the properties
of `unicode.ToLower`. -/
theorem registry_invariant {C P S : Type} (unicodeToLower : Char → Char)
    (htable : LowerTable unicodeToLower) (ops : List (RegistryOp C P S)) (key : String)
    (D : ChannelDescriptor C P S)
    (hget : GoMap.get ((emptyRegistry : channelRegistry C P S).run unicodeToLower ops).items key =
      some D) :
    key ≠ "" ∧ normalizeChannelType unicodeToLower key = key ∧ D.Typ = key ∧
      TrimSpace D.DisplayName ≠ "" ∧ ¬ (∀ c ∈ D.DisplayName.data, isSpace c = true) := by
  have hinv := channelRegistry.run_invariant unicodeToLower ops
    (emptyRegistry : channelRegistry C P S)
    (fun key E h => by simp [emptyRegistry, GoMap.get] at h) key D hget
  obtain ⟨hne, ⟨raw, hraw⟩, htyp, hname⟩ := hinv
  refine ⟨hne, ?_, htyp, hname, fun hall => hname ((TrimSpace_eq_empty_iff _).mpr hall)⟩
  rw [hraw]
  exact normalizeChannelType_idem unicodeToLower htable raw

/-- Witness for C38: after `" Demo "` is registered with a blank name, `web`
is registered and unregistered, the key `demo` holds a well-formed descriptor. -/
theorem registry_invariant_witness :
    ("demo" : String) ≠ "" ∧ normalizeChannelType asciiLower "demo" = "demo" ∧
      (plainDescriptor "demo" "demo").Typ = "demo" ∧
      TrimSpace (plainDescriptor "demo" "demo").DisplayName ≠ "" ∧
      ¬ (∀ c ∈ (plainDescriptor "demo" "demo").DisplayName.data, isSpace c = true) :=
  registry_invariant asciiLower asciiLower_table
    [RegistryOp.register (plainDescriptor " Demo " " "),
      RegistryOp.register (plainDescriptor "web" "Web"), RegistryOp.unregister "WEB"]
    "demo" (plainDescriptor "demo" "demo") rfl

/-! ## Hub invariant -/

/-- A step keeps the buffer of a stream within 32 messages and within the
record of what was published to its session since it subscribed. -/
theorem SessionHub.step_buffer (h : SessionHub) (op : HubOp) (s id : String)
    (record : List OutboundMessage)
    (hinv : ∀ ch, h.stream s id = some ch → ch.buf.length ≤ 32 ∧ ch.buf.Sublist record) :
    ∀ ch, (h.step op).stream s id = some ch →
      ch.buf.length ≤ 32 ∧ ch.buf.Sublist (publishedStep s id record op) := by
  intro ch hch
  cases op with
  | subscribe s1 id1 =>
    simp only [SessionHub.step] at hch
    rw [SessionHub.stream_Subscribe] at hch
    by_cases hc : s = s1 ∧ id = id1
    · rw [if_pos hc] at hch
      cases hch
      exact ⟨by simp, List.nil_sublist _⟩
    · rw [if_neg hc] at hch
      have hc' : ¬ (s1 = s ∧ id1 = id) := fun hx => hc ⟨hx.1.symm, hx.2.symm⟩
      simp only [publishedStep, if_neg hc']
      exact hinv ch hch
  | cancel s1 id1 =>
    simp only [SessionHub.step] at hch
    rw [SessionHub.stream_cancel] at hch
    by_cases hc : s = s1 ∧ id = id1
    · rw [if_pos hc] at hch
      exact Option.noConfusion hch
    · rw [if_neg hc] at hch
      exact hinv ch hch
  | publish s1 msg =>
    simp only [SessionHub.step] at hch
    rw [SessionHub.stream_Publish] at hch
    by_cases hs : s = s1
    · rw [if_pos hs] at hch
      simp only [publishedStep, if_pos hs.symm]
      cases hold : h.stream s id with
      | none =>
        rw [hold] at hch
        exact Option.noConfusion hch
      | some ch0 =>
        rw [hold] at hch
        simp only [Option.map_some', Option.some.injEq] at hch
        obtain ⟨hlen, hsub⟩ := hinv ch0 hold
        by_cases hroom : ch0.buf.length < 32
        · rw [trySend_room ch0 msg hroom] at hch
          rw [← hch]
          refine ⟨by simp; omega, ?_⟩
          exact List.Sublist.append hsub (List.Sublist.refl _)
        · rw [trySend_full ch0 msg (Nat.not_lt.mp hroom)] at hch
          rw [← hch]
          exact ⟨hlen, hsub.trans (List.sublist_append_left _ _)⟩
    · rw [if_neg hs] at hch
      have hs' : ¬ s1 = s := fun hx => hs hx.symm
      simp only [publishedStep, if_neg hs']
      exact hinv ch hch
  | receive s1 id1 =>
    simp only [SessionHub.step] at hch
    rw [SessionHub.stream_receive] at hch
    simp only [publishedStep]
    by_cases hc : s = s1 ∧ id = id1
    · rw [if_pos hc] at hch
      cases hold : h.stream s id with
      | none =>
        rw [hold] at hch
        exact Option.noConfusion hch
      | some ch0 =>
        rw [hold] at hch
        simp only [Option.map_some', Option.some.injEq] at hch
        obtain ⟨hlen, hsub⟩ := hinv ch0 hold
        rw [← hch]
        refine ⟨?_, (List.tail_sublist _).trans hsub⟩
        simp only [List.length_tail]
        omega
    · rw [if_neg hc] at hch
      exact hinv ch hch

/-- A history keeps the buffer of a stream within 32 messages and within the
record of what was published to its session since it subscribed. -/
theorem SessionHub.run_buffer (ops : List HubOp) (h : SessionHub) (s id : String)
    (record : List OutboundMessage)
    (hinv : ∀ ch, h.stream s id = some ch → ch.buf.length ≤ 32 ∧ ch.buf.Sublist record) :
    ∀ ch, (h.run ops).stream s id = some ch →
      ch.buf.length ≤ 32 ∧ ch.buf.Sublist (publishedSince s id record ops) := by
  induction ops generalizing h record with
  | nil => exact hinv
  | cons op rest ih =>
    exact ih (h.step op) (publishedStep s id record op) (SessionHub.step_buffer h op s id record hinv)

/-- C39: in every hub reached from `NewSessionHub` by `Subscribe`, `cancel`,
`Publish` and consumer receives, no session entry has an empty subscriber set,
and the buffer of every subscribed stream holds at most 32 messages, which are
a subsequence, in publish order, of the messages published to the stream's
session since the stream subscribed. -/
theorem hub_invariant (ops : List HubOp) :
    (∀ sessionID streams, GoMap.get (NewSessionHub.run ops).sessions sessionID = some streams →
      streams ≠ []) ∧
    (∀ sessionID streamID ch, (NewSessionHub.run ops).stream sessionID streamID = some ch →
      ch.buf.length ≤ 32 ∧ ch.buf.Sublist (publishedSince sessionID streamID [] ops)) := by
  constructor
  · exact SessionHub.run_no_empty_session ops NewSessionHub NewSessionHub_no_empty_session
  · intro sessionID streamID
    apply SessionHub.run_buffer ops NewSessionHub sessionID streamID []
    intro ch hch
    simp [SessionHub.stream, NewSessionHub, GoMap.get] at hch

/-- Witness for C39: stream `a` subscribes to `s` after a first message, two
more are published and one is received; its buffer holds the last message,
a subsequence of the two published since it subscribed. -/
theorem hub_invariant_witness :
    ({ buf := [numberedMessage 3] } : Chan).buf.length ≤ 32 ∧
    ({ buf := [numberedMessage 3] } : Chan).buf.Sublist
      (publishedSince "s" "a" []
        [HubOp.subscribe "s" "b", HubOp.publish "s" (numberedMessage 1), HubOp.subscribe "s" "a",
          HubOp.publish "s" (numberedMessage 2), HubOp.publish "s" (numberedMessage 3),
          HubOp.receive "s" "a"]) :=
  (hub_invariant
    [HubOp.subscribe "s" "b", HubOp.publish "s" (numberedMessage 1), HubOp.subscribe "s" "a",
      HubOp.publish "s" (numberedMessage 2), HubOp.publish "s" (numberedMessage 3),
      HubOp.receive "s" "a"]).2 "s" "a" { buf := [numberedMessage 3] } (by decide)

/-! ## Session identity: unambiguous segments -/

/-- A list splits in one way only at its first `:`. -/
theorem append_colon_split (l1 l2 r1 r2 : List Char) (h1 : ':' ∉ l1) (h2 : ':' ∉ l2)
    (h : l1 ++ ':' :: r1 = l2 ++ ':' :: r2) : l1 = l2 ∧ r1 = r2 := by
  induction l1 generalizing l2 with
  | nil =>
    cases l2 with
    | nil =>
      simp only [List.nil_append, List.cons.injEq, true_and] at h
      exact ⟨rfl, h⟩
    | cons d ds =>
      simp only [List.nil_append, List.cons_append, List.cons.injEq] at h
      exact absurd (by rw [h.1]; exact List.mem_cons_self _ _) h2
  | cons c cs ih =>
    cases l2 with
    | nil =>
      simp only [List.nil_append, List.cons_append, List.cons.injEq] at h
      exact absurd (by rw [← h.1]; exact List.mem_cons_self _ _) h1
    | cons d ds =>
      simp only [List.cons_append, List.cons.injEq] at h
      have hcs : ':' ∉ cs := fun hm => h1 (List.mem_cons_of_mem _ hm)
      have hds : ':' ∉ ds := fun hm => h2 (List.mem_cons_of_mem _ hm)
      obtain ⟨hl, hr⟩ := ih ds hcs hds h.2
      exact ⟨by rw [h.1, hl], hr⟩

/-- The characters of a session ID: the three fixed parts, and then nothing or
a `:` and more. -/
theorem GenerateSessionID_data (u : Char → Char) (p b c ct s : String) :
    ∃ tail : List Char,
      (GenerateSessionID u p b c ct s).data = p.data ++ ':' :: (b.data ++ ':' :: (c.data ++ tail)) ∧
      (tail = [] ∨ ∃ rest, tail = ':' :: rest) := by
  unfold GenerateSessionID
  simp only
  split_ifs
  · refine ⟨':' :: (TrimSpace s).data, ?_, Or.inr ⟨_, rfl⟩⟩
    show (Join [p, b, c, TrimSpace s] ":").data = _
    rw [Join_four]
    simp [String.data_append]
  · refine ⟨[], ?_, Or.inl rfl⟩
    rw [Join_three]
    simp [String.data_append]
  · refine ⟨[], ?_, Or.inl rfl⟩
    rw [Join_three]
    simp [String.data_append]

/-- C40: session IDs are unambiguous when the components contain no
separator. If platform, botID, conversationID and the trimmed senderID of two
calls contain no `:` and the two results are equal, the two calls have the
same platform, the same botID and the same conversationID, whatever the
conversation types are. -/
theorem GenerateSessionID_unambiguous (unicodeToLower : Char → Char)
    (p1 b1 c1 ct1 s1 p2 b2 c2 ct2 s2 : String)
    (hp1 : ':' ∉ p1.data) (hb1 : ':' ∉ b1.data) (hc1 : ':' ∉ c1.data)
    (_hs1 : ':' ∉ (TrimSpace s1).data)
    (hp2 : ':' ∉ p2.data) (hb2 : ':' ∉ b2.data) (hc2 : ':' ∉ c2.data)
    (_hs2 : ':' ∉ (TrimSpace s2).data)
    (heq : GenerateSessionID unicodeToLower p1 b1 c1 ct1 s1 =
      GenerateSessionID unicodeToLower p2 b2 c2 ct2 s2) :
    p1 = p2 ∧ b1 = b2 ∧ c1 = c2 := by
  obtain ⟨t1, hd1, ht1⟩ := GenerateSessionID_data unicodeToLower p1 b1 c1 ct1 s1
  obtain ⟨t2, hd2, ht2⟩ := GenerateSessionID_data unicodeToLower p2 b2 c2 ct2 s2
  have hdata := congrArg String.data heq
  rw [hd1, hd2] at hdata
  obtain ⟨hp, hrest⟩ := append_colon_split _ _ _ _ hp1 hp2 hdata
  obtain ⟨hb, hrest2⟩ := append_colon_split _ _ _ _ hb1 hb2 hrest
  refine ⟨String.ext hp, String.ext hb, ?_⟩
  rcases ht1 with ht1 | ⟨r1, ht1⟩ <;> rcases ht2 with ht2 | ⟨r2, ht2⟩
  · rw [ht1, ht2, List.append_nil, List.append_nil] at hrest2
    exact String.ext hrest2
  · rw [ht1, ht2, List.append_nil] at hrest2
    exact absurd (by rw [hrest2]; simp) hc1
  · rw [ht1, ht2, List.append_nil] at hrest2
    exact absurd (by rw [← hrest2]; simp) hc2
  · rw [ht1, ht2] at hrest2
    exact String.ext (append_colon_split _ _ _ _ hc1 hc2 hrest2).1

/-- Witness for C40: two group calls with equal results. -/
theorem GenerateSessionID_unambiguous_witness :
    ("telegram" : String) = "telegram" ∧ ("bot1" : String) = "bot1" ∧
      ("chat1" : String) = "chat1" :=
  GenerateSessionID_unambiguous id "telegram" "bot1" "chat1" "group" " user1" "telegram" "bot1"
    "chat1" "channel" "user1 " (by decide) (by decide) (by decide) (by decide) (by decide)
    (by decide) (by decide) (by decide) (by decide)

end Memoh
